import Mathlib

/-!
# simple-ssdp: a shallow embedding of `lib/messages.js` and `lib/simple-ssdp.js`

JavaScript strings are sequences of UTF-16 code units, so a string is a
`List Nat` here; indices (`indexOf`, `substring`) count code units exactly as
the source does.  Buffers are lists of bytes.
-/

namespace SimpleSSDP

/-! ## JavaScript strings -/

/-- A JavaScript string: its UTF-16 code units. -/
abbrev Str := List Nat

/-- UTF-16 code units of one Unicode scalar value. -/
def utf16OfCodePoint (cp : Nat) : Str :=
  if cp < 0x10000 then [cp]
  else [0xD800 + (cp - 0x10000) / 1024, 0xDC00 + (cp - 0x10000) % 1024]

/-- The JavaScript string written by a literal. -/
def js (s : String) : Str :=
  s.data.flatMap (fun c => utf16OfCodePoint c.toNat)

/-- Decimal digits of a number, most significant first (`fuel` bounds the number of digits). -/
def digits : Nat → Nat → Str → Str
  | 0, _, acc => acc
  | fuel + 1, n, acc =>
    if n < 10 then (48 + n) :: acc else digits fuel (n / 10) ((48 + n % 10) :: acc)

/-- The text `String(n)` of a non-negative integer `n`. -/
def numToStr (n : Nat) : Str := digits (n + 1) n []

/-- The values that occur in this program: strings and (non-negative integer) numbers. -/
inductive JsVal where
  | undefined
  | str (s : Str)
  | num (n : Nat)
  deriving DecidableEq, Repr

/-- The string a value contributes to a `+` concatenation. -/
def JsVal.toStr : JsVal → Str
  | .undefined => [117, 110, 100, 101, 102, 105, 110, 101, 100]
  | .str s => s
  | .num n => numToStr n

/-- The search of `String.prototype.indexOf` from a running position: the first index at which `pat` starts. -/
def indexOfFrom (pat : Str) : Str → Nat → Option Nat
  | [], i => if pat = [] then some i else none
  | c :: cs, i => if pat.isPrefixOf (c :: cs) then some i else indexOfFrom pat cs (i + 1)

/-- The source's `s.indexOf(pat)`: index of the first occurrence, or `-1`. -/
def indexOf (s pat : Str) : Int :=
  match indexOfFrom pat s 0 with
  | some i => (i : Int)
  | none => -1

/-- The source's `s.includes(pat)`. -/
def includes (s pat : Str) : Bool := (indexOfFrom pat s 0).isSome

/-- An index argument clamped into `[0, len]`. -/
def clampIndex (i : Int) (len : Nat) : Nat := min i.toNat len

/-- The source's `s.substring(start, end)`; `end = none` is the one-argument call.  Both indices are
clamped into `[0, s.length]` and swapped when `start > end`. -/
def substring (s : Str) (start : Int) (stop : Option Int := none) : Str :=
  let a := clampIndex start s.length
  let b := match stop with
    | none => s.length
    | some e => clampIndex e s.length
  (s.take (max a b)).drop (min a b)

/-- White space and line terminators, the code units `String.prototype.trim` strips. -/
def isWhiteSpace (c : Nat) : Bool :=
  c = 0x09 || c = 0x0A || c = 0x0B || c = 0x0C || c = 0x0D || c = 0x20 || c = 0xA0 ||
  c = 0x1680 || (0x2000 ≤ c && c ≤ 0x200A) || c = 0x2028 || c = 0x2029 || c = 0x202F ||
  c = 0x205F || c = 0x3000 || c = 0xFEFF

/-- The source's `s.trim()`. -/
def trim (s : Str) : Str :=
  ((s.dropWhile isWhiteSpace).reverse.dropWhile isWhiteSpace).reverse

/-- Prepends a code unit to the first piece of a split. -/
def consHead (c : Nat) : List Str → List Str
  | [] => [[c]]
  | l :: ls => (c :: l) :: ls

/-- The pieces of `s.split(sep)` for a non-empty `sep`; `skip` counts the code units of a
separator that has just been matched and is being passed over. -/
def splitFrom (sep : Str) : Str → Nat → List Str
  | [], _ => [[]]
  | _ :: cs, skip + 1 => splitFrom sep cs skip
  | c :: cs, 0 =>
    if sep.isPrefixOf (c :: cs) then [] :: splitFrom sep cs (sep.length - 1)
    else consHead c (splitFrom sep cs 0)

/-- The source's `s.split(sep)`: with an empty separator the string is cut into its code units. -/
def split (s sep : Str) : List Str :=
  if sep = [] then s.map (fun c => [c]) else splitFrom sep s 0

/-! ## `lib/messages.js` -/

/-- The source's `config.MULTICAST_ADDRESS`. -/
def MULTICAST_ADDRESS : Str := js "239.255.255.250"

/-- The source's `config.MULTICAST_PORT`. -/
def MULTICAST_PORT : Nat := 1900

/-- The source's `msearch(st, host, port)`: the M-SEARCH text. -/
def msearch (st : Str) (host : Str := MULTICAST_ADDRESS)
    (port : JsVal := JsVal.num MULTICAST_PORT) : Str :=
  js "M-SEARCH * HTTP/1.1\r\n" ++
  js "HOST: " ++ host ++ js ":" ++ port.toStr ++ js "\r\n" ++
  js "MAN: \"ssdp:discover\"\r\n" ++
  js "MX: 3\r\n" ++
  js "ST: " ++ st ++ js "\r\n" ++
  js "\r\n"

/-- The source's `response(location, usn, product, product_version)`: the search response text.
`date` is the text of `new Date()` at the moment of the call. -/
def response (location usn product product_version date : Str) : Str :=
  let delim := indexOf usn (js "::")
  let st := trim (substring usn (delim + 1))
  js "HTTP/1.1 200 OK\r\n" ++
  js "CACHE-CONTROL: max-age = 1800\r\n" ++
  js "DATE: " ++ date ++ js "\r\n" ++
  js "EXT:\r\n" ++
  js "LOCATION: http://" ++ location ++ js "\r\n" ++
  js "SERVER: Node.js/16.2.0 UPnP/1.1 " ++ product ++ js "/" ++ product_version ++ js "\r\n" ++
  js "ST: " ++ st ++ js "\r\n" ++
  js "USN: " ++ usn ++ js "\r\n" ++
  js "\r\n"

/-- The source's `notify_alive(location, usn, product, product_version)`: the NOTIFY ssdp:alive text. -/
def notify_alive (location usn product product_version : Str) : Str :=
  let delim := indexOf usn (js "::")
  let nt := trim (substring usn (delim + 1))
  js "NOTIFY * HTTP/1.1\r\n" ++
  js "HOST: " ++ MULTICAST_ADDRESS ++ js ":" ++ (JsVal.num MULTICAST_PORT).toStr ++ js "\r\n" ++
  js "CACHE-CONTROL: max-age = 1800\r\n" ++
  js "LOCATION: http://" ++ location ++ js "\r\n" ++
  js "NT: " ++ nt ++ js "\r\n" ++
  js "NTS: ssdp:alive\r\n" ++
  js "SERVER: Node.js/16.2.0 UPnP/1.1 " ++ product ++ js "/" ++ product_version ++ js "\r\n" ++
  js "USN: " ++ usn ++ js "\r\n" ++
  js "\r\n"

/-- The source's `notify_bye(usn)`: the NOTIFY ssdp:byebye text. -/
def notify_bye (usn : Str) : Str :=
  js "NOTIFY * HTTP/1.1\r\n" ++
  js "HOST: " ++ MULTICAST_ADDRESS ++ js ":" ++ (JsVal.num MULTICAST_PORT).toStr ++ js "\r\n" ++
  js "NT: urn:schemas-upnp-org:service:DiscoveryService:1\r\n" ++
  js "NTS: ssdp:byebye\r\n" ++
  js "USN: " ++ usn ++ js "\r\n" ++
  js "\r\n"

/-! ## Buffers: `Buffer.alloc(size, fill)` and `buffer.toString()` -/

/-- A Node.js `Buffer`: its bytes. -/
abbrev Buffer := List Nat

/-- UTF-8 bytes of one code point. -/
def utf8OfCodePoint (cp : Nat) : List Nat :=
  if cp < 0x80 then [cp]
  else if cp < 0x800 then [0xC0 + cp / 64, 0x80 + cp % 64]
  else if cp < 0x10000 then [0xE0 + cp / 4096, 0x80 + cp / 64 % 64, 0x80 + cp % 64]
  else [0xF0 + cp / 262144, 0x80 + cp / 4096 % 64, 0x80 + cp / 64 % 64, 0x80 + cp % 64]

/-- A high (leading) surrogate code unit. -/
def isHighSurrogate (c : Nat) : Bool := 0xD800 ≤ c && c < 0xDC00

/-- A low (trailing) surrogate code unit. -/
def isLowSurrogate (c : Nat) : Bool := 0xDC00 ≤ c && c < 0xE000

/-- The bytes written for an unpaired surrogate: U+FFFD. -/
def replacementBytes : List Nat := [0xEF, 0xBF, 0xBD]

/-- UTF-8 encoding of a string; `high` is a leading surrogate read and not yet paired. -/
def utf8EncodeFrom : Option Nat → Str → List Nat
  | none, [] => []
  | some _, [] => replacementBytes
  | none, c :: cs =>
    if isHighSurrogate c then utf8EncodeFrom (some c) cs
    else (if isLowSurrogate c then replacementBytes else utf8OfCodePoint c) ++ utf8EncodeFrom none cs
  | some h, c :: cs =>
    if isLowSurrogate c then
      utf8OfCodePoint (0x10000 + (h - 0xD800) * 1024 + (c - 0xDC00)) ++ utf8EncodeFrom none cs
    else if isHighSurrogate c then replacementBytes ++ utf8EncodeFrom (some c) cs
    else replacementBytes ++ utf8OfCodePoint c ++ utf8EncodeFrom none cs

/-- The UTF-8 bytes of a string, as `Buffer.from(s)` and `buf.fill(s)` produce them. -/
def utf8Encode (s : Str) : List Nat := utf8EncodeFrom none s

/-- The source's `Buffer.alloc(size, fill)` with a string `fill`: `size` bytes, the UTF-8 bytes of `fill`
repeated as often as needed and cut at `size`; zero bytes when `fill` is empty. -/
def Buffer.alloc (size : Nat) (fill : Str) : Buffer :=
  let bytes := utf8Encode fill
  (List.range size).map (fun i => bytes.getD (i % bytes.length) 0)

/-- State of the UTF-8 decoder between two bytes: nothing pending, or a lead byte followed by
`seen` accepted continuation bytes carrying the bits `cp`. -/
inductive Utf8State where
  | start
  | pending (lead seen cp : Nat)
  deriving DecidableEq, Repr

/-- Number of continuation bytes a lead byte asks for. -/
def utf8Needed (lead : Nat) : Nat := if lead < 0xE0 then 1 else if lead < 0xF0 then 2 else 3

/-- Smallest continuation byte accepted after `lead` and `seen` continuation bytes. -/
def contLower (lead seen : Nat) : Nat :=
  if seen = 0 ∧ lead = 0xE0 then 0xA0 else if seen = 0 ∧ lead = 0xF0 then 0x90 else 0x80

/-- Largest continuation byte accepted after `lead` and `seen` continuation bytes. -/
def contUpper (lead seen : Nat) : Nat :=
  if seen = 0 ∧ lead = 0xED then 0x9F else if seen = 0 ∧ lead = 0xF4 then 0x8F else 0xBF

/-- A byte read with nothing pending: the code units produced and the next state. -/
def utf8Lead (b : Nat) : Str × Utf8State :=
  if b < 0x80 then ([b], .start)
  else if 0xC2 ≤ b ∧ b ≤ 0xDF then ([], .pending b 0 (b % 32))
  else if 0xE0 ≤ b ∧ b ≤ 0xEF then ([], .pending b 0 (b % 16))
  else if 0xF0 ≤ b ∧ b ≤ 0xF4 then ([], .pending b 0 (b % 8))
  else ([0xFFFD], .start)

/-- One byte through the decoder.  A byte that cannot continue the pending sequence ends it
with U+FFFD and is then read again with nothing pending. -/
def utf8Step (st : Utf8State) (b : Nat) : Str × Utf8State :=
  match st with
  | .start => utf8Lead b
  | .pending lead seen cp =>
    if contLower lead seen ≤ b ∧ b ≤ contUpper lead seen then
      if seen + 1 = utf8Needed lead then (utf16OfCodePoint (cp * 64 + b % 64), .start)
      else ([], .pending lead (seen + 1) (cp * 64 + b % 64))
    else (0xFFFD :: (utf8Lead b).1, (utf8Lead b).2)

/-- UTF-8 decoding with replacement; a sequence cut off by the end of input gives U+FFFD. -/
def utf8DecodeFrom : Utf8State → List Nat → Str
  | .start, [] => []
  | .pending _ _ _, [] => [0xFFFD]
  | st, b :: bs => (utf8Step st b).1 ++ utf8DecodeFrom (utf8Step st b).2 bs

/-- The source's `buffer.toString()`: the bytes decoded as UTF-8. -/
def Buffer.toString (b : Buffer) : Str := utf8DecodeFrom .start b

/-! ## Lower-casing: `String.prototype.toLowerCase`

The language lower-cases by the Unicode default case conversion: the string is read as code
points, every code point is replaced by its lower-case mapping, U+0130 by U+0069 U+0307, and
U+03A3 by U+03C2 at the end of a word and by U+03C3 elsewhere.  The tables are those of
Unicode 14.0. -/

/-- A run of the lower-case mappings: the code points `lo, lo + 1, ..., hi` (every second
one only when `alt` is set) map to themselves moved so that `lo` goes to `target`. -/
structure CaseRun where
  lo : Nat
  hi : Nat
  alt : Bool
  target : Nat
  deriving DecidableEq, Repr

/-- Whether a run gives the mapping of a code point. -/
def CaseRun.covers (r : CaseRun) (c : Nat) : Bool :=
  decide (r.lo ≤ c) && decide (c ≤ r.hi) && (!r.alt || decide ((c - r.lo) % 2 = 0))

/-- The lower-case mappings of single code points to single code points. -/
def lowerRuns : List CaseRun :=
  [
   CaseRun.mk 65 90 false 97, CaseRun.mk 192 214 false 224, CaseRun.mk 216 222 false 248, CaseRun.mk 256 302 true 257,
   CaseRun.mk 306 310 true 307, CaseRun.mk 313 327 true 314, CaseRun.mk 330 374 true 331, CaseRun.mk 376 376 false 255,
   CaseRun.mk 377 381 true 378, CaseRun.mk 385 385 false 595, CaseRun.mk 386 388 true 387, CaseRun.mk 390 390 false 596,
   CaseRun.mk 391 391 false 392, CaseRun.mk 393 394 false 598, CaseRun.mk 395 395 false 396, CaseRun.mk 398 398 false 477,
   CaseRun.mk 399 399 false 601, CaseRun.mk 400 400 false 603, CaseRun.mk 401 401 false 402, CaseRun.mk 403 403 false 608,
   CaseRun.mk 404 404 false 611, CaseRun.mk 406 406 false 617, CaseRun.mk 407 407 false 616, CaseRun.mk 408 408 false 409,
   CaseRun.mk 412 412 false 623, CaseRun.mk 413 413 false 626, CaseRun.mk 415 415 false 629, CaseRun.mk 416 420 true 417,
   CaseRun.mk 422 422 false 640, CaseRun.mk 423 423 false 424, CaseRun.mk 425 425 false 643, CaseRun.mk 428 428 false 429,
   CaseRun.mk 430 430 false 648, CaseRun.mk 431 431 false 432, CaseRun.mk 433 434 false 650, CaseRun.mk 435 437 true 436,
   CaseRun.mk 439 439 false 658, CaseRun.mk 440 440 false 441, CaseRun.mk 444 444 false 445, CaseRun.mk 452 452 false 454,
   CaseRun.mk 453 453 false 454, CaseRun.mk 455 455 false 457, CaseRun.mk 456 456 false 457, CaseRun.mk 458 458 false 460,
   CaseRun.mk 459 475 true 460, CaseRun.mk 478 494 true 479, CaseRun.mk 497 497 false 499, CaseRun.mk 498 500 true 499,
   CaseRun.mk 502 502 false 405, CaseRun.mk 503 503 false 447, CaseRun.mk 504 542 true 505, CaseRun.mk 544 544 false 414,
   CaseRun.mk 546 562 true 547, CaseRun.mk 570 570 false 11365, CaseRun.mk 571 571 false 572, CaseRun.mk 573 573 false 410,
   CaseRun.mk 574 574 false 11366, CaseRun.mk 577 577 false 578, CaseRun.mk 579 579 false 384, CaseRun.mk 580 580 false 649,
   CaseRun.mk 581 581 false 652, CaseRun.mk 582 590 true 583, CaseRun.mk 880 882 true 881, CaseRun.mk 886 886 false 887,
   CaseRun.mk 895 895 false 1011, CaseRun.mk 902 902 false 940, CaseRun.mk 904 906 false 941, CaseRun.mk 908 908 false 972,
   CaseRun.mk 910 911 false 973, CaseRun.mk 913 929 false 945, CaseRun.mk 931 939 false 963, CaseRun.mk 975 975 false 983,
   CaseRun.mk 984 1006 true 985, CaseRun.mk 1012 1012 false 952, CaseRun.mk 1015 1015 false 1016, CaseRun.mk 1017 1017 false 1010,
   CaseRun.mk 1018 1018 false 1019, CaseRun.mk 1021 1023 false 891, CaseRun.mk 1024 1039 false 1104, CaseRun.mk 1040 1071 false 1072,
   CaseRun.mk 1120 1152 true 1121, CaseRun.mk 1162 1214 true 1163, CaseRun.mk 1216 1216 false 1231, CaseRun.mk 1217 1229 true 1218,
   CaseRun.mk 1232 1326 true 1233, CaseRun.mk 1329 1366 false 1377, CaseRun.mk 4256 4293 false 11520, CaseRun.mk 4295 4295 false 11559,
   CaseRun.mk 4301 4301 false 11565, CaseRun.mk 5024 5103 false 43888, CaseRun.mk 5104 5109 false 5112, CaseRun.mk 7312 7354 false 4304,
   CaseRun.mk 7357 7359 false 4349, CaseRun.mk 7680 7828 true 7681, CaseRun.mk 7838 7838 false 223, CaseRun.mk 7840 7934 true 7841,
   CaseRun.mk 7944 7951 false 7936, CaseRun.mk 7960 7965 false 7952, CaseRun.mk 7976 7983 false 7968, CaseRun.mk 7992 7999 false 7984,
   CaseRun.mk 8008 8013 false 8000, CaseRun.mk 8025 8031 true 8017, CaseRun.mk 8040 8047 false 8032, CaseRun.mk 8072 8079 false 8064,
   CaseRun.mk 8088 8095 false 8080, CaseRun.mk 8104 8111 false 8096, CaseRun.mk 8120 8121 false 8112, CaseRun.mk 8122 8123 false 8048,
   CaseRun.mk 8124 8124 false 8115, CaseRun.mk 8136 8139 false 8050, CaseRun.mk 8140 8140 false 8131, CaseRun.mk 8152 8153 false 8144,
   CaseRun.mk 8154 8155 false 8054, CaseRun.mk 8168 8169 false 8160, CaseRun.mk 8170 8171 false 8058, CaseRun.mk 8172 8172 false 8165,
   CaseRun.mk 8184 8185 false 8056, CaseRun.mk 8186 8187 false 8060, CaseRun.mk 8188 8188 false 8179, CaseRun.mk 8486 8486 false 969,
   CaseRun.mk 8490 8490 false 107, CaseRun.mk 8491 8491 false 229, CaseRun.mk 8498 8498 false 8526, CaseRun.mk 8544 8559 false 8560,
   CaseRun.mk 8579 8579 false 8580, CaseRun.mk 9398 9423 false 9424, CaseRun.mk 11264 11311 false 11312, CaseRun.mk 11360 11360 false 11361,
   CaseRun.mk 11362 11362 false 619, CaseRun.mk 11363 11363 false 7549, CaseRun.mk 11364 11364 false 637, CaseRun.mk 11367 11371 true 11368,
   CaseRun.mk 11373 11373 false 593, CaseRun.mk 11374 11374 false 625, CaseRun.mk 11375 11375 false 592, CaseRun.mk 11376 11376 false 594,
   CaseRun.mk 11378 11378 false 11379, CaseRun.mk 11381 11381 false 11382, CaseRun.mk 11390 11391 false 575, CaseRun.mk 11392 11490 true 11393,
   CaseRun.mk 11499 11501 true 11500, CaseRun.mk 11506 11506 false 11507, CaseRun.mk 42560 42604 true 42561, CaseRun.mk 42624 42650 true 42625,
   CaseRun.mk 42786 42798 true 42787, CaseRun.mk 42802 42862 true 42803, CaseRun.mk 42873 42875 true 42874, CaseRun.mk 42877 42877 false 7545,
   CaseRun.mk 42878 42886 true 42879, CaseRun.mk 42891 42891 false 42892, CaseRun.mk 42893 42893 false 613, CaseRun.mk 42896 42898 true 42897,
   CaseRun.mk 42902 42920 true 42903, CaseRun.mk 42922 42922 false 614, CaseRun.mk 42923 42923 false 604, CaseRun.mk 42924 42924 false 609,
   CaseRun.mk 42925 42925 false 620, CaseRun.mk 42926 42926 false 618, CaseRun.mk 42928 42928 false 670, CaseRun.mk 42929 42929 false 647,
   CaseRun.mk 42930 42930 false 669, CaseRun.mk 42931 42931 false 43859, CaseRun.mk 42932 42946 true 42933, CaseRun.mk 42948 42948 false 42900,
   CaseRun.mk 42949 42949 false 642, CaseRun.mk 42950 42950 false 7566, CaseRun.mk 42951 42953 true 42952, CaseRun.mk 42960 42960 false 42961,
   CaseRun.mk 42966 42968 true 42967, CaseRun.mk 42997 42997 false 42998, CaseRun.mk 65313 65338 false 65345, CaseRun.mk 66560 66599 false 66600,
   CaseRun.mk 66736 66771 false 66776, CaseRun.mk 66928 66938 false 66967, CaseRun.mk 66940 66954 false 66979, CaseRun.mk 66956 66962 false 66995,
   CaseRun.mk 66964 66965 false 67003, CaseRun.mk 68736 68786 false 68800, CaseRun.mk 71840 71871 false 71872, CaseRun.mk 93760 93791 false 93792,
   CaseRun.mk 125184 125217 false 125218]

/-- The lower-case mapping of a code point; a code point without mapping is its own. -/
def lowerCodePoint (c : Nat) : Nat :=
  match lowerRuns.find? (fun r => r.covers c) with
  | some r => c - r.lo + r.target
  | none => c

/-- Whether a code point lies in one of the closed ranges. -/
def inRanges (ranges : List (Nat × Nat)) (c : Nat) : Bool :=
  ranges.any (fun r => decide (r.1 ≤ c) && decide (c ≤ r.2))

/-- The case-ignorable code points. -/
def caseIgnorableRanges : List (Nat × Nat) :=
  [
   (39, 39), (46, 46), (58, 58), (94, 94), (96, 96), (168, 168),
   (173, 173), (175, 175), (180, 180), (183, 184), (688, 879), (884, 885),
   (890, 890), (900, 901), (903, 903), (1155, 1161), (1369, 1369), (1375, 1375),
   (1425, 1469), (1471, 1471), (1473, 1474), (1476, 1477), (1479, 1479), (1524, 1524),
   (1536, 1541), (1552, 1562), (1564, 1564), (1600, 1600), (1611, 1631), (1648, 1648),
   (1750, 1757), (1759, 1768), (1770, 1773), (1807, 1807), (1809, 1809), (1840, 1866),
   (1958, 1968), (2027, 2037), (2042, 2042), (2045, 2045), (2070, 2093), (2137, 2139),
   (2184, 2184), (2192, 2193), (2200, 2207), (2249, 2306), (2362, 2362), (2364, 2364),
   (2369, 2376), (2381, 2381), (2385, 2391), (2402, 2403), (2417, 2417), (2433, 2433),
   (2492, 2492), (2497, 2500), (2509, 2509), (2530, 2531), (2558, 2558), (2561, 2562),
   (2620, 2620), (2625, 2626), (2631, 2632), (2635, 2637), (2641, 2641), (2672, 2673),
   (2677, 2677), (2689, 2690), (2748, 2748), (2753, 2757), (2759, 2760), (2765, 2765),
   (2786, 2787), (2810, 2815), (2817, 2817), (2876, 2876), (2879, 2879), (2881, 2884),
   (2893, 2893), (2901, 2902), (2914, 2915), (2946, 2946), (3008, 3008), (3021, 3021),
   (3072, 3072), (3076, 3076), (3132, 3132), (3134, 3136), (3142, 3144), (3146, 3149),
   (3157, 3158), (3170, 3171), (3201, 3201), (3260, 3260), (3263, 3263), (3270, 3270),
   (3276, 3277), (3298, 3299), (3328, 3329), (3387, 3388), (3393, 3396), (3405, 3405),
   (3426, 3427), (3457, 3457), (3530, 3530), (3538, 3540), (3542, 3542), (3633, 3633),
   (3636, 3642), (3654, 3662), (3761, 3761), (3764, 3772), (3782, 3782), (3784, 3789),
   (3864, 3865), (3893, 3893), (3895, 3895), (3897, 3897), (3953, 3966), (3968, 3972),
   (3974, 3975), (3981, 3991), (3993, 4028), (4038, 4038), (4141, 4144), (4146, 4151),
   (4153, 4154), (4157, 4158), (4184, 4185), (4190, 4192), (4209, 4212), (4226, 4226),
   (4229, 4230), (4237, 4237), (4253, 4253), (4348, 4348), (4957, 4959), (5906, 5908),
   (5938, 5939), (5970, 5971), (6002, 6003), (6068, 6069), (6071, 6077), (6086, 6086),
   (6089, 6099), (6103, 6103), (6109, 6109), (6155, 6159), (6211, 6211), (6277, 6278),
   (6313, 6313), (6432, 6434), (6439, 6440), (6450, 6450), (6457, 6459), (6679, 6680),
   (6683, 6683), (6742, 6742), (6744, 6750), (6752, 6752), (6754, 6754), (6757, 6764),
   (6771, 6780), (6783, 6783), (6823, 6823), (6832, 6862), (6912, 6915), (6964, 6964),
   (6966, 6970), (6972, 6972), (6978, 6978), (7019, 7027), (7040, 7041), (7074, 7077),
   (7080, 7081), (7083, 7085), (7142, 7142), (7144, 7145), (7149, 7149), (7151, 7153),
   (7212, 7219), (7222, 7223), (7288, 7293), (7376, 7378), (7380, 7392), (7394, 7400),
   (7405, 7405), (7412, 7412), (7416, 7417), (7468, 7530), (7544, 7544), (7579, 7679),
   (8125, 8125), (8127, 8129), (8141, 8143), (8157, 8159), (8173, 8175), (8189, 8190),
   (8203, 8207), (8216, 8217), (8228, 8228), (8231, 8231), (8234, 8238), (8288, 8292),
   (8294, 8303), (8305, 8305), (8319, 8319), (8336, 8348), (8400, 8432), (11388, 11389),
   (11503, 11505), (11631, 11631), (11647, 11647), (11744, 11775), (11823, 11823), (12293, 12293),
   (12330, 12333), (12337, 12341), (12347, 12347), (12441, 12446), (12540, 12542), (40981, 40981),
   (42232, 42237), (42508, 42508), (42607, 42610), (42612, 42621), (42623, 42623), (42652, 42655),
   (42736, 42737), (42752, 42785), (42864, 42864), (42888, 42890), (42994, 42996), (43000, 43001),
   (43010, 43010), (43014, 43014), (43019, 43019), (43045, 43046), (43052, 43052), (43204, 43205),
   (43232, 43249), (43263, 43263), (43302, 43309), (43335, 43345), (43392, 43394), (43443, 43443),
   (43446, 43449), (43452, 43453), (43471, 43471), (43493, 43494), (43561, 43566), (43569, 43570),
   (43573, 43574), (43587, 43587), (43596, 43596), (43632, 43632), (43644, 43644), (43696, 43696),
   (43698, 43700), (43703, 43704), (43710, 43711), (43713, 43713), (43741, 43741), (43756, 43757),
   (43763, 43764), (43766, 43766), (43867, 43871), (43881, 43883), (44005, 44005), (44008, 44008),
   (44013, 44013), (64286, 64286), (64434, 64450), (65024, 65039), (65043, 65043), (65056, 65071),
   (65106, 65106), (65109, 65109), (65279, 65279), (65287, 65287), (65294, 65294), (65306, 65306),
   (65342, 65342), (65344, 65344), (65392, 65392), (65438, 65439), (65507, 65507), (65529, 65531),
   (66045, 66045), (66272, 66272), (66422, 66426), (67456, 67461), (67463, 67504), (67506, 67514),
   (68097, 68099), (68101, 68102), (68108, 68111), (68152, 68154), (68159, 68159), (68325, 68326),
   (68900, 68903), (69291, 69292), (69446, 69456), (69506, 69509), (69633, 69633), (69688, 69702),
   (69744, 69744), (69747, 69748), (69759, 69761), (69811, 69814), (69817, 69818), (69821, 69821),
   (69826, 69826), (69837, 69837), (69888, 69890), (69927, 69931), (69933, 69940), (70003, 70003),
   (70016, 70017), (70070, 70078), (70089, 70092), (70095, 70095), (70191, 70193), (70196, 70196),
   (70198, 70199), (70206, 70206), (70367, 70367), (70371, 70378), (70400, 70401), (70459, 70460),
   (70464, 70464), (70502, 70508), (70512, 70516), (70712, 70719), (70722, 70724), (70726, 70726),
   (70750, 70750), (70835, 70840), (70842, 70842), (70847, 70848), (70850, 70851), (71090, 71093),
   (71100, 71101), (71103, 71104), (71132, 71133), (71219, 71226), (71229, 71229), (71231, 71232),
   (71339, 71339), (71341, 71341), (71344, 71349), (71351, 71351), (71453, 71455), (71458, 71461),
   (71463, 71467), (71727, 71735), (71737, 71738), (71995, 71996), (71998, 71998), (72003, 72003),
   (72148, 72151), (72154, 72155), (72160, 72160), (72193, 72202), (72243, 72248), (72251, 72254),
   (72263, 72263), (72273, 72278), (72281, 72283), (72330, 72342), (72344, 72345), (72752, 72758),
   (72760, 72765), (72767, 72767), (72850, 72871), (72874, 72880), (72882, 72883), (72885, 72886),
   (73009, 73014), (73018, 73018), (73020, 73021), (73023, 73029), (73031, 73031), (73104, 73105),
   (73109, 73109), (73111, 73111), (73459, 73460), (78896, 78904), (92912, 92916), (92976, 92982),
   (92992, 92995), (94031, 94031), (94095, 94111), (94176, 94177), (94179, 94180), (110576, 110579),
   (110581, 110587), (110589, 110590), (113821, 113822), (113824, 113827), (118528, 118573), (118576, 118598),
   (119143, 119145), (119155, 119170), (119173, 119179), (119210, 119213), (119362, 119364), (121344, 121398),
   (121403, 121452), (121461, 121461), (121476, 121476), (121499, 121503), (121505, 121519), (122880, 122886),
   (122888, 122904), (122907, 122913), (122915, 122916), (122918, 122922), (123184, 123197), (123566, 123566),
   (123628, 123631), (125136, 125142), (125252, 125259), (127995, 127999), (917505, 917505), (917536, 917631),
   (917760, 917999)]

/-- The cased code points that are not case-ignorable. -/
def casedRanges : List (Nat × Nat) :=
  [
   (65, 90), (97, 122), (170, 170), (181, 181), (186, 186), (192, 214),
   (216, 246), (248, 442), (444, 447), (452, 659), (661, 687), (880, 883),
   (886, 887), (891, 893), (895, 895), (902, 902), (904, 906), (908, 908),
   (910, 929), (931, 1013), (1015, 1153), (1162, 1327), (1329, 1366), (1376, 1416),
   (4256, 4293), (4295, 4295), (4301, 4301), (4304, 4346), (4349, 4351), (5024, 5109),
   (5112, 5117), (7296, 7304), (7312, 7354), (7357, 7359), (7424, 7467), (7531, 7543),
   (7545, 7578), (7680, 7957), (7960, 7965), (7968, 8005), (8008, 8013), (8016, 8023),
   (8025, 8025), (8027, 8027), (8029, 8029), (8031, 8061), (8064, 8116), (8118, 8124),
   (8126, 8126), (8130, 8132), (8134, 8140), (8144, 8147), (8150, 8155), (8160, 8172),
   (8178, 8180), (8182, 8188), (8450, 8450), (8455, 8455), (8458, 8467), (8469, 8469),
   (8473, 8477), (8484, 8484), (8486, 8486), (8488, 8488), (8490, 8493), (8495, 8500),
   (8505, 8505), (8508, 8511), (8517, 8521), (8526, 8526), (8544, 8575), (8579, 8580),
   (9398, 9449), (11264, 11387), (11390, 11492), (11499, 11502), (11506, 11507), (11520, 11557),
   (11559, 11559), (11565, 11565), (42560, 42605), (42624, 42651), (42786, 42863), (42865, 42887),
   (42891, 42894), (42896, 42954), (42960, 42961), (42963, 42963), (42965, 42969), (42997, 42998),
   (43002, 43002), (43824, 43866), (43872, 43880), (43888, 43967), (64256, 64262), (64275, 64279),
   (65313, 65338), (65345, 65370), (66560, 66639), (66736, 66771), (66776, 66811), (66928, 66938),
   (66940, 66954), (66956, 66962), (66964, 66965), (66967, 66977), (66979, 66993), (66995, 67001),
   (67003, 67004), (68736, 68786), (68800, 68850), (71840, 71903), (93760, 93823), (119808, 119892),
   (119894, 119964), (119966, 119967), (119970, 119970), (119973, 119974), (119977, 119980), (119982, 119993),
   (119995, 119995), (119997, 120003), (120005, 120069), (120071, 120074), (120077, 120084), (120086, 120092),
   (120094, 120121), (120123, 120126), (120128, 120132), (120134, 120134), (120138, 120144), (120146, 120485),
   (120488, 120512), (120514, 120538), (120540, 120570), (120572, 120596), (120598, 120628), (120630, 120654),
   (120656, 120686), (120688, 120712), (120714, 120744), (120746, 120770), (120772, 120779), (122624, 122633),
   (122635, 122654), (125184, 125251), (127280, 127305), (127312, 127337), (127344, 127369)]

/-- Whether the first code point that is not case-ignorable is a cased letter. -/
def meetsCased (cps : List Nat) : Bool :=
  match cps.dropWhile (inRanges caseIgnorableRanges) with
  | [] => false
  | c :: _ => inRanges casedRanges c

/-- The condition `Final_Sigma`: a cased letter stands before, case-ignorable code points
skipped, and none stands after; `before` is read backwards from the sigma. -/
def finalSigma (before after : List Nat) : Bool := meetsCased before && !meetsCased after

/-- Code points of a string: a leading and a trailing surrogate that follow each other are
one code point, every other code unit is a code point of its own; `high` is a leading
surrogate read and not yet paired. -/
def codePointsFrom : Option Nat → Str → List Nat
  | none, [] => []
  | some h, [] => [h]
  | none, c :: cs =>
    if isHighSurrogate c then codePointsFrom (some c) cs else c :: codePointsFrom none cs
  | some h, c :: cs =>
    if isLowSurrogate c then
      (0x10000 + (h - 0xD800) * 1024 + (c - 0xDC00)) :: codePointsFrom none cs
    else if isHighSurrogate c then h :: codePointsFrom (some c) cs
    else h :: c :: codePointsFrom none cs

/-- The code units of a code point; what is no code point stays as it is. -/
def unitsOfCodePoint (c : Nat) : Str :=
  if c < 0x110000 then utf16OfCodePoint c else [c]

/-- The lower case of one code point in its context. -/
def lowerAt (before : List Nat) (c : Nat) (after : List Nat) : List Nat :=
  if c = 0x130 then [0x69, 0x307]
  else if c = 0x3A3 then [if finalSigma before after then 0x3C2 else 0x3C3]
  else [lowerCodePoint c]

/-- The lower case of a list of code points; `before` holds the code points already passed,
the last one first. -/
def lowerCodePoints : List Nat → List Nat → List Nat
  | _, [] => []
  | before, c :: rest => lowerAt before c rest ++ lowerCodePoints (c :: before) rest

/-- The source's `s.toLowerCase()`. -/
def toLowerCase (s : Str) : Str :=
  (lowerCodePoints [] (codePointsFrom none s)).flatMap unitsOfCodePoint

/-! ## `lib/simple-ssdp.js`: the parser -/

/-- A plain object created by `{}`: its own properties in insertion order.  The property
reads of this program (`st`, `address`, `port`) name nothing on `Object.prototype`, so a
read is a lookup among the own properties. -/
abbrev Obj := List (Str × JsVal)

/-- The source's `o.hasOwnProperty(k)`. -/
def Obj.has (o : Obj) (k : Str) : Bool := o.any (fun p => p.1 = k)

/-- The source's `o[k]`: the value of the own property `k`, `undefined` when there is none. -/
def Obj.get : Obj → Str → JsVal
  | [], _ => .undefined
  | p :: ps, k => if p.1 = k then p.2 else Obj.get ps k

/-- The source's `o[k] = v` for a string or number `v`.  Assigning a primitive to `__proto__` is ignored
by the language; an existing property keeps its place. -/
def Obj.set (o : Obj) (k : Str) (v : JsVal) : Obj :=
  if k = js "__proto__" then o
  else if o.has k then o.map (fun p => if p.1 = k then (k, v) else p)
  else o ++ [(k, v)]

/-- Node's `dgram.RemoteInfo`: the sender of a datagram. -/
structure RemoteInfo where
  address : Str
  family : Str
  port : Nat
  size : Nat
  deriving DecidableEq, Repr

/-- The list `Object.keys(rinfo)` paired with `rinfo[key]`. -/
def RemoteInfo.entries (rinfo : RemoteInfo) : List (Str × JsVal) :=
  [(js "address", .str rinfo.address), (js "family", .str rinfo.family),
   (js "port", .num rinfo.port), (js "size", .num rinfo.size)]

/-- What `parseSSDP` is given: a received `Buffer`, or a string. -/
inductive Message where
  | buffer (b : Buffer)
  | text (s : Str)
  deriving DecidableEq, Repr

/-- The source's `message.toString()`. -/
def Message.toString : Message → Str
  | .buffer b => Buffer.toString b
  | .text s => s

/-- The body of the `lines.forEach` callback of `parseSSDP`. -/
def parseLine (ssdp : Obj) (line : Str) : Obj :=
  let delim := indexOf line (js ":")
  if delim > 1 then
    let key := toLowerCase (trim (substring line 0 (some delim)))
    let value := trim (substring line (delim + 1))
    ssdp.set key (.str value)
  else ssdp

/-- The source's `parseSSDP(message, rinfo)`. -/
def parseSSDP (message : Message) (rinfo : RemoteInfo) : Obj :=
  let lines := split message.toString (js "\r\n")
  let ssdp := lines.foldl parseLine []
  rinfo.entries.foldl (fun o kv => o.set kv.1 kv.2) ssdp

/-! ## `lib/simple-ssdp.js`: the engine

The engine is a state passed through its methods and handlers.  The UDP transport is
external: a call of `send`, `close`, `bind` or `addMembership` is recorded in `trace`, and
the result of an asynchronous call arrives later as a step of the environment (`settle`)
that runs the callback registered with the call. -/

/-- The two sockets of the engine. -/
inductive Socket where
  | socket
  | uniSocket
  deriving DecidableEq, Repr

/-- What an event carries: a decoded message, or a text. -/
inductive EventArg where
  | record (ssdp : Obj)
  | message (text : Str)
  deriving DecidableEq, Repr

/-- The calls the engine makes on its collaborators, in the order it makes them. -/
inductive Effect where
  | bind (sock : Socket) (port : JsVal)
  | addMembership (address : Str)
  | send (sock : Socket) (payload : Buffer) (offset length : Nat) (port host : JsVal)
  | close (sock : Socket)
  | emit (event : Str) (arg : EventArg)
  | log (text : Str)
  | callback
  deriving DecidableEq, Repr

/-- A callback handed to the transport and not yet run.  `hasCallback` says whether the
`callback` argument of `stop` is a function. -/
inductive Pending where
  | stopSent (hasCallback : Bool)
  | stopClosed (hasCallback : Bool)
  | discoverSent
  | advertiseSent
  | responseSent
  deriving DecidableEq, Repr

/-- The constructor argument. -/
structure Config where
  device_name : Str
  port : Nat
  location : Str
  product : Str
  product_version : Str
  deriving DecidableEq, Repr

/-- The fields of a `simpleSSDP` object, the open/closed status of its two sockets, the
calls made so far and the callbacks waiting for the transport. -/
structure Engine where
  numDevices : Nat
  deviceName : Str
  deviceUUID : Str
  numServices : Nat
  services : List Str
  host : Str
  port : Nat
  location : Str
  product : Str
  product_version : Str
  socketOpen : Bool
  uniSocketOpen : Bool
  trace : List Effect
  pending : List Pending
  deriving DecidableEq, Repr

/-- The constructor: `uuid` is the result of `uuidv4()`, `address` of `ip.address()`. -/
def Engine.new (config : Config) (uuid address : Str) : Engine :=
  { numDevices := 1
    deviceName := config.device_name
    deviceUUID := uuid
    numServices := 0
    services := []
    host := address
    port := config.port
    location := address ++ js ":" ++ numToStr config.port ++ config.location
    product := config.product
    product_version := config.product_version
    socketOpen := true
    uniSocketOpen := true
    trace := [Effect.bind .uniSocket (.num config.port)]
    pending := [] }

/-- The source's `addService(usn)`. -/
def Engine.addService (e : Engine) (usn : Str) : Engine :=
  { e with numServices := e.numServices + 1
           services := e.services ++ [e.deviceUUID ++ js "::" ++ usn] }

/-- The source's `getNumRegistered()`. -/
def Engine.getNumRegistered (e : Engine) : Nat := e.numServices

/-- The source's `getAllRegisteredServices()`. -/
def Engine.getAllRegisteredServices (e : Engine) : List Str := e.services

/-- The source's `stop(usn, callback)` up to the call of `send`. -/
def Engine.stop (e : Engine) (usn : Str) (hasCallback : Bool) : Engine :=
  let notify := notify_bye usn
  let ssdp := Buffer.alloc notify.length notify
  { e with trace := e.trace ++ [Effect.send .socket ssdp 0 ssdp.length
                                  (.num MULTICAST_PORT) (.str MULTICAST_ADDRESS)]
           pending := e.pending ++ [Pending.stopSent hasCallback] }

/-- The source's `discover(st, host, port)` up to the call of `send`. -/
def Engine.discover (e : Engine) (st : Str := js "ssdp:all") (host : Str := MULTICAST_ADDRESS)
    (port : JsVal := JsVal.num MULTICAST_PORT) : Engine :=
  let msearch := msearch st host port
  let ssdp := Buffer.alloc msearch.length msearch
  { e with trace := e.trace ++ [Effect.send .socket ssdp 0 ssdp.length port (.str host)]
           pending := e.pending ++ [Pending.discoverSent] }

/-- The source's `advertise(usn)` up to the call of `send`. -/
def Engine.advertise (e : Engine) (usn : Str) : Engine :=
  let notify := notify_alive e.location usn e.product e.product_version
  let ssdp := Buffer.alloc notify.length notify
  { e with trace := e.trace ++ [Effect.send .socket ssdp 0 ssdp.length
                                  (.num MULTICAST_PORT) (.str MULTICAST_ADDRESS)]
           pending := e.pending ++ [Pending.advertiseSent] }

/-- The source's `response(usn, host, port)` up to the call of `send`; `date` is the text of
`new Date()` inside `messages.response`. -/
def Engine.response (e : Engine) (usn : Str) (host port : JsVal) (date : Str) : Engine :=
  let response := SimpleSSDP.response e.location usn e.product e.product_version date
  let ssdp := Buffer.alloc response.length response
  { e with trace := e.trace ++ [Effect.send .uniSocket ssdp 0 ssdp.length port host]
           pending := e.pending ++ [Pending.responseSent] }

/-- The callback registered by a call, run with the result the transport reports:
`err = none` for success, `some text` for a failure whose text is `text`. -/
def Engine.runCallback (e : Engine) (cb : Pending) (err : Option Str) : Engine :=
  match cb, err with
  | .stopSent _, some _ =>
    { e with trace := e.trace ++ [Effect.log (js "Error sending ssdp:byebye")] }
  | .stopSent hasCallback, none =>
    { e with socketOpen := false
             trace := e.trace ++ [Effect.close .socket]
             pending := e.pending ++ [Pending.stopClosed hasCallback] }
  | .stopClosed hasCallback, _ =>
    { e with trace := e.trace ++ [Effect.log (js "UDP socket closed")] ++
                        (if hasCallback then [Effect.callback] else []) }
  | .discoverSent, some text =>
    { e with socketOpen := false
             trace := e.trace ++ [Effect.close .socket,
               Effect.emit (js "error") (.message (js "Error on UDP socket for M-SEARCH: " ++ text))] }
  | .discoverSent, none => e
  | .advertiseSent, some _ =>
    { e with socketOpen := false
             trace := e.trace ++ [Effect.close .socket,
               Effect.emit (js "error") (.message (js "Error sending ssdp:alive"))] }
  | .advertiseSent, none => e
  | .responseSent, some _ =>
    { e with uniSocketOpen := false
             trace := e.trace ++ [Effect.close .uniSocket,
               Effect.emit (js "error") (.message (js "Error sending response"))] }
  | .responseSent, none => e

/-- A step of the environment: the transport reports the result of the `i`-th waiting call. -/
def Engine.settle (e : Engine) (i : Nat) (err : Option Str) : Engine :=
  match e.pending.get? i with
  | none => e
  | some cb => Engine.runCallback { e with pending := e.pending.eraseIdx i } cb err

/-- The source's `this.services.forEach((service) => this.advertise(service))`. -/
def Engine.advertiseAll (e : Engine) (usns : List Str) : Engine :=
  usns.foldl Engine.advertise e

/-- The source's `this.services.forEach((service) => this.response(service, host, port))`; `clock i`
is the text of `new Date()` in the `i`-th response of the turn and `i` the number of
responses already made in it. -/
def Engine.responseAll (host port : JsVal) (clock : Nat → Str) :
    List Str → Nat → Engine → Engine
  | [], _, e => e
  | usn :: usns, i, e =>
    Engine.responseAll host port clock usns (i + 1) (e.response usn host port (clock i))

/-- The source's `start()`: the handlers below are registered and the multicast socket is bound. -/
def Engine.start (e : Engine) : Engine :=
  { e with trace := e.trace ++ [Effect.bind .socket (.num MULTICAST_PORT)] }

/-- The `listening` handler registered by `start()`. -/
def Engine.onListening (e : Engine) : Engine :=
  let e := { e with trace := e.trace ++ [Effect.addMembership MULTICAST_ADDRESS] }
  let e := e.advertise (js "upnp:rootdevice")
  let e := e.advertise e.deviceUUID
  let e := e.advertise (js "urn:schemas-upnp-org:device:" ++ e.deviceName ++ js ":1")
  e.advertiseAll e.services

/-- The `message` handler registered by `start()`. -/
def Engine.onMessage (e : Engine) (message : Buffer) (rinfo : RemoteInfo)
    (clock : Nat → Str) : Engine :=
  let m := Buffer.toString message
  let ssdp := parseSSDP (.buffer message) rinfo
  if includes m (js "M-SEARCH") then
    if ssdp.get (js "st") = .str (js "ssdp:all") then
      let e := e.response (js "upnp:rootdevice") (ssdp.get (js "address"))
        (ssdp.get (js "port")) (clock 0)
      let e := e.response e.deviceUUID (ssdp.get (js "address")) (ssdp.get (js "port")) (clock 1)
      let e := e.response (js "urn:schemas-upnp-org:device:" ++ e.deviceName ++ js ":1")
        (ssdp.get (js "address")) (ssdp.get (js "port")) (clock 2)
      Engine.responseAll (ssdp.get (js "address")) (ssdp.get (js "port")) clock e.services 3 e
    else
      Engine.responseAll (ssdp.get (js "address")) (ssdp.get (js "port")) clock e.services 0 e
  else if includes m (js "NOTIFY") then
    { e with trace := e.trace ++ [Effect.emit (js "notify") (.record ssdp)] }
  else
    { e with trace := e.trace ++ [Effect.emit (js "discover") (.record ssdp)] }

/-- The `error` handler registered by `start()`; `err` is the text of the error. -/
def Engine.onError (e : Engine) (err : Str) : Engine :=
  { e with socketOpen := false
           trace := e.trace ++ [Effect.close .socket,
             Effect.emit (js "error") (.message (js "Error on UDP multicast socket: " ++ err))] }

/-- The calls and events that drive an engine. -/
inductive Op where
  | addService (usn : Str)
  | start
  | listening
  | message (message : Buffer) (rinfo : RemoteInfo) (clock : Nat → Str)
  | error (err : Str)
  | stop (usn : Str) (hasCallback : Bool)
  | discover (st host : Str) (port : JsVal)
  | advertise (usn : Str)
  | response (usn : Str) (host port : JsVal) (date : Str)
  | settle (i : Nat) (err : Option Str)

/-- One call or event applied to the engine. -/
def Engine.step (e : Engine) : Op → Engine
  | .addService usn => e.addService usn
  | .start => e.start
  | .listening => e.onListening
  | .message message rinfo clock => e.onMessage message rinfo clock
  | .error err => e.onError err
  | .stop usn hasCallback => e.stop usn hasCallback
  | .discover st host port => e.discover st host port
  | .advertise usn => e.advertise usn
  | .response usn host port date => e.response usn host port date
  | .settle i err => e.settle i err

/-- A history of calls and events applied in order. -/
def Engine.run (e : Engine) (ops : List Op) : Engine := ops.foldl Engine.step e

/-! ## Expected texts and datagrams, used to state the properties -/

/-- A search response text whose ST header carries `st`. -/
def responseWith (location usn product product_version date st : Str) : Str :=
  js "HTTP/1.1 200 OK\r\nCACHE-CONTROL: max-age = 1800\r\nDATE: " ++ date ++
  js "\r\nEXT:\r\nLOCATION: http://" ++ location ++
  js "\r\nSERVER: Node.js/16.2.0 UPnP/1.1 " ++ product ++ js "/" ++ product_version ++
  js "\r\nST: " ++ st ++ js "\r\nUSN: " ++ usn ++ js "\r\n\r\n"

/-- A NOTIFY ssdp:alive text whose NT header carries `nt`. -/
def notifyAliveWith (location usn product product_version nt : Str) : Str :=
  js "NOTIFY * HTTP/1.1\r\nHOST: 239.255.255.250:1900\r\nCACHE-CONTROL: max-age = 1800\r\nLOCATION: http://" ++
  location ++ js "\r\nNT: " ++ nt ++
  js "\r\nNTS: ssdp:alive\r\nSERVER: Node.js/16.2.0 UPnP/1.1 " ++ product ++ js "/" ++
  product_version ++ js "\r\nUSN: " ++ usn ++ js "\r\n\r\n"

/-- The datagram `advertise(usn)` hands to the multicast socket. -/
def aliveSend (e : Engine) (usn : Str) : Effect :=
  let notify := notify_alive e.location usn e.product e.product_version
  Effect.send .socket (Buffer.alloc notify.length notify) 0 notify.length
    (.num 1900) (.str (js "239.255.255.250"))

/-- The datagram `response(usn, host, port)` hands to the unicast socket. -/
def responseSend (e : Engine) (host port : JsVal) (usn date : Str) : Effect :=
  let response := SimpleSSDP.response e.location usn e.product e.product_version date
  Effect.send .uniSocket (Buffer.alloc response.length response) 0 response.length port host

/-- The datagrams of one response per USN, the `i`-th dated `clock i`. -/
def responseSends (e : Engine) (host port : JsVal) (clock : Nat → Str) :
    List Str → Nat → List Effect
  | [], _ => []
  | usn :: usns, i =>
    responseSend e host port usn (clock i) :: responseSends e host port clock usns (i + 1)

/-! ## Definitions used to state and prove the properties -/

/-- The fields of the object itself, without the sockets, the trace and the callbacks. -/
def Engine.core (e : Engine) : Engine :=
  { e with socketOpen := true, uniSocketOpen := true, trace := [], pending := [] }

/-- A configuration used to evaluate the engine. -/
def demoConfig : Config :=
  { device_name := js "lamp", port := 8080, location := js "/desc.xml",
    product := js "lamp", product_version := js "1.0" }

/-- An engine with one registered service. -/
def demoEngine : Engine :=
  (Engine.new demoConfig (js "uuid:1234") (js "192.168.1.5")).addService
    (js "urn:schemas-upnp-org:service:SwitchPower:1")

/-- A sender. -/
def demoSender : RemoteInfo :=
  { address := js "192.168.1.9", family := js "IPv4", port := 50000, size := 94 }

/-- A clock that always reads the same text. -/
def demoClock : Nat → Str := fun _ => js "Fri Nov 06 2026 01:49:00 GMT+0000"

/-- A CR immediately followed by an LF somewhere in the text. -/
def hasCRLF : Str → Bool
  | [] => false
  | c :: cs => (c == 13 && cs.head? == some 10) || hasCRLF cs

/-- The text made of the given lines, each followed by CR LF. -/
def crlfLines : List Str → Str
  | [] => []
  | l :: ls => l ++ 13 :: 10 :: crlfLines ls

/-- All code units (or bytes) are ASCII. -/
def isAscii (s : List Nat) : Prop := ∀ c ∈ s, c < 128

instance (s : List Nat) : Decidable (isAscii s) := by
  unfold isAscii; infer_instance

/-- All code units (or bytes) are outside ASCII. -/
def isHigh (s : List Nat) : Prop := ∀ c ∈ s, 128 ≤ c

/-- What holds of every decoder state reached from `start`: the bits gathered so far are
large enough for the finished code point to lie outside ASCII. -/
def Utf8State.ok : Utf8State → Prop
  | .start => True
  | .pending lead seen cp =>
    (seen + 1 = utf8Needed lead → 2 ≤ cp)
    ∧ (seen + 1 < utf8Needed lead → 1 ≤ cp ∨ (seen = 0 ∧ (lead = 0xE0 ∨ lead = 0xF0)))

/-- The four lines of a byebye text that do not depend on the USN. -/
def byeLines : List Str :=
  [js "NOTIFY * HTTP/1.1",
   js "HOST" ++ 58 :: js " 239.255.255.250:1900",
   js "NT" ++ 58 :: js " urn:schemas-upnp-org:service:DiscoveryService:1",
   js "NTS" ++ 58 :: js " ssdp:byebye"]

/-- A byebye text up to the USN. -/
def byeHead : Str := crlfLines byeLines ++ js "USN: "

/-! ## Basic facts -/

/-- Whether the engine hands a datagram to a socket. -/
def Effect.isSend : Effect → Bool
  | .send _ _ _ _ _ _ => true
  | _ => false

/-- Whether the engine publishes an `error` event. -/
def Effect.isErrorEvent : Effect → Bool
  | .emit event _ => event == js "error"
  | _ => false

/-- The destination `(host, port)` of a datagram handed to a socket. -/
def Effect.destination : Effect → Option (JsVal × JsVal)
  | .send _ _ _ _ port host => some (host, port)
  | _ => none

/-- The text of a line before its first colon, the whole line when it has none. -/
def beforeColon (line : Str) : Str := line.takeWhile (fun c => c != 58)

/-- The header name a line carries, in the words of the specification: when the line has
a colon and its first colon is at an index greater than 1, the text before that colon,
trimmed and lower-cased. -/
def lineKey (line : Str) : Option Str :=
  if 58 ∈ line ∧ 1 < (beforeColon line).length then
    some (toLowerCase (trim (beforeColon line)))
  else none

/-- The header value a line carries, in the words of the specification: everything after
the first colon, trimmed. -/
def lineValue (line : Str) : Str := trim (line.drop ((beforeColon line).length + 1))

/-- A text without leading or trailing white space: neither its first nor its last code
unit is white space. -/
def noOuterWhiteSpace (s : Str) : Bool :=
  s.head?.all (fun c => !isWhiteSpace c) && s.getLast?.all (fun c => !isWhiteSpace c)

/-- Whether the code points a run maps to lie outside the closed range from `a` to `b`. -/
def CaseRun.imageAvoids (r : CaseRun) (a b : Nat) : Bool :=
  decide (r.target + (r.hi - r.lo) < a) || decide (b < r.target)

/-- Whether no code point that run `r` maps to is a code point that run `f` maps. -/
def CaseRun.apart (r f : CaseRun) : Bool :=
  r.imageAvoids f.lo f.hi ||
    (f.alt && (r.alt || decide (r.lo = r.hi)) && decide (r.target % 2 ≠ f.lo % 2))

/-- Whether the code points a run maps to are neither U+0130, nor white space, nor
surrogates. -/
def CaseRun.imageClean (r : CaseRun) : Bool :=
  r.imageAvoids 0x130 0x130 && r.imageAvoids 0x09 0x0D && r.imageAvoids 0x20 0x20 &&
  r.imageAvoids 0xA0 0xA0 && r.imageAvoids 0x1680 0x1680 && r.imageAvoids 0x2000 0x200A &&
  r.imageAvoids 0x2028 0x2029 && r.imageAvoids 0x202F 0x202F && r.imageAvoids 0x205F 0x205F &&
  r.imageAvoids 0x3000 0x3000 && r.imageAvoids 0xFEFF 0xFEFF && r.imageAvoids 0xD800 0xDFFF

/-- A code point that lower-casing leaves as it is, whatever stands around it. -/
def isLowered (d : Nat) : Prop :=
  d ≠ 0x130 ∧ lowerRuns.find? (fun r => r.covers d) = none

/-- Two code points that follow each other and are no surrogate pair. -/
def unpaired (a b : Nat) : Prop := ¬ (isHighSurrogate a = true ∧ isLowSurrogate b = true)

theorem Buffer.alloc_length (size : Nat) (fill : Str) : (Buffer.alloc size fill).length = size := by
  simp [Buffer.alloc]

theorem responseSends_length (e : Engine) (host port : JsVal) (clock : Nat → Str)
    (usns : List Str) (i : Nat) : (responseSends e host port clock usns i).length = usns.length := by
  induction usns generalizing i with
  | nil => rfl
  | cons u us ih => simp [responseSends, ih]

theorem responseSends_congr (e e2 : Engine) (host port : JsVal) (clock : Nat → Str)
    (h1 : e2.location = e.location) (h2 : e2.product = e.product)
    (h3 : e2.product_version = e.product_version) (usns : List Str) (i : Nat) :
    responseSends e2 host port clock usns i = responseSends e host port clock usns i := by
  induction usns generalizing i with
  | nil => rfl
  | cons u us ih => simp [responseSends, responseSend, ih, h1, h2, h3]

theorem Engine.response_trace (e : Engine) (usn : Str) (host port : JsVal) (date : Str) :
    (e.response usn host port date).trace = e.trace ++ [responseSend e host port usn date] := by
  simp [Engine.response, responseSend, Buffer.alloc_length]

theorem Engine.advertise_trace (e : Engine) (usn : Str) :
    (e.advertise usn).trace = e.trace ++ [aliveSend e usn] := by
  simp [Engine.advertise, aliveSend, Buffer.alloc_length, MULTICAST_PORT, MULTICAST_ADDRESS]

/-- The responses of a `forEach` over USNs are appended to the trace, one per USN in order,
and nothing else of the engine changes but the waiting callbacks. -/
theorem Engine.responseAll_trace (host port : JsVal) (clock : Nat → Str) (usns : List Str)
    (i : Nat) (e : Engine) :
    (Engine.responseAll host port clock usns i e).trace
      = e.trace ++ responseSends e host port clock usns i := by
  induction usns generalizing i e with
  | nil => simp [Engine.responseAll, responseSends]
  | cons u us ih =>
    rw [Engine.responseAll, ih, Engine.response_trace]
    rw [responseSends_congr e (e.response u host port (clock i)) host port clock rfl rfl rfl]
    simp [responseSends]

/-- The alive messages of a `forEach` over USNs are appended to the trace, in order. -/
theorem Engine.advertiseAll_trace (usns : List Str) (e : Engine) :
    (e.advertiseAll usns).trace = e.trace ++ usns.map (aliveSend e) := by
  induction usns generalizing e with
  | nil => simp [Engine.advertiseAll]
  | cons u us ih =>
    have h := ih (e.advertise u)
    simp only [Engine.advertiseAll, List.foldl_cons] at h ⊢
    rw [h, Engine.advertise_trace]
    simp [aliveSend, Engine.advertise]

/-- Registering services appends their USNs and counts them; nothing else changes. -/
theorem Engine.addService_foldl (names : List Str) (e : Engine) :
    names.foldl Engine.addService e =
      { e with numServices := e.numServices + names.length
               services := e.services ++ names.map (fun s => e.deviceUUID ++ js "::" ++ s) } := by
  induction names generalizing e with
  | nil => simp
  | cons n ns ih =>
    rw [List.foldl_cons, ih]
    simp [Engine.addService, Nat.add_assoc, Nat.add_comm 1]

theorem Engine.core_numServices (e : Engine) : e.core.numServices = e.numServices := rfl

theorem Engine.core_services (e : Engine) : e.core.services = e.services := rfl

theorem Engine.advertise_core (e : Engine) (usn : Str) : (e.advertise usn).core = e.core := rfl

theorem Engine.response_core (e : Engine) (usn : Str) (host port : JsVal) (date : Str) :
    (e.response usn host port date).core = e.core := rfl

theorem Engine.advertiseAll_core (usns : List Str) (e : Engine) :
    (e.advertiseAll usns).core = e.core := by
  induction usns generalizing e with
  | nil => rfl
  | cons u us ih =>
    have h := ih (e.advertise u)
    simp only [Engine.advertiseAll, List.foldl_cons] at h ⊢
    rw [h, Engine.advertise_core]

theorem Engine.responseAll_core (host port : JsVal) (clock : Nat → Str) (usns : List Str)
    (i : Nat) (e : Engine) : (Engine.responseAll host port clock usns i e).core = e.core := by
  induction usns generalizing i e with
  | nil => rfl
  | cons u us ih => rw [Engine.responseAll, ih, Engine.response_core]

theorem Engine.onListening_core (e : Engine) : e.onListening.core = e.core := by
  simp only [Engine.onListening]
  rw [Engine.advertiseAll_core]
  rfl

theorem Engine.onMessage_core (e : Engine) (message : Buffer) (rinfo : RemoteInfo)
    (clock : Nat → Str) : (e.onMessage message rinfo clock).core = e.core := by
  simp only [Engine.onMessage]
  split
  · split
    · rw [Engine.responseAll_core]; rfl
    · rw [Engine.responseAll_core]
  · split <;> rfl

/-- Every step leaves the service counter equal to the number of registered USNs. -/
theorem Engine.step_count (e : Engine) (op : Op) (h : e.numServices = e.services.length) :
    (e.step op).numServices = (e.step op).services.length := by
  cases op with
  | addService usn => simp [Engine.step, Engine.addService, h]
  | start => simpa [Engine.step, Engine.start] using h
  | listening =>
    rw [← Engine.core_numServices, ← Engine.core_services]
    simp only [Engine.step, Engine.onListening_core]
    exact h
  | message message rinfo clock =>
    rw [← Engine.core_numServices, ← Engine.core_services]
    simp only [Engine.step, Engine.onMessage_core]
    exact h
  | error err => simpa [Engine.step, Engine.onError] using h
  | stop usn hasCallback => simpa [Engine.step, Engine.stop] using h
  | discover st host port => simpa [Engine.step, Engine.discover] using h
  | advertise usn => simpa [Engine.step, Engine.advertise] using h
  | response usn host port date => simpa [Engine.step, Engine.response] using h
  | settle i err =>
    simp only [Engine.step, Engine.settle]
    cases e.pending.get? i with
    | none => simpa using h
    | some cb => cases cb <;> cases err <;> simpa [Engine.runCallback] using h

theorem Engine.run_count (ops : List Op) (e : Engine) (h : e.numServices = e.services.length) :
    (e.run ops).numServices = (e.run ops).services.length := by
  induction ops generalizing e with
  | nil => exact h
  | cons op ops ih => exact ih (e.step op) (Engine.step_count e op h)

/-! ## The message texts -/

/-- C6: `msearch("ssdp:all")` with the default host and port is exactly the M-SEARCH text of
the specification, and in general `msearch(st, host, port)` is that text with the HOST
value `host + ":" + port` and the ST value `st`, whatever `st` is. -/
theorem C6_msearch_text :
    msearch (js "ssdp:all") =
      js "M-SEARCH * HTTP/1.1\r\nHOST: 239.255.255.250:1900\r\nMAN: \"ssdp:discover\"\r\nMX: 3\r\nST: ssdp:all\r\n\r\n"
    ∧ ∀ (st host : Str) (port : JsVal), msearch st host port =
      js "M-SEARCH * HTTP/1.1\r\nHOST: " ++ (host ++ js ":" ++ port.toStr) ++
      js "\r\nMAN: \"ssdp:discover\"\r\nMX: 3\r\nST: " ++ st ++ js "\r\n\r\n" := by
  refine ⟨by decide, ?_⟩
  intro st host port
  simp [msearch, js, utf16OfCodePoint]

/-! ## The registry -/

/-- C7: after `addService(s1)`, ..., `addService(sn)` on a freshly constructed engine
(duplicates allowed) `getAllRegisteredServices()` is `[uuid + "::" + s1, ..., uuid + "::" + sn]`
in registration order and `getNumRegistered()` is `n`; and after any history of calls and
events `getNumRegistered()` is the length of `getAllRegisteredServices()`. -/
theorem C7_registry (config : Config) (uuid address : Str) :
    (∀ names : List Str,
      (names.foldl Engine.addService (Engine.new config uuid address)).getAllRegisteredServices
          = names.map (fun s => uuid ++ js "::" ++ s)
      ∧ (names.foldl Engine.addService (Engine.new config uuid address)).getNumRegistered
          = names.length)
    ∧ ∀ ops : List Op,
      ((Engine.new config uuid address).run ops).getNumRegistered
        = ((Engine.new config uuid address).run ops).getAllRegisteredServices.length := by
  refine ⟨fun names => ?_, fun ops => ?_⟩
  · rw [Engine.addService_foldl]
    simp [Engine.getAllRegisteredServices, Engine.getNumRegistered, Engine.new]
  · exact Engine.run_count ops _ rfl

/-! ## Advertisement on `listening` -/

/-- C4: with services `s1..sN` registered before `start()`, the `listening` handler joins
the group and sends exactly `N + 3` alive NOTIFY datagrams to `239.255.255.250:1900`:
for `upnp:rootdevice`, the device UUID, `urn:schemas-upnp-org:device:<deviceName>:1`, then
`uuid::s1`, ..., `uuid::sN` in registration order. -/
theorem C4_alive_on_listening (config : Config) (uuid address : Str) (names : List Str) :
    ((names.foldl Engine.addService (Engine.new config uuid address)).start.onListening).trace
      = (names.foldl Engine.addService (Engine.new config uuid address)).start.trace
        ++ Effect.addMembership (js "239.255.255.250")
        :: (([js "upnp:rootdevice", uuid,
              js "urn:schemas-upnp-org:device:" ++ config.device_name ++ js ":1"]
             ++ names.map (fun s => uuid ++ js "::" ++ s)).map
            (aliveSend (Engine.new config uuid address)))
    ∧ (([js "upnp:rootdevice", uuid,
          js "urn:schemas-upnp-org:device:" ++ config.device_name ++ js ":1"]
         ++ names.map (fun s => uuid ++ js "::" ++ s)).map
        (aliveSend (Engine.new config uuid address))).length = names.length + 3 := by
  refine ⟨?_, by simp⟩
  rw [Engine.addService_foldl]
  simp only [Engine.onListening]
  rw [Engine.advertiseAll_trace]
  simp [Engine.advertise, Engine.start, Engine.new, aliveSend, Buffer.alloc_length,
    MULTICAST_PORT, MULTICAST_ADDRESS]

theorem Obj.get_map_self (o : Obj) (k : Str) (v : JsVal) (h : o.has k = true) :
    Obj.get (o.map (fun p => if p.1 = k then (k, v) else p)) k = v := by
  induction o with
  | nil => simp [Obj.has] at h
  | cons p ps ih =>
    by_cases hp : p.1 = k
    · simp [Obj.get, hp]
    · have h2 : Obj.has ps k = true := by simpa [Obj.has, hp] using h
      simp [Obj.get, hp, ih h2]

theorem Obj.get_map_other (o : Obj) (k k2 : Str) (v : JsVal) (h : k2 ≠ k) :
    Obj.get (o.map (fun p => if p.1 = k then (k, v) else p)) k2 = Obj.get o k2 := by
  induction o with
  | nil => rfl
  | cons p ps ih =>
    by_cases hp : p.1 = k
    · have : ¬ p.1 = k2 := fun hh => h (hh ▸ hp)
      simp [Obj.get, hp, ih, Ne.symm h, this]
    · simp [Obj.get, hp, ih]

theorem Obj.get_append_self (o : Obj) (k : Str) (v : JsVal) (h : o.has k = false) :
    Obj.get (o ++ [(k, v)]) k = v := by
  induction o with
  | nil => simp [Obj.get]
  | cons p ps ih =>
    have hp : ¬ p.1 = k := by
      intro hh; simp [Obj.has, hh] at h
    have h2 : Obj.has ps k = false := by
      simp only [Obj.has, List.any_cons, Bool.or_eq_false_iff] at h ⊢
      exact h.2
    simp [Obj.get, hp, ih h2]

theorem Obj.get_append_other (o : Obj) (k k2 : Str) (v : JsVal) (h : k2 ≠ k) :
    Obj.get (o ++ [(k, v)]) k2 = Obj.get o k2 := by
  induction o with
  | nil => simp [Obj.get, Ne.symm h]
  | cons p ps ih => simp [Obj.get, ih]

/-- Reading the property just assigned gives the assigned value. -/
theorem Obj.get_set_self (o : Obj) (k : Str) (v : JsVal) (hk : k ≠ js "__proto__") :
    (o.set k v).get k = v := by
  unfold Obj.set
  rw [if_neg hk]
  by_cases h : o.has k = true
  · rw [if_pos h]; exact Obj.get_map_self o k v h
  · rw [if_neg h]; exact Obj.get_append_self o k v (by simpa using h)

/-- An assignment leaves every other property as it was. -/
theorem Obj.get_set_other (o : Obj) (k k2 : Str) (v : JsVal) (h : k2 ≠ k) :
    (o.set k v).get k2 = o.get k2 := by
  unfold Obj.set
  split
  · rfl
  · split
    · exact Obj.get_map_other o k k2 v h
    · exact Obj.get_append_other o k k2 v h

/-- The sender address of the remote info is what the decoded message holds as `address`,
and the sender port as `port`, whatever the message says. -/
theorem parseSSDP_sender (message : Message) (rinfo : RemoteInfo) :
    (parseSSDP message rinfo).get (js "address") = .str rinfo.address
    ∧ (parseSSDP message rinfo).get (js "port") = .num rinfo.port := by
  simp only [parseSSDP, RemoteInfo.entries, List.foldl_cons, List.foldl_nil]
  constructor
  · rw [Obj.get_set_other _ _ _ _ (by decide), Obj.get_set_other _ _ _ _ (by decide),
      Obj.get_set_other _ _ _ _ (by decide), Obj.get_set_self _ _ _ (by decide)]
  · rw [Obj.get_set_other _ _ _ _ (by decide), Obj.get_set_self _ _ _ (by decide)]

/-- A remote-info field is not a header name: assigning the four fields leaves every other
property of the decoded message as the header lines set it. -/
theorem parseSSDP_header (message : Message) (rinfo : RemoteInfo) (k : Str)
    (h1 : k ≠ js "address") (h2 : k ≠ js "family") (h3 : k ≠ js "port") (h4 : k ≠ js "size") :
    (parseSSDP message rinfo).get k
      = Obj.get ((split message.toString (js "\r\n")).foldl parseLine []) k := by
  simp only [parseSSDP, RemoteInfo.entries, List.foldl_cons, List.foldl_nil]
  rw [Obj.get_set_other _ _ _ _ h4, Obj.get_set_other _ _ _ _ h3,
    Obj.get_set_other _ _ _ _ h2, Obj.get_set_other _ _ _ _ h1]

/-! ## The receive handler -/

theorem responseSends_response (e : Engine) (usn : Str) (host port : JsVal) (date : Str) :
    responseSends (e.response usn host port date) = responseSends e := by
  funext h p c us i
  exact responseSends_congr e (e.response usn host port date) h p c rfl rfl rfl us i

theorem responseSend_response (e : Engine) (usn : Str) (host port : JsVal) (date : Str) :
    responseSend (e.response usn host port date) = responseSend e := rfl

theorem Engine.response_services (e : Engine) (usn : Str) (host port : JsVal) (date : Str) :
    (e.response usn host port date).services = e.services := rfl

theorem Engine.response_deviceUUID (e : Engine) (usn : Str) (host port : JsVal) (date : Str) :
    (e.response usn host port date).deviceUUID = e.deviceUUID := rfl

theorem Engine.response_deviceName (e : Engine) (usn : Str) (host port : JsVal) (date : Str) :
    (e.response usn host port date).deviceName = e.deviceName := rfl

/-- What the handler does with a datagram whose text contains "M-SEARCH": responses only,
to the sender, for the three root USNs and the services when ST is "ssdp:all", for the
services alone otherwise. -/
theorem Engine.onMessage_msearch (e : Engine) (message : Buffer) (rinfo : RemoteInfo)
    (clock : Nat → Str) (h : includes (Buffer.toString message) (js "M-SEARCH") = true) :
    (e.onMessage message rinfo clock).trace = e.trace ++
      responseSends e (.str rinfo.address) (.num rinfo.port) clock
        (if (parseSSDP (.buffer message) rinfo).get (js "st") = .str (js "ssdp:all") then
          js "upnp:rootdevice" :: e.deviceUUID ::
            (js "urn:schemas-upnp-org:device:" ++ e.deviceName ++ js ":1") :: e.services
         else e.services) 0 := by
  simp only [Engine.onMessage, h, if_true]
  rw [(parseSSDP_sender (.buffer message) rinfo).1, (parseSSDP_sender (.buffer message) rinfo).2]
  split
  · rw [Engine.responseAll_trace]
    simp only [Engine.response_trace, responseSends, List.append_assoc, List.singleton_append,
      List.cons_append, List.nil_append, responseSends_response, responseSend_response,
      Engine.response_services, Engine.response_deviceUUID, Engine.response_deviceName]
  · rw [Engine.responseAll_trace]

/-- C3: for a datagram whose text contains "M-SEARCH", from address `A` and port `P`: when
the decoded ST is "ssdp:all" the handler issues exactly `3 + N` unicast responses, all to
`(A, P)`, for "upnp:rootdevice", the device UUID, the device-type URN and then the `N`
registered services in registration order; for any other ST, or none, exactly `N`, one per
registered service in registration order. -/
theorem C3_msearch_responses (e : Engine) (message : Buffer) (rinfo : RemoteInfo)
    (clock : Nat → Str) (h : includes (Buffer.toString message) (js "M-SEARCH") = true) :
    ((parseSSDP (.buffer message) rinfo).get (js "st") = .str (js "ssdp:all") →
      (e.onMessage message rinfo clock).trace = e.trace ++
        responseSends e (.str rinfo.address) (.num rinfo.port) clock
          (js "upnp:rootdevice" :: e.deviceUUID ::
            (js "urn:schemas-upnp-org:device:" ++ e.deviceName ++ js ":1") :: e.services) 0
      ∧ (responseSends e (.str rinfo.address) (.num rinfo.port) clock
          (js "upnp:rootdevice" :: e.deviceUUID ::
            (js "urn:schemas-upnp-org:device:" ++ e.deviceName ++ js ":1") :: e.services)
          0).length = 3 + e.services.length)
    ∧ ((parseSSDP (.buffer message) rinfo).get (js "st") ≠ .str (js "ssdp:all") →
      (e.onMessage message rinfo clock).trace = e.trace ++
        responseSends e (.str rinfo.address) (.num rinfo.port) clock e.services 0
      ∧ (responseSends e (.str rinfo.address) (.num rinfo.port) clock e.services 0).length
          = e.services.length) := by
  have key := Engine.onMessage_msearch e message rinfo clock h
  constructor
  · intro hst
    rw [if_pos hst] at key
    exact ⟨key, by rw [responseSends_length]; simp only [List.length_cons]; omega⟩
  · intro hst
    rw [if_neg hst] at key
    exact ⟨key, responseSends_length _ _ _ _ _ _⟩

set_option maxRecDepth 100000 in
/-- C3 at an M-SEARCH for "ssdp:all" received by an engine with one service. -/
theorem C3_msearch_responses_witness :
    includes (Buffer.toString (utf8Encode (msearch (js "ssdp:all")))) (js "M-SEARCH") = true
    ∧ (demoEngine.onMessage (utf8Encode (msearch (js "ssdp:all"))) demoSender demoClock).trace
        = demoEngine.trace ++
          responseSends demoEngine (.str (js "192.168.1.9")) (.num 50000) demoClock
            [js "upnp:rootdevice", js "uuid:1234", js "urn:schemas-upnp-org:device:lamp:1",
             js "uuid:1234::urn:schemas-upnp-org:service:SwitchPower:1"] 0 :=
  ⟨by decide,
   ((C3_msearch_responses demoEngine (utf8Encode (msearch (js "ssdp:all"))) demoSender demoClock
      (by decide)).1 (by decide)).1⟩

theorem includes_notify_alive (location usn product product_version : Str) :
    includes (notify_alive location usn product product_version) (js "NOTIFY") = true := by
  simp [includes, indexOfFrom, notify_alive, js, utf16OfCodePoint]

theorem includes_notify_bye (usn : Str) : includes (notify_bye usn) (js "NOTIFY") = true := by
  simp [includes, indexOfFrom, notify_bye, js, utf16OfCodePoint]

/-- What the handler does with a datagram whose text contains "NOTIFY" and not "M-SEARCH":
one notify event carrying the decoded message. -/
theorem Engine.onMessage_notify (e : Engine) (message : Buffer) (rinfo : RemoteInfo)
    (clock : Nat → Str) (h1 : includes (Buffer.toString message) (js "M-SEARCH") = false)
    (h2 : includes (Buffer.toString message) (js "NOTIFY") = true) :
    (e.onMessage message rinfo clock).trace = e.trace ++
      [Effect.emit (js "notify") (.record (parseSSDP (.buffer message) rinfo))] := by
  simp [Engine.onMessage, h1, h2]

/-- C8, as the code has it: given a datagram whose text is the engine's own
`notify_alive(...)` or `notify_bye(usn)` output, the handler publishes one notify event
carrying the decoded message when the text does not contain "M-SEARCH", and answers it as
a search, publishing nothing, when it does. -/
theorem C8_loopback_is_notify (e : Engine) (message : Buffer) (rinfo : RemoteInfo)
    (clock : Nat → Str) (location usn product product_version : Str)
    (htext : Buffer.toString message = notify_alive location usn product product_version
      ∨ Buffer.toString message = notify_bye usn) :
    (includes (Buffer.toString message) (js "M-SEARCH") = false →
      (e.onMessage message rinfo clock).trace = e.trace ++
        [Effect.emit (js "notify") (.record (parseSSDP (.buffer message) rinfo))])
    ∧ (includes (Buffer.toString message) (js "M-SEARCH") = true →
      (e.onMessage message rinfo clock).trace = e.trace ++
        responseSends e (.str rinfo.address) (.num rinfo.port) clock
          (if (parseSSDP (.buffer message) rinfo).get (js "st") = .str (js "ssdp:all") then
            js "upnp:rootdevice" :: e.deviceUUID ::
              (js "urn:schemas-upnp-org:device:" ++ e.deviceName ++ js ":1") :: e.services
           else e.services) 0) := by
  refine ⟨fun h => ?_, fun h => Engine.onMessage_msearch e message rinfo clock h⟩
  apply Engine.onMessage_notify e message rinfo clock h
  rcases htext with ht | ht
  · rw [ht]; exact includes_notify_alive _ _ _ _
  · rw [ht]; exact includes_notify_bye _

set_option maxRecDepth 100000 in
/-- C8 at the byebye of a service, looped back. -/
theorem C8_loopback_is_notify_witness :
    (Buffer.toString (utf8Encode (notify_bye (js "uuid:1234::urn:x")))
        = notify_alive (js "192.168.1.5:8080/desc.xml") (js "uuid:1234::urn:x") (js "lamp")
            (js "1.0")
      ∨ Buffer.toString (utf8Encode (notify_bye (js "uuid:1234::urn:x")))
        = notify_bye (js "uuid:1234::urn:x"))
    ∧ includes (Buffer.toString (utf8Encode (notify_bye (js "uuid:1234::urn:x"))))
        (js "M-SEARCH") = false
    ∧ (demoEngine.onMessage (utf8Encode (notify_bye (js "uuid:1234::urn:x"))) demoSender
        demoClock).trace = demoEngine.trace ++
        [Effect.emit (js "notify")
          (.record (parseSSDP (.buffer (utf8Encode (notify_bye (js "uuid:1234::urn:x"))))
            demoSender))] :=
  ⟨Or.inr (by decide), by decide,
   (C8_loopback_is_notify demoEngine (utf8Encode (notify_bye (js "uuid:1234::urn:x")))
      demoSender demoClock (js "192.168.1.5:8080/desc.xml") (js "uuid:1234::urn:x") (js "lamp")
      (js "1.0") (Or.inr (by decide))).1 (by decide)⟩

set_option maxRecDepth 100000 in
/-- C8 fails as stated: the looped-back byebye of a service is published as a notify
event, not as a discover event. -/
theorem C8_loopback_not_discover :
    Buffer.toString (utf8Encode (notify_bye (js "uuid:1234::urn:x")))
      = notify_bye (js "uuid:1234::urn:x")
    ∧ (demoEngine.onMessage (utf8Encode (notify_bye (js "uuid:1234::urn:x"))) demoSender
        demoClock).trace ≠ demoEngine.trace ++
        [Effect.emit (js "discover")
          (.record (parseSSDP (.buffer (utf8Encode (notify_bye (js "uuid:1234::urn:x"))))
            demoSender))] := by
  decide

/-! ## Send failures -/

/-- The callback of the call made last is the one the transport settles at index
`pending.length` of the engine before the call. -/
theorem Engine.settle_last (e : Engine) (cb : Pending) (t : List Effect) (err : Option Str) :
    Engine.settle { e with trace := t, pending := e.pending ++ [cb] } e.pending.length err
      = Engine.runCallback { e with trace := t } cb err := by
  simp [Engine.settle, List.getElem?_append_right, List.eraseIdx_append_of_length_le]

/-- C10, as the code has it: when the send of `discover`, `advertise` or `response` fails,
the callback closes the socket the call sent on and emits exactly one error event carrying
a text; when the send of `stop` fails, the callback writes a log line and neither closes a
socket nor emits an event. -/
theorem C10_send_failure (e : Engine) (err : Str) :
    (∀ (st host : Str) (port : JsVal),
      ((e.discover st host port).settle e.pending.length (some err)).trace
          = (e.discover st host port).trace ++ [Effect.close .socket,
              Effect.emit (js "error")
                (.message (js "Error on UDP socket for M-SEARCH: " ++ err))]
      ∧ ((e.discover st host port).settle e.pending.length (some err)).socketOpen = false)
    ∧ (∀ usn : Str,
      ((e.advertise usn).settle e.pending.length (some err)).trace
          = (e.advertise usn).trace ++ [Effect.close .socket,
              Effect.emit (js "error") (.message (js "Error sending ssdp:alive"))]
      ∧ ((e.advertise usn).settle e.pending.length (some err)).socketOpen = false)
    ∧ (∀ (usn : Str) (host port : JsVal) (date : Str),
      ((e.response usn host port date).settle e.pending.length (some err)).trace
          = (e.response usn host port date).trace ++ [Effect.close .uniSocket,
              Effect.emit (js "error") (.message (js "Error sending response"))]
      ∧ ((e.response usn host port date).settle e.pending.length (some err)).uniSocketOpen
          = false)
    ∧ (∀ (usn : Str) (hasCallback : Bool),
      ((e.stop usn hasCallback).settle e.pending.length (some err)).trace
          = (e.stop usn hasCallback).trace ++ [Effect.log (js "Error sending ssdp:byebye")]
      ∧ ((e.stop usn hasCallback).settle e.pending.length (some err)).socketOpen
          = e.socketOpen
      ∧ ((e.stop usn hasCallback).settle e.pending.length (some err)).uniSocketOpen
          = e.uniSocketOpen
      ∧ ((e.stop usn hasCallback).settle e.pending.length (some err)).pending = e.pending) := by
  refine ⟨fun st host port => ?_, fun usn => ?_, fun usn host port date => ?_,
    fun usn hasCallback => ?_⟩
  · simp only [Engine.discover]
    rw [Engine.settle_last]
    simp [Engine.runCallback]
  · simp only [Engine.advertise]
    rw [Engine.settle_last]
    simp [Engine.runCallback]
  · simp only [Engine.response]
    rw [Engine.settle_last]
    simp [Engine.runCallback]
  · simp only [Engine.stop]
    rw [Engine.settle_last]
    simp [Engine.runCallback]

set_option maxRecDepth 100000 in
/-- C10 fails as stated for `stop`: after a failed send the multicast socket is still open
and the trace holds the datagram and a log line, no `close` and no error event. -/
theorem C10_stop_failure_keeps_socket :
    ((demoEngine.stop (js "uuid:1234") true).settle 0 (some (js "EPERM"))).trace
      = [Effect.bind .uniSocket (.num 8080),
         Effect.send .socket
           (Buffer.alloc (notify_bye (js "uuid:1234")).length (notify_bye (js "uuid:1234")))
           0 (notify_bye (js "uuid:1234")).length (.num 1900) (.str (js "239.255.255.250")),
         Effect.log (js "Error sending ssdp:byebye")]
    ∧ ((demoEngine.stop (js "uuid:1234") true).settle 0 (some (js "EPERM"))).socketOpen
      = true := by
  decide

/-! ## The search target derived from a USN -/

theorem multicastPortText : (JsVal.num MULTICAST_PORT).toStr = js "1900" := by decide

theorem indexOf_of_not_includes (s pat : Str) (h : includes s pat = false) :
    indexOf s pat = -1 := by
  unfold includes at h
  unfold indexOf
  cases hh : indexOfFrom pat s 0 with
  | none => rfl
  | some i => simp [hh] at h

theorem substring_zero (s : Str) : substring s 0 = s := by
  simp [substring, clampIndex]

/-- The ST of `response` is the trimmed text that starts one code unit after the index
`indexOf` reports for "::". -/
theorem response_eq_responseWith (location usn product product_version date : Str) :
    response location usn product product_version date
      = responseWith location usn product product_version date
          (trim (substring usn (indexOf usn (js "::") + 1))) := by
  simp [response, responseWith, js, utf16OfCodePoint]

set_option maxRecDepth 100000 in
/-- The NT of `notify_alive` is the trimmed text that starts one code unit after the index
`indexOf` reports for "::". -/
theorem notify_alive_eq_notifyAliveWith (location usn product product_version : Str) :
    notify_alive location usn product product_version
      = notifyAliveWith location usn product product_version
          (trim (substring usn (indexOf usn (js "::") + 1))) := by
  simp [notify_alive, notifyAliveWith, multicastPortText, js, utf16OfCodePoint, MULTICAST_ADDRESS]

/-- C1, evaluated: for the USN "uuid:1234::urn:schemas-upnp-org:service:SwitchPower:1" the
NT of `notify_alive` and the ST of `response` are
":urn:schemas-upnp-org:service:SwitchPower:1", with the second colon of the delimiter
in front of the URN. -/
theorem C1_target_keeps_colon (location product product_version date : Str) :
    notify_alive location (js "uuid:1234::urn:schemas-upnp-org:service:SwitchPower:1") product
        product_version
      = notifyAliveWith location (js "uuid:1234::urn:schemas-upnp-org:service:SwitchPower:1")
          product product_version (js ":urn:schemas-upnp-org:service:SwitchPower:1")
    ∧ response location (js "uuid:1234::urn:schemas-upnp-org:service:SwitchPower:1") product
        product_version date
      = responseWith location (js "uuid:1234::urn:schemas-upnp-org:service:SwitchPower:1")
          product product_version date (js ":urn:schemas-upnp-org:service:SwitchPower:1") := by
  have h : trim (substring (js "uuid:1234::urn:schemas-upnp-org:service:SwitchPower:1")
      (indexOf (js "uuid:1234::urn:schemas-upnp-org:service:SwitchPower:1") (js "::") + 1))
      = js ":urn:schemas-upnp-org:service:SwitchPower:1" := by decide
  rw [notify_alive_eq_notifyAliveWith, response_eq_responseWith, h]
  exact ⟨rfl, rfl⟩

/-- C9, as the code has it: for a USN that contains no "::" the ST written by `response`
and the NT written by `notify_alive` are the whole USN, trimmed. -/
theorem C9_target_without_delimiter (location usn product product_version date : Str)
    (h : includes usn (js "::") = false) :
    response location usn product product_version date
      = responseWith location usn product product_version date (trim usn)
    ∧ notify_alive location usn product product_version
      = notifyAliveWith location usn product product_version (trim usn) := by
  rw [notify_alive_eq_notifyAliveWith, response_eq_responseWith, indexOf_of_not_includes usn _ h]
  simp [substring_zero]

/-- C9 at "upnp:rootdevice". -/
theorem C9_target_without_delimiter_witness :
    includes (js "upnp:rootdevice") (js "::") = false
    ∧ response (js "192.168.1.5:8080/desc.xml") (js "upnp:rootdevice") (js "lamp") (js "1.0")
        (js "Fri Nov 06 2026")
      = responseWith (js "192.168.1.5:8080/desc.xml") (js "upnp:rootdevice") (js "lamp")
          (js "1.0") (js "Fri Nov 06 2026") (js "upnp:rootdevice")
    ∧ notify_alive (js "192.168.1.5:8080/desc.xml") (js "upnp:rootdevice") (js "lamp")
        (js "1.0")
      = notifyAliveWith (js "192.168.1.5:8080/desc.xml") (js "upnp:rootdevice") (js "lamp")
          (js "1.0") (js "upnp:rootdevice") :=
  ⟨by decide,
   C9_target_without_delimiter (js "192.168.1.5:8080/desc.xml") (js "upnp:rootdevice")
     (js "lamp") (js "1.0") (js "Fri Nov 06 2026") (by decide)⟩

set_option maxRecDepth 100000 in
/-- C9 fails as stated: for "upnp:rootdevice", which contains no "::", the ST of `response`
and the NT of `notify_alive` are not the USN without its first two code units
("np:rootdevice"). -/
theorem C9_no_two_unit_strip :
    includes (js "upnp:rootdevice") (js "::") = false
    ∧ trim (substring (js "upnp:rootdevice") 2) = js "np:rootdevice"
    ∧ response (js "192.168.1.5:8080/desc.xml") (js "upnp:rootdevice") (js "lamp") (js "1.0")
        (js "Fri Nov 06 2026")
      ≠ responseWith (js "192.168.1.5:8080/desc.xml") (js "upnp:rootdevice") (js "lamp")
          (js "1.0") (js "Fri Nov 06 2026") (trim (substring (js "upnp:rootdevice") 2))
    ∧ notify_alive (js "192.168.1.5:8080/desc.xml") (js "upnp:rootdevice") (js "lamp")
        (js "1.0")
      ≠ notifyAliveWith (js "192.168.1.5:8080/desc.xml") (js "upnp:rootdevice") (js "lamp")
          (js "1.0") (trim (substring (js "upnp:rootdevice") 2)) := by
  decide

/-! ## Lines -/

theorem crlf_isPrefixOf (c : Nat) (cs : Str) :
    List.isPrefixOf [13, 10] (c :: cs) = (c == 13 && cs.head? == some 10) := by
  cases cs with
  | nil => simp [List.isPrefixOf]
  | cons d ds =>
    simp only [List.isPrefixOf, List.head?_cons]
    rw [BEq.comm (a := 13), BEq.comm (a := 10)]
    simp

theorem indexOfFrom_crlf_isSome (s : Str) (i : Nat) :
    (indexOfFrom [13, 10] s i).isSome = hasCRLF s := by
  induction s generalizing i with
  | nil => simp [indexOfFrom, hasCRLF]
  | cons c cs ih =>
    rw [indexOfFrom, crlf_isPrefixOf, hasCRLF]
    cases h : (c == 13 && cs.head? == some 10)
    · simp [ih]
    · simp

/-- Whether `s.includes("\r\n")` holds is whether a CR LF occurs in `s`. -/
theorem includes_crlf (s : Str) : includes s (js "\r\n") = hasCRLF s := by
  have h : js "\r\n" = [13, 10] := by decide
  rw [h, includes, indexOfFrom_crlf_isSome]

theorem hasCRLF_cons_false (c : Nat) (cs : Str) (h : hasCRLF (c :: cs) = false) :
    hasCRLF cs = false ∧ (c = 13 → cs.head? ≠ some 10) := by
  simp only [hasCRLF, Bool.or_eq_false_iff, Bool.and_eq_false_iff] at h
  refine ⟨h.2, fun hc hd => ?_⟩
  rcases h.1 with h1 | h1
  · simp [hc] at h1
  · simp [hd] at h1

theorem hasCRLF_cons_ne (c : Nat) (cs : Str) (h : c ≠ 13) : hasCRLF (c :: cs) = hasCRLF cs := by
  simp [hasCRLF, h]

/-- A text without CR LF followed by a text without CR LF that does not begin with LF has
no CR LF. -/
theorem hasCRLF_append (a b : Str) (ha : hasCRLF a = false) (hb : hasCRLF b = false)
    (h : b.head? ≠ some 10) : hasCRLF (a ++ b) = false := by
  induction a with
  | nil => simpa using hb
  | cons c cs ih =>
    obtain ⟨h1, h2⟩ := hasCRLF_cons_false c cs ha
    have ih2 := ih h1
    simp only [List.cons_append, hasCRLF, Bool.or_eq_false_iff, Bool.and_eq_false_iff]
    refine ⟨?_, ih2⟩
    by_cases hc : c = 13
    · right
      have h3 := h2 hc
      cases cs with
      | nil => simpa using h
      | cons d ds => simpa using h3
    · left; simpa using hc

theorem splitFrom_crlf_line (l rest : Str) (h : hasCRLF l = false) :
    splitFrom [13, 10] (l ++ 13 :: 10 :: rest) 0 = l :: splitFrom [13, 10] rest 0 := by
  induction l with
  | nil => simp [splitFrom, List.isPrefixOf]
  | cons c cs ih =>
    obtain ⟨h1, h2⟩ := hasCRLF_cons_false c cs h
    have hp : List.isPrefixOf [13, 10] (c :: (cs ++ 13 :: 10 :: rest)) = false := by
      rw [crlf_isPrefixOf]
      by_cases hc : c = 13
      · have h3 := h2 hc
        cases cs with
        | nil => simp
        | cons d ds =>
          have : d ≠ 10 := by simpa using h3
          simp [this]
      · simp [hc]
    rw [List.cons_append, splitFrom, hp, ih h1]
    simp [consHead]

theorem splitFrom_crlf_last (l : Str) (h : hasCRLF l = false) :
    splitFrom [13, 10] l 0 = [l] := by
  induction l with
  | nil => simp [splitFrom]
  | cons c cs ih =>
    obtain ⟨h1, h2⟩ := hasCRLF_cons_false c cs h
    have hp : List.isPrefixOf [13, 10] (c :: cs) = false := by
      rw [crlf_isPrefixOf]
      by_cases hc : c = 13
      · have h3 := h2 hc
        simp [h3]
      · simp [hc]
    rw [splitFrom, hp, ih h1]
    simp [consHead]

/-- Splitting on CR LF gives back the lines that were joined with it, then what follows. -/
theorem split_crlfLines (ls : List Str) (rest : Str) (h : ∀ l ∈ ls, hasCRLF l = false) :
    split (crlfLines ls ++ rest) (js "\r\n") = ls ++ split rest (js "\r\n") := by
  have hs : js "\r\n" = [13, 10] := by decide
  simp only [split, hs, List.cons_ne_nil, if_false]
  induction ls with
  | nil => simp [crlfLines]
  | cons l ls ih =>
    have hl := h l (List.mem_cons_self _ _)
    have ih2 := ih (fun x hx => h x (List.mem_cons_of_mem _ hx))
    simp only [crlfLines, List.append_assoc, List.cons_append]
    rw [splitFrom_crlf_line _ _ hl, ih2]

/-- A text without CR LF is a single line. -/
theorem split_single (l : Str) (h : hasCRLF l = false) : split l (js "\r\n") = [l] := by
  have hs : js "\r\n" = [13, 10] := by decide
  simp only [split, hs, List.cons_ne_nil, if_false]
  exact splitFrom_crlf_last l h

/-! ## Header lines -/

theorem indexOfFrom_colon (name v : Str) (i : Nat) (h : ∀ c ∈ name, c ≠ 58) :
    indexOfFrom [58] (name ++ 58 :: v) i = some (i + name.length) := by
  induction name generalizing i with
  | nil => simp [indexOfFrom, List.isPrefixOf]
  | cons c cs ih =>
    have hc : c ≠ 58 := h c (List.mem_cons_self _ _)
    have hp : List.isPrefixOf [58] (c :: (cs ++ 58 :: v)) = false := by
      simp [List.isPrefixOf, Ne.symm hc]
    rw [List.cons_append, indexOfFrom, hp]
    simp only [Bool.false_eq_true, if_false]
    rw [ih (i + 1) (fun x hx => h x (List.mem_cons_of_mem _ hx))]
    simp only [List.length_cons]
    congr 1
    omega

theorem indexOfFrom_colon_none (l : Str) (i : Nat) (h : ∀ c ∈ l, c ≠ 58) :
    indexOfFrom [58] l i = none := by
  induction l generalizing i with
  | nil => simp [indexOfFrom]
  | cons c cs ih =>
    have hc : c ≠ 58 := h c (List.mem_cons_self _ _)
    have hp : List.isPrefixOf [58] (c :: cs) = false := by
      simp [List.isPrefixOf, Ne.symm hc]
    rw [indexOfFrom, hp]
    simp only [Bool.false_eq_true, if_false]
    exact ih (i + 1) (fun x hx => h x (List.mem_cons_of_mem _ hx))

/-- A line whose first colon comes after a name of two or more code units sets the
lower-cased trimmed name to the trimmed rest of the line. -/
theorem parseLine_header (o : Obj) (name v key : Str) (h : ∀ c ∈ name, c ≠ 58)
    (hlen : 2 ≤ name.length) (hkey : toLowerCase (trim name) = key) :
    parseLine o (name ++ 58 :: v) = o.set key (.str (trim v)) := by
  subst hkey
  have hs : js ":" = [58] := by decide
  have hi : indexOf (name ++ 58 :: v) [58] = (name.length : Int) := by
    simp [indexOf, indexOfFrom_colon name v 0 h]
  have hgt : (name.length : Int) > 1 := by omega
  have h1 : substring (name ++ 58 :: v) 0 (some (name.length : Int)) = name := by
    simp [substring, clampIndex]
  have h2 : substring (name ++ 58 :: v) ((name.length : Int) + 1) = v := by
    have : ((name.length : Int) + 1).toNat = name.length + 1 := by omega
    have ht : List.take (name.length + (v.length + 1)) (name ++ 58 :: v) = name ++ 58 :: v :=
      List.take_of_length_le (by simp)
    have hd : List.drop (name.length + 1) (name ++ 58 :: v) = v := by
      rw [List.drop_append]; rfl
    simp [substring, clampIndex, this, ht, hd]
  simp only [parseLine, hs, hi, hgt, if_true, h1, h2]

/-- A line without a colon sets nothing. -/
theorem parseLine_skip (o : Obj) (l : Str) (h : ∀ c ∈ l, c ≠ 58) : parseLine o l = o := by
  have hs : js ":" = [58] := by decide
  simp [parseLine, hs, indexOf, indexOfFrom_colon_none l 0 h]

theorem trim_space (v : Str) : trim (32 :: v) = trim v := by
  simp [trim, isWhiteSpace]

theorem trim_nil : trim [] = [] := rfl

theorem hasCRLF_iff (l : Str) : hasCRLF l = true ↔ [13, 10] <:+: l := by
  induction l with
  | nil => simp [hasCRLF]
  | cons c cs ih =>
    rw [List.infix_cons_iff, ← ih, hasCRLF]
    simp only [Bool.or_eq_true, Bool.and_eq_true, beq_iff_eq]
    constructor
    · rintro (⟨h1, h2⟩ | h)
      · left
        cases cs with
        | nil => simp at h2
        | cons d ds =>
          simp only [List.head?_cons, Option.some.injEq] at h2
          subst h1; subst h2
          exact ⟨ds, rfl⟩
      · right; exact h
    · rintro (⟨t, ht⟩ | h)
      · left
        simp only [List.cons_append, List.cons.injEq, List.nil_append] at ht
        obtain ⟨h1, h2⟩ := ht
        subst h1; subst h2
        simp
      · right; exact h

/-- A part of a text without CR LF has no CR LF. -/
theorem hasCRLF_of_infix (a b : Str) (h : a <:+: b) (hb : hasCRLF b = false) :
    hasCRLF a = false := by
  cases ha : hasCRLF a with
  | false => rfl
  | true =>
    have := (hasCRLF_iff b).2 (List.IsInfix.trans ((hasCRLF_iff a).1 ha) h)
    rw [hb] at this
    exact absurd this (by simp)

theorem trim_isInfix (s : Str) : trim s <:+: s := by
  unfold trim
  have h1 : ((s.dropWhile isWhiteSpace).reverse.dropWhile isWhiteSpace).reverse
      <+: s.dropWhile isWhiteSpace := by
    rw [← List.reverse_suffix, List.reverse_reverse]
    exact List.dropWhile_suffix _
  exact List.IsInfix.trans h1.isInfix (List.dropWhile_suffix _).isInfix

theorem substring_isInfix (s : Str) (a : Int) (b : Option Int) : substring s a b <:+: s := by
  unfold substring
  exact List.IsInfix.trans (List.drop_suffix _ _).isInfix (List.take_prefix _ _).isInfix

/-- The ST or NT derived from a USN without CR LF has no CR LF. -/
theorem hasCRLF_target (usn : Str) (i : Int) (h : hasCRLF usn = false) :
    hasCRLF (trim (substring usn i)) = false :=
  hasCRLF_of_infix _ _ (List.IsInfix.trans (trim_isInfix _) (substring_isInfix _ _ _)) h

theorem hasCRLF_arg_lit (a : Str) (c : Nat) (b : Str) (ha : hasCRLF a = false) (hc : c ≠ 10)
    (hc2 : c ≠ 13) (hb : hasCRLF b = false) : hasCRLF (a ++ c :: b) = false := by
  apply hasCRLF_append a (c :: b) ha
  · rw [hasCRLF_cons_ne c b hc2]; exact hb
  · simpa using hc

/-! ## Round trip of the four message texts -/

set_option maxRecDepth 100000 in
theorem msearch_lines (st host : Str) (port : JsVal) :
    msearch st host port = crlfLines
      [js "M-SEARCH * HTTP/1.1",
       js "HOST" ++ 58 :: 32 :: (host ++ 58 :: port.toStr),
       js "MAN" ++ 58 :: js " \"ssdp:discover\"",
       js "MX" ++ 58 :: js " 3",
       js "ST" ++ 58 :: 32 :: st,
       []] := by
  simp [msearch, crlfLines, js, utf16OfCodePoint]

set_option maxRecDepth 100000 in
theorem response_lines (location usn product product_version date : Str) :
    response location usn product product_version date = crlfLines
      [js "HTTP/1.1 200 OK",
       js "CACHE-CONTROL" ++ 58 :: js " max-age = 1800",
       js "DATE" ++ 58 :: 32 :: date,
       js "EXT" ++ 58 :: [],
       js "LOCATION" ++ 58 :: (js " http://" ++ location),
       js "SERVER" ++ 58 :: (js " Node.js/16.2.0 UPnP/1.1 " ++ (product ++ 47 :: product_version)),
       js "ST" ++ 58 :: 32 :: trim (substring usn (indexOf usn (js "::") + 1)),
       js "USN" ++ 58 :: 32 :: usn,
       []] := by
  simp [response, crlfLines, js, utf16OfCodePoint]

set_option maxRecDepth 100000 in
theorem notify_alive_lines (location usn product product_version : Str) :
    notify_alive location usn product product_version = crlfLines
      [js "NOTIFY * HTTP/1.1",
       js "HOST" ++ 58 :: js " 239.255.255.250:1900",
       js "CACHE-CONTROL" ++ 58 :: js " max-age = 1800",
       js "LOCATION" ++ 58 :: (js " http://" ++ location),
       js "NT" ++ 58 :: 32 :: trim (substring usn (indexOf usn (js "::") + 1)),
       js "NTS" ++ 58 :: js " ssdp:alive",
       js "SERVER" ++ 58 :: (js " Node.js/16.2.0 UPnP/1.1 " ++ (product ++ 47 :: product_version)),
       js "USN" ++ 58 :: 32 :: usn,
       []] := by
  simp [notify_alive, multicastPortText, MULTICAST_ADDRESS, crlfLines, js, utf16OfCodePoint]

set_option maxRecDepth 100000 in
theorem notify_bye_lines (usn : Str) :
    notify_bye usn = crlfLines
      [js "NOTIFY * HTTP/1.1",
       js "HOST" ++ 58 :: js " 239.255.255.250:1900",
       js "NT" ++ 58 :: js " urn:schemas-upnp-org:service:DiscoveryService:1",
       js "NTS" ++ 58 :: js " ssdp:byebye",
       js "USN" ++ 58 :: 32 :: usn,
       []] := by
  simp [notify_bye, multicastPortText, MULTICAST_ADDRESS, crlfLines, js, utf16OfCodePoint]

theorem split_nil : split [] (js "\r\n") = [[]] := by decide

/-- Reading a property after an assignment. -/
theorem Obj.get_set (o : Obj) (k k2 : Str) (v : JsVal) :
    (o.set k v).get k2
      = if k = js "__proto__" then o.get k2 else if k2 = k then v else o.get k2 := by
  by_cases hk : k = js "__proto__"
  · rw [if_pos hk]; unfold Obj.set; rw [if_pos hk]
  · rw [if_neg hk]
    by_cases h2 : k2 = k
    · rw [if_pos h2, h2]; exact Obj.get_set_self o k v hk
    · rw [if_neg h2]; exact Obj.get_set_other o k k2 v h2

set_option maxRecDepth 100000 in
/-- The header lines of an M-SEARCH text, decoded. -/
theorem parse_msearch (st host : Str) (port : JsVal) (hst : hasCRLF st = false)
    (hhost : hasCRLF host = false) (hport : hasCRLF port.toStr = false) :
    (split (msearch st host port) (js "\r\n")).foldl parseLine []
      = Obj.set (Obj.set (Obj.set (Obj.set []
          (js "host") (.str (trim (host ++ 58 :: port.toStr))))
          (js "man") (.str (js "\"ssdp:discover\"")))
          (js "mx") (.str (js "3")))
          (js "st") (.str (trim st)) := by
  rw [msearch_lines]
  have hsplit := split_crlfLines
      [js "M-SEARCH * HTTP/1.1",
       js "HOST" ++ 58 :: 32 :: (host ++ 58 :: port.toStr),
       js "MAN" ++ 58 :: js " \"ssdp:discover\"",
       js "MX" ++ 58 :: js " 3",
       js "ST" ++ 58 :: 32 :: st,
       []] [] (by
        simp [js, utf16OfCodePoint, hasCRLF_cons_ne, hasCRLF_arg_lit, hst, hhost, hport, hasCRLF])
  rw [List.append_nil] at hsplit
  rw [hsplit, split_nil]
  simp only [List.foldl_cons, List.foldl_nil, List.cons_append, List.nil_append]
  rw [parseLine_skip _ (js "M-SEARCH * HTTP/1.1") (by decide),
    parseLine_header _ (js "HOST") _ (js "host") (by decide) (by decide) (by decide),
    parseLine_header _ (js "MAN") _ (js "man") (by decide) (by decide) (by decide),
    parseLine_header _ (js "MX") _ (js "mx") (by decide) (by decide) (by decide),
    parseLine_header _ (js "ST") _ (js "st") (by decide) (by decide) (by decide),
    parseLine_skip _ [] (by decide), parseLine_skip _ [] (by decide)]
  rw [trim_space, trim_space,
    show trim (js " \"ssdp:discover\"") = js "\"ssdp:discover\"" from by decide,
    show trim (js " 3") = js "3" from by decide]

set_option maxRecDepth 100000 in
/-- The header lines of a search response text, decoded. -/
theorem parse_response (location usn product product_version date : Str)
    (hloc : hasCRLF location = false) (husn : hasCRLF usn = false)
    (hprod : hasCRLF product = false) (hpv : hasCRLF product_version = false)
    (hdate : hasCRLF date = false) :
    (split (response location usn product product_version date) (js "\r\n")).foldl parseLine []
      = Obj.set (Obj.set (Obj.set (Obj.set (Obj.set (Obj.set (Obj.set []
          (js "cache-control") (.str (js "max-age = 1800")))
          (js "date") (.str (trim date)))
          (js "ext") (.str (js "")))
          (js "location") (.str (trim (js "http://" ++ location))))
          (js "server")
            (.str (trim (js "Node.js/16.2.0 UPnP/1.1 " ++ (product ++ 47 :: product_version)))))
          (js "st") (.str (trim (trim (substring usn (indexOf usn (js "::") + 1))))))
          (js "usn") (.str (trim usn)) := by
  rw [response_lines]
  have htarget := hasCRLF_target usn (indexOf usn [58, 58] + 1) husn
  have hsplit := split_crlfLines
      [js "HTTP/1.1 200 OK",
       js "CACHE-CONTROL" ++ 58 :: js " max-age = 1800",
       js "DATE" ++ 58 :: 32 :: date,
       js "EXT" ++ 58 :: [],
       js "LOCATION" ++ 58 :: (js " http://" ++ location),
       js "SERVER" ++ 58 :: (js " Node.js/16.2.0 UPnP/1.1 " ++ (product ++ 47 :: product_version)),
       js "ST" ++ 58 :: 32 :: trim (substring usn (indexOf usn (js "::") + 1)),
       js "USN" ++ 58 :: 32 :: usn,
       []] [] (by
        simp [js, utf16OfCodePoint, hasCRLF_cons_ne, hasCRLF_arg_lit, hloc, husn, hprod, hpv,
          hdate, htarget, hasCRLF])
  rw [List.append_nil] at hsplit
  rw [hsplit, split_nil]
  simp only [List.foldl_cons, List.foldl_nil, List.cons_append, List.nil_append]
  rw [parseLine_skip _ (js "HTTP/1.1 200 OK") (by decide),
    parseLine_header _ (js "CACHE-CONTROL") _ (js "cache-control") (by decide) (by decide)
      (by decide),
    parseLine_header _ (js "DATE") _ (js "date") (by decide) (by decide) (by decide),
    parseLine_header _ (js "EXT") _ (js "ext") (by decide) (by decide) (by decide),
    parseLine_header _ (js "LOCATION") _ (js "location") (by decide) (by decide) (by decide),
    parseLine_header _ (js "SERVER") _ (js "server") (by decide) (by decide) (by decide),
    parseLine_header _ (js "ST") _ (js "st") (by decide) (by decide) (by decide),
    parseLine_header _ (js "USN") _ (js "usn") (by decide) (by decide) (by decide),
    parseLine_skip _ [] (by decide), parseLine_skip _ [] (by decide)]
  rw [show js " http://" ++ location = 32 :: (js "http://" ++ location) from by
        simp [js, utf16OfCodePoint],
    show js " Node.js/16.2.0 UPnP/1.1 " ++ (product ++ 47 :: product_version)
        = 32 :: (js "Node.js/16.2.0 UPnP/1.1 " ++ (product ++ 47 :: product_version)) from by
        simp [js, utf16OfCodePoint],
    trim_space, trim_space, trim_space, trim_space, trim_nil,
    show trim (js " max-age = 1800") = js "max-age = 1800" from by decide]
  rfl

set_option maxRecDepth 100000 in
/-- The header lines of a NOTIFY ssdp:alive text, decoded. -/
theorem parse_notify_alive (location usn product product_version : Str)
    (hloc : hasCRLF location = false) (husn : hasCRLF usn = false)
    (hprod : hasCRLF product = false) (hpv : hasCRLF product_version = false) :
    (split (notify_alive location usn product product_version) (js "\r\n")).foldl parseLine []
      = Obj.set (Obj.set (Obj.set (Obj.set (Obj.set (Obj.set (Obj.set []
          (js "host") (.str (js "239.255.255.250:1900")))
          (js "cache-control") (.str (js "max-age = 1800")))
          (js "location") (.str (trim (js "http://" ++ location))))
          (js "nt") (.str (trim (trim (substring usn (indexOf usn (js "::") + 1))))))
          (js "nts") (.str (js "ssdp:alive")))
          (js "server")
            (.str (trim (js "Node.js/16.2.0 UPnP/1.1 " ++ (product ++ 47 :: product_version)))))
          (js "usn") (.str (trim usn)) := by
  rw [notify_alive_lines]
  have htarget := hasCRLF_target usn (indexOf usn [58, 58] + 1) husn
  have hsplit := split_crlfLines
      [js "NOTIFY * HTTP/1.1",
       js "HOST" ++ 58 :: js " 239.255.255.250:1900",
       js "CACHE-CONTROL" ++ 58 :: js " max-age = 1800",
       js "LOCATION" ++ 58 :: (js " http://" ++ location),
       js "NT" ++ 58 :: 32 :: trim (substring usn (indexOf usn (js "::") + 1)),
       js "NTS" ++ 58 :: js " ssdp:alive",
       js "SERVER" ++ 58 :: (js " Node.js/16.2.0 UPnP/1.1 " ++ (product ++ 47 :: product_version)),
       js "USN" ++ 58 :: 32 :: usn,
       []] [] (by
        simp [js, utf16OfCodePoint, hasCRLF_cons_ne, hasCRLF_arg_lit, hloc, husn, hprod, hpv,
          htarget, hasCRLF])
  rw [List.append_nil] at hsplit
  rw [hsplit, split_nil]
  simp only [List.foldl_cons, List.foldl_nil, List.cons_append, List.nil_append]
  rw [parseLine_skip _ (js "NOTIFY * HTTP/1.1") (by decide),
    parseLine_header _ (js "HOST") _ (js "host") (by decide) (by decide) (by decide),
    parseLine_header _ (js "CACHE-CONTROL") _ (js "cache-control") (by decide) (by decide)
      (by decide),
    parseLine_header _ (js "LOCATION") _ (js "location") (by decide) (by decide) (by decide),
    parseLine_header _ (js "NT") _ (js "nt") (by decide) (by decide) (by decide),
    parseLine_header _ (js "NTS") _ (js "nts") (by decide) (by decide) (by decide),
    parseLine_header _ (js "SERVER") _ (js "server") (by decide) (by decide) (by decide),
    parseLine_header _ (js "USN") _ (js "usn") (by decide) (by decide) (by decide),
    parseLine_skip _ [] (by decide), parseLine_skip _ [] (by decide)]
  rw [show js " http://" ++ location = 32 :: (js "http://" ++ location) from by
        simp [js, utf16OfCodePoint],
    show js " Node.js/16.2.0 UPnP/1.1 " ++ (product ++ 47 :: product_version)
        = 32 :: (js "Node.js/16.2.0 UPnP/1.1 " ++ (product ++ 47 :: product_version)) from by
        simp [js, utf16OfCodePoint],
    trim_space, trim_space, trim_space, trim_space,
    show trim (js " max-age = 1800") = js "max-age = 1800" from by decide,
    show trim (js " 239.255.255.250:1900") = js "239.255.255.250:1900" from by decide,
    show trim (js " ssdp:alive") = js "ssdp:alive" from by decide]

set_option maxRecDepth 100000 in
/-- The header lines of a NOTIFY ssdp:byebye text, decoded. -/
theorem parse_notify_bye (usn : Str) (husn : hasCRLF usn = false) :
    (split (notify_bye usn) (js "\r\n")).foldl parseLine []
      = Obj.set (Obj.set (Obj.set (Obj.set []
          (js "host") (.str (js "239.255.255.250:1900")))
          (js "nt") (.str (js "urn:schemas-upnp-org:service:DiscoveryService:1")))
          (js "nts") (.str (js "ssdp:byebye")))
          (js "usn") (.str (trim usn)) := by
  rw [notify_bye_lines]
  have hsplit := split_crlfLines
      [js "NOTIFY * HTTP/1.1",
       js "HOST" ++ 58 :: js " 239.255.255.250:1900",
       js "NT" ++ 58 :: js " urn:schemas-upnp-org:service:DiscoveryService:1",
       js "NTS" ++ 58 :: js " ssdp:byebye",
       js "USN" ++ 58 :: 32 :: usn,
       []] [] (by
        simp [js, utf16OfCodePoint, hasCRLF_cons_ne, husn, hasCRLF])
  rw [List.append_nil] at hsplit
  rw [hsplit, split_nil]
  simp only [List.foldl_cons, List.foldl_nil, List.cons_append, List.nil_append]
  rw [parseLine_skip _ (js "NOTIFY * HTTP/1.1") (by decide),
    parseLine_header _ (js "HOST") _ (js "host") (by decide) (by decide) (by decide),
    parseLine_header _ (js "NT") _ (js "nt") (by decide) (by decide) (by decide),
    parseLine_header _ (js "NTS") _ (js "nts") (by decide) (by decide) (by decide),
    parseLine_header _ (js "USN") _ (js "usn") (by decide) (by decide) (by decide),
    parseLine_skip _ [] (by decide), parseLine_skip _ [] (by decide)]
  rw [trim_space,
    show trim (js " 239.255.255.250:1900") = js "239.255.255.250:1900" from by decide,
    show trim (js " urn:schemas-upnp-org:service:DiscoveryService:1")
      = js "urn:schemas-upnp-org:service:DiscoveryService:1" from by decide,
    show trim (js " ssdp:byebye") = js "ssdp:byebye" from by decide]

set_option maxRecDepth 100000 in
/-- C2: for arguments without CR LF, `parseSSDP` applied to the text of each of the four
encoders, with any remote info, maps the lower-cased name of every header line the encoder
wrote to the trimmed value it wrote. -/
theorem C2_round_trip (st host : Str) (port : JsVal)
    (location usn product product_version date : Str) (rinfo : RemoteInfo)
    (hst : includes st (js "\r\n") = false) (hhost : includes host (js "\r\n") = false)
    (hport : includes port.toStr (js "\r\n") = false)
    (hloc : includes location (js "\r\n") = false) (husn : includes usn (js "\r\n") = false)
    (hprod : includes product (js "\r\n") = false)
    (hpv : includes product_version (js "\r\n") = false)
    (hdate : includes date (js "\r\n") = false) :
    ((parseSSDP (.text (msearch st host port)) rinfo).get (js "host")
        = .str (trim (host ++ js ":" ++ port.toStr))
      ∧ (parseSSDP (.text (msearch st host port)) rinfo).get (js "man")
        = .str (js "\"ssdp:discover\"")
      ∧ (parseSSDP (.text (msearch st host port)) rinfo).get (js "mx") = .str (js "3")
      ∧ (parseSSDP (.text (msearch st host port)) rinfo).get (js "st") = .str (trim st))
    ∧ ((parseSSDP (.text (response location usn product product_version date)) rinfo).get
          (js "cache-control") = .str (js "max-age = 1800")
      ∧ (parseSSDP (.text (response location usn product product_version date)) rinfo).get
          (js "date") = .str (trim date)
      ∧ (parseSSDP (.text (response location usn product product_version date)) rinfo).get
          (js "ext") = .str (js "")
      ∧ (parseSSDP (.text (response location usn product product_version date)) rinfo).get
          (js "location") = .str (trim (js "http://" ++ location))
      ∧ (parseSSDP (.text (response location usn product product_version date)) rinfo).get
          (js "server")
          = .str (trim (js "Node.js/16.2.0 UPnP/1.1 " ++ product ++ js "/" ++ product_version))
      ∧ (parseSSDP (.text (response location usn product product_version date)) rinfo).get
          (js "st") = .str (trim (trim (substring usn (indexOf usn (js "::") + 1))))
      ∧ (parseSSDP (.text (response location usn product product_version date)) rinfo).get
          (js "usn") = .str (trim usn))
    ∧ ((parseSSDP (.text (notify_alive location usn product product_version)) rinfo).get
          (js "host") = .str (js "239.255.255.250:1900")
      ∧ (parseSSDP (.text (notify_alive location usn product product_version)) rinfo).get
          (js "cache-control") = .str (js "max-age = 1800")
      ∧ (parseSSDP (.text (notify_alive location usn product product_version)) rinfo).get
          (js "location") = .str (trim (js "http://" ++ location))
      ∧ (parseSSDP (.text (notify_alive location usn product product_version)) rinfo).get
          (js "nt") = .str (trim (trim (substring usn (indexOf usn (js "::") + 1))))
      ∧ (parseSSDP (.text (notify_alive location usn product product_version)) rinfo).get
          (js "nts") = .str (js "ssdp:alive")
      ∧ (parseSSDP (.text (notify_alive location usn product product_version)) rinfo).get
          (js "server")
          = .str (trim (js "Node.js/16.2.0 UPnP/1.1 " ++ product ++ js "/" ++ product_version))
      ∧ (parseSSDP (.text (notify_alive location usn product product_version)) rinfo).get
          (js "usn") = .str (trim usn))
    ∧ ((parseSSDP (.text (notify_bye usn)) rinfo).get (js "host")
        = .str (js "239.255.255.250:1900")
      ∧ (parseSSDP (.text (notify_bye usn)) rinfo).get (js "nt")
        = .str (js "urn:schemas-upnp-org:service:DiscoveryService:1")
      ∧ (parseSSDP (.text (notify_bye usn)) rinfo).get (js "nts") = .str (js "ssdp:byebye")
      ∧ (parseSSDP (.text (notify_bye usn)) rinfo).get (js "usn") = .str (trim usn)) := by
  rw [includes_crlf] at hst hhost hport hloc husn hprod hpv hdate
  have e1 := parse_msearch st host port hst hhost hport
  have e2 := parse_response location usn product product_version date hloc husn hprod hpv hdate
  have e3 := parse_notify_alive location usn product product_version hloc husn hprod hpv
  have e4 := parse_notify_bye usn husn
  refine ⟨⟨?_, ?_, ?_, ?_⟩, ⟨?_, ?_, ?_, ?_, ?_, ?_, ?_⟩, ⟨?_, ?_, ?_, ?_, ?_, ?_, ?_⟩,
    ⟨?_, ?_, ?_, ?_⟩⟩ <;>
  · rw [parseSSDP_header _ _ _ (by decide) (by decide) (by decide) (by decide)]
    simp only [Message.toString]
    first | rw [e1] | rw [e2] | rw [e3] | rw [e4]
    simp [Obj.get_set, js, utf16OfCodePoint]

/-! ## UTF-8: ASCII passes through, and no CR LF is created -/

theorem utf8EncodeFrom_ascii (a s : Str) (h : isAscii a) :
    utf8EncodeFrom none (a ++ s) = a ++ utf8EncodeFrom none s := by
  induction a with
  | nil => rfl
  | cons c cs ih =>
    have hc : c < 128 := h c (List.mem_cons_self _ _)
    have ih2 := ih (fun x hx => h x (List.mem_cons_of_mem _ hx))
    have h1 : isHighSurrogate c = false := by
      simp only [isHighSurrogate, Bool.and_eq_false_iff, decide_eq_false_iff_not]; omega
    have h2 : isLowSurrogate c = false := by
      simp only [isLowSurrogate, Bool.and_eq_false_iff, decide_eq_false_iff_not]; omega
    simp [utf8EncodeFrom, h1, h2, utf8OfCodePoint, hc, ih2]

theorem utf8EncodeFrom_ascii_only (st : Option Nat) (a : Str) (h : isAscii a) :
    utf8EncodeFrom st a = utf8EncodeFrom st [] ++ a := by
  cases a with
  | nil => simp
  | cons c cs =>
    have hc : c < 128 := h c (List.mem_cons_self _ _)
    have hcs : isAscii cs := fun x hx => h x (List.mem_cons_of_mem _ hx)
    have h1 : isHighSurrogate c = false := by
      simp only [isHighSurrogate, Bool.and_eq_false_iff, decide_eq_false_iff_not]; omega
    have h2 : isLowSurrogate c = false := by
      simp only [isLowSurrogate, Bool.and_eq_false_iff, decide_eq_false_iff_not]; omega
    have h3 := utf8EncodeFrom_ascii cs [] hcs
    simp only [List.append_nil] at h3
    cases st with
    | none => simp [utf8EncodeFrom, h1, h2, utf8OfCodePoint, hc, h3]
    | some hi => simp [utf8EncodeFrom, h1, h2, utf8OfCodePoint, hc, h3]

/-- ASCII text at the end of a string is encoded as itself. -/
theorem utf8EncodeFrom_append_ascii (st : Option Nat) (s a : Str) (h : isAscii a) :
    utf8EncodeFrom st (s ++ a) = utf8EncodeFrom st s ++ a := by
  induction s generalizing st with
  | nil =>
    rw [List.nil_append]
    exact utf8EncodeFrom_ascii_only st a h
  | cons c cs ih =>
    cases st with
    | none =>
      simp only [List.cons_append, utf8EncodeFrom]
      split <;> simp [ih]
    | some hi =>
      simp only [List.cons_append, utf8EncodeFrom]
      split
      · simp [ih]
      · split <;> simp [ih]

theorem utf8OfCodePoint_length_pos (cp : Nat) : 1 ≤ (utf8OfCodePoint cp).length := by
  unfold utf8OfCodePoint
  split <;> (try split) <;> (try split) <;> simp

/-- The UTF-8 encoding has at least as many bytes as the string has code units. -/
theorem utf8EncodeFrom_length (st : Option Nat) (s : Str) :
    s.length + (if st.isSome then 1 else 0) ≤ (utf8EncodeFrom st s).length := by
  induction s generalizing st with
  | nil => cases st <;> simp [utf8EncodeFrom, replacementBytes]
  | cons c cs ih =>
    have i1 := ih none
    have i2 := ih (some c)
    have hp := utf8OfCodePoint_length_pos c
    simp only [Option.isSome_none, Option.isSome_some, if_true, if_false, Bool.false_eq_true]
      at i1 i2
    cases st with
    | none =>
      simp only [utf8EncodeFrom, Option.isSome_none, Bool.false_eq_true, if_false,
        List.length_cons]
      split
      · omega
      · split <;> simp only [List.length_append, replacementBytes, List.length_cons,
          List.length_nil] <;> omega
    | some hi =>
      have hq : (utf8OfCodePoint (0x10000 + (hi - 0xD800) * 1024 + (c - 0xDC00))).length = 4 := by
        unfold utf8OfCodePoint
        rw [if_neg (by omega), if_neg (by omega), if_neg (by omega)]
        rfl
      simp only [utf8EncodeFrom, Option.isSome_some, if_true, List.length_cons]
      split
      · simp only [List.length_append]; omega
      · split <;> simp only [List.length_append, replacementBytes, List.length_cons,
          List.length_nil] <;> omega

theorem utf8Encode_length (s : Str) : s.length ≤ (utf8Encode s).length := by
  have := utf8EncodeFrom_length none s
  simpa [utf8Encode] using this

/-- A buffer no longer than the encoding of its fill is the beginning of that encoding. -/
theorem Buffer.alloc_eq_take (size : Nat) (fill : Str) (h : size ≤ (utf8Encode fill).length) :
    Buffer.alloc size fill = (utf8Encode fill).take size := by
  apply List.ext_getElem
  · simp [Buffer.alloc, h]
  · intro i h1 h2
    have hi : i < size := by simpa [Buffer.alloc] using h1
    have hl : i < (utf8Encode fill).length := by omega
    simp [Buffer.alloc, Nat.mod_eq_of_lt hl, List.getD_eq_getElem?_getD, hl]

theorem utf8DecodeFrom_cons (st : Utf8State) (b : Nat) (bs : List Nat) :
    utf8DecodeFrom st (b :: bs) = (utf8Step st b).1 ++ utf8DecodeFrom (utf8Step st b).2 bs := by
  cases st <;> rfl

theorem contLower_ge (lead seen : Nat) : 0x80 ≤ contLower lead seen := by
  unfold contLower
  split
  · omega
  · split <;> omega

theorem contUpper_le (lead seen : Nat) : contUpper lead seen ≤ 0xBF := by
  unfold contUpper
  split
  · omega
  · split <;> omega

theorem utf8Step_ascii (st : Utf8State) (b : Nat) (h : b < 128) :
    utf8Step st b = (utf8DecodeFrom st [] ++ [b], .start) := by
  cases st with
  | start => simp [utf8Step, utf8Lead, h, utf8DecodeFrom]
  | pending lead seen cp =>
    have := contLower_ge lead seen
    have hn : ¬ (contLower lead seen ≤ b ∧ b ≤ contUpper lead seen) := by omega
    simp [utf8Step, hn, utf8Lead, h, utf8DecodeFrom]

/-- ASCII bytes at the beginning of a buffer are decoded as themselves. -/
theorem utf8DecodeFrom_ascii (a b : List Nat) (h : isAscii a) :
    utf8DecodeFrom .start (a ++ b) = a ++ utf8DecodeFrom .start b := by
  induction a with
  | nil => rfl
  | cons c cs ih =>
    have hc : c < 128 := h c (List.mem_cons_self _ _)
    have ih2 := ih (fun x hx => h x (List.mem_cons_of_mem _ hx))
    rw [List.cons_append, utf8DecodeFrom_cons, utf8Step_ascii _ _ hc, ih2]
    simp [utf8DecodeFrom]

theorem utf8DecodeFrom_ascii_only (st : Utf8State) (a : List Nat) (h : isAscii a) :
    utf8DecodeFrom st a = utf8DecodeFrom st [] ++ a := by
  cases a with
  | nil => simp
  | cons c cs =>
    have hc : c < 128 := h c (List.mem_cons_self _ _)
    have hcs : isAscii cs := fun x hx => h x (List.mem_cons_of_mem _ hx)
    have h3 := utf8DecodeFrom_ascii cs [] hcs
    simp only [List.append_nil] at h3
    rw [utf8DecodeFrom_cons, utf8Step_ascii _ _ hc, h3]
    simp [utf8DecodeFrom]

/-- ASCII bytes at the end of a buffer are decoded as themselves, after a U+FFFD for a
sequence they cut short. -/
theorem utf8DecodeFrom_append_ascii (st : Utf8State) (b a : List Nat) (h : isAscii a) :
    utf8DecodeFrom st (b ++ a) = utf8DecodeFrom st b ++ a := by
  induction b generalizing st with
  | nil =>
    rw [List.nil_append]
    exact utf8DecodeFrom_ascii_only st a h
  | cons c cs ih =>
    rw [List.cons_append, utf8DecodeFrom_cons, utf8DecodeFrom_cons, ih, List.append_assoc]

/-- Two texts without CR LF joined where no CR meets an LF. -/
theorem hasCRLF_glue (a b : Str) (ha : hasCRLF a = false) (hb : hasCRLF b = false)
    (h : ¬ (a.getLast? = some 13 ∧ b.head? = some 10)) : hasCRLF (a ++ b) = false := by
  induction a with
  | nil => simpa using hb
  | cons c cs ih =>
    obtain ⟨h1, h2⟩ := hasCRLF_cons_false c cs ha
    cases cs with
    | nil =>
      simp only [List.getLast?_singleton, Option.some.injEq] at h
      show hasCRLF (c :: b) = false
      rw [hasCRLF, hb, Bool.or_false]
      by_cases hc : c = 13
      · have : ¬ b.head? = some 10 := fun hh => h ⟨hc, hh⟩
        simp [this]
      · simp [hc]
    | cons d ds =>
      have ih2 := ih h1 (by simpa [List.getLast?_cons_cons] using h)
      show hasCRLF (c :: ((d :: ds) ++ b)) = false
      rw [hasCRLF, ih2, Bool.or_false]
      by_cases hc : c = 13
      · have : ¬ d = 10 := by simpa using h2 hc
        simp [this]
      · simp [hc]

theorem hasCRLF_high_append (h r : List Nat) (hh : isHigh h) : hasCRLF (h ++ r) = hasCRLF r := by
  induction h with
  | nil => rfl
  | cons c cs ih =>
    have hc : 128 ≤ c := hh c (List.mem_cons_self _ _)
    rw [List.cons_append, hasCRLF_cons_ne _ _ (by omega)]
    exact ih (fun x hx => hh x (List.mem_cons_of_mem _ hx))

theorem head_high_append (h r : List Nat) (hh : isHigh h) (hne : h ≠ []) :
    (h ++ r).head? ≠ some 10 := by
  cases h with
  | nil => exact absurd rfl hne
  | cons c cs =>
    have hc : 128 ≤ c := hh c (List.mem_cons_self _ _)
    simp only [List.cons_append, List.head?_cons, ne_eq, Option.some.injEq]
    omega

theorem isHigh_append (a b : List Nat) (ha : isHigh a) (hb : isHigh b) : isHigh (a ++ b) := by
  intro c hc
  rcases List.mem_append.1 hc with h | h
  · exact ha c h
  · exact hb c h

theorem isHigh_replacementBytes : isHigh replacementBytes := by
  intro c hc
  simp only [replacementBytes, List.mem_cons, List.mem_singleton, List.not_mem_nil, or_false]
    at hc
  omega

theorem isHigh_utf8OfCodePoint (cp : Nat) (h : 128 ≤ cp) : isHigh (utf8OfCodePoint cp) := by
  intro c hc
  unfold utf8OfCodePoint at hc
  split at hc
  · omega
  · split at hc
    · simp only [List.mem_cons, List.mem_singleton, List.not_mem_nil, or_false] at hc; omega
    · split at hc <;>
        simp only [List.mem_cons, List.mem_singleton, List.not_mem_nil, or_false] at hc <;> omega

theorem utf8OfCodePoint_ne_nil (cp : Nat) : utf8OfCodePoint cp ≠ [] := by
  have := utf8OfCodePoint_length_pos cp
  intro h
  rw [h] at this
  simp at this

theorem isHigh_utf16OfCodePoint (cp : Nat) (h : 128 ≤ cp) : isHigh (utf16OfCodePoint cp) := by
  intro c hc
  unfold utf16OfCodePoint at hc
  split at hc <;>
    simp only [List.mem_cons, List.mem_singleton, List.not_mem_nil, or_false] at hc <;> omega

/-- The bytes of one code unit in front of an encoding: no CR LF arises, and the text
begins with LF only when the code unit is LF. -/
theorem hasCRLF_unit_append (c : Nat) (cs r : List Nat) (hr : hasCRLF r = false)
    (hhead : r.head? = some 10 → cs.head? = some 10) (h2 : c = 13 → cs.head? ≠ some 10) :
    hasCRLF (utf8OfCodePoint c ++ r) = false
    ∧ ((utf8OfCodePoint c ++ r).head? = some 10 → c = 10) := by
  by_cases hc : c < 128
  · have e : utf8OfCodePoint c = [c] := by simp [utf8OfCodePoint, hc]
    rw [e]
    constructor
    · show hasCRLF (c :: r) = false
      rw [hasCRLF, hr, Bool.or_false]
      by_cases h13 : c = 13
      · have : ¬ r.head? = some 10 := fun hh => h2 h13 (hhead hh)
        simp [this]
      · simp [h13]
    · intro hh
      simpa using hh
  · have hh := isHigh_utf8OfCodePoint c (by omega)
    constructor
    · rw [hasCRLF_high_append _ _ hh]; exact hr
    · intro h10
      exact absurd h10 (head_high_append _ _ hh (utf8OfCodePoint_ne_nil c))

/-- Encoding creates no CR LF, and the encoding begins with LF only when the string does and
no surrogate is waiting. -/
theorem hasCRLF_utf8EncodeFrom (st : Option Nat) (u : Str) (h : hasCRLF u = false) :
    hasCRLF (utf8EncodeFrom st u) = false
    ∧ ((utf8EncodeFrom st u).head? = some 10 → st = none ∧ u.head? = some 10) := by
  induction u generalizing st with
  | nil =>
    cases st with
    | none => simp [utf8EncodeFrom, hasCRLF]
    | some hi => simp [utf8EncodeFrom, replacementBytes, hasCRLF]
  | cons c cs ih =>
    obtain ⟨h1, h2⟩ := hasCRLF_cons_false c cs h
    have ihn := ih none h1
    have ihs := ih (some c) h1
    have hrep : ∀ r : List Nat, hasCRLF r = false →
        hasCRLF (replacementBytes ++ r) = false
        ∧ ((replacementBytes ++ r).head? = some 10 → False) := by
      intro r hr
      refine ⟨?_, fun hh => ?_⟩
      · rw [hasCRLF_high_append _ _ isHigh_replacementBytes]; exact hr
      · exact head_high_append _ _ isHigh_replacementBytes (by simp [replacementBytes]) hh
    have hunit := hasCRLF_unit_append c cs (utf8EncodeFrom none cs) ihn.1
      (fun hh => (ihn.2 hh).2) h2
    cases st with
    | none =>
      simp only [utf8EncodeFrom]
      split
      · refine ⟨ihs.1, fun hh => ?_⟩
        exact absurd (ihs.2 hh).1 (by simp)
      · split
        · have := hrep _ ihn.1
          exact ⟨this.1, fun hh => (this.2 hh).elim⟩
        · refine ⟨hunit.1, fun hh => ?_⟩
          simp [hunit.2 hh]
    | some hi =>
      simp only [utf8EncodeFrom]
      split
      · have hp := isHigh_utf8OfCodePoint (0x10000 + (hi - 0xD800) * 1024 + (c - 0xDC00))
          (by omega)
        refine ⟨?_, fun hh => ?_⟩
        · rw [hasCRLF_high_append _ _ hp]; exact ihn.1
        · exact absurd hh (head_high_append _ _ hp (utf8OfCodePoint_ne_nil _))
      · split
        · have := hrep _ ihs.1
          exact ⟨this.1, fun hh => (this.2 hh).elim⟩
        · rw [List.append_assoc]
          have := hrep _ hunit.1
          exact ⟨this.1, fun hh => (this.2 hh).elim⟩

theorem utf8Lead_high (x : Nat) (hx : 128 ≤ x) :
    isHigh (utf8Lead x).1 ∧ (utf8Lead x).2.ok ∧ ((utf8Lead x).1 = [] → (utf8Lead x).2 ≠ .start)
    := by
  unfold utf8Lead
  rw [if_neg (by omega)]
  split
  · refine ⟨by intro c hc; simp at hc, ?_, by simp⟩
    simp only [Utf8State.ok, utf8Needed]
    constructor
    · intro _; omega
    · intro h; split at h <;> omega
  · split
    · refine ⟨by intro c hc; simp at hc, ?_, by simp⟩
      simp only [Utf8State.ok, utf8Needed]
      constructor
      · intro h; split at h
        · omega
        · split at h <;> omega
      · intro _; simp only [true_and]; omega
    · split
      · refine ⟨by intro c hc; simp at hc, ?_, by simp⟩
        simp only [Utf8State.ok, utf8Needed]
        constructor
        · intro h; split at h
          · omega
          · split at h <;> omega
        · intro _; simp only [true_and]; omega
      · refine ⟨?_, trivial, by simp⟩
        intro c hc
        simp only [List.mem_singleton] at hc
        omega

/-- A byte outside ASCII makes the decoder write code units outside ASCII only, and when it
writes nothing a sequence is pending. -/
theorem utf8Step_high (st : Utf8State) (x : Nat) (hok : st.ok) (hx : 128 ≤ x) :
    isHigh (utf8Step st x).1 ∧ (utf8Step st x).2.ok
    ∧ ((utf8Step st x).1 = [] → (utf8Step st x).2 ≠ .start) := by
  cases st with
  | start => exact utf8Lead_high x hx
  | pending lead seen cp =>
    have hl := utf8Lead_high x hx
    simp only [utf8Step]
    split
    · rename_i hr
      have h1 := contLower_ge lead seen
      have h2 := contUpper_le lead seen
      split
      · rename_i hn
        have hcp : 2 ≤ cp := hok.1 hn
        refine ⟨isHigh_utf16OfCodePoint _ (by omega), trivial, ?_⟩
        intro h
        unfold utf16OfCodePoint at h
        split at h <;> simp at h
      · rename_i hn
        refine ⟨by intro c hc; simp at hc, ?_, by simp⟩
        simp only [Utf8State.ok]
        constructor
        · intro h3
          have h4 : seen + 1 < utf8Needed lead := by omega
          rcases hok.2 h4 with h5 | ⟨h5, h6 | h6⟩
          · omega
          · subst h5; subst h6
            simp only [contLower] at hr
            simp at hr
            omega
          · subst h5; subst h6
            simp [utf8Needed] at h3
        · intro h3
          have h4 : seen + 1 < utf8Needed lead := by omega
          left
          rcases hok.2 h4 with h5 | ⟨h5, h6 | h6⟩
          · omega
          · subst h5; subst h6
            simp [utf8Needed] at h3
          · subst h5; subst h6
            simp only [contLower] at hr
            simp at hr
            omega
    · refine ⟨?_, hl.2.1, by simp⟩
      intro c hc
      rcases List.mem_cons.1 hc with h | h
      · omega
      · exact hl.1 c h

theorem utf8DecodeFrom_nil_high (st : Utf8State) : isHigh (utf8DecodeFrom st []) := by
  intro c hc
  cases st with
  | start => simp [utf8DecodeFrom] at hc
  | pending lead seen cp =>
    simp only [utf8DecodeFrom, List.mem_singleton] at hc
    omega

/-- Decoding creates no CR LF, and the text begins with LF only when the bytes do and no
sequence is pending. -/
theorem hasCRLF_utf8DecodeFrom (st : Utf8State) (b : List Nat) (hok : st.ok)
    (h : hasCRLF b = false) :
    hasCRLF (utf8DecodeFrom st b) = false
    ∧ ((utf8DecodeFrom st b).head? = some 10 → st = .start ∧ b.head? = some 10) := by
  induction b generalizing st with
  | nil =>
    have hh := utf8DecodeFrom_nil_high st
    refine ⟨?_, fun h10 => ?_⟩
    · have := hasCRLF_high_append _ [] hh
      simpa [hasCRLF] using this
    · cases st with
      | start => simp [utf8DecodeFrom] at h10
      | pending lead seen cp => simp [utf8DecodeFrom] at h10
  | cons x bs ih =>
    obtain ⟨h1, h2⟩ := hasCRLF_cons_false x bs h
    rw [utf8DecodeFrom_cons]
    by_cases hx : x < 128
    · rw [utf8Step_ascii st x hx]
      have ihs := ih .start trivial h1
      have hh := utf8DecodeFrom_nil_high st
      simp only [List.append_assoc, List.singleton_append]
      constructor
      · rw [hasCRLF_high_append _ _ hh, hasCRLF, ihs.1, Bool.or_false]
        by_cases h13 : x = 13
        · have : ¬ (utf8DecodeFrom .start bs).head? = some 10 :=
            fun hq => h2 h13 (ihs.2 hq).2
          simp [this]
        · simp [h13]
      · intro h10
        cases st with
        | start =>
          simp only [utf8DecodeFrom, List.nil_append, List.head?_cons] at h10
          exact ⟨rfl, by simpa using h10⟩
        | pending lead seen cp =>
          simp [utf8DecodeFrom] at h10
    · have hs := utf8Step_high st x hok (by omega)
      have ihs := ih (utf8Step st x).2 hs.2.1 h1
      constructor
      · rw [hasCRLF_high_append _ _ hs.1]; exact ihs.1
      · intro h10
        by_cases hne : (utf8Step st x).1 = []
        · rw [hne, List.nil_append] at h10
          exact absurd (ihs.2 h10).1 (hs.2.2 hne)
        · exact absurd h10 (head_high_append _ _ hs.1 hne)

/-! ## The byebye datagram -/

set_option maxRecDepth 100000 in
theorem notify_bye_eq_head (usn : Str) : notify_bye usn = byeHead ++ (usn ++ [13, 10, 13, 10]) := by
  rw [notify_bye_lines]
  simp [byeHead, byeLines, crlfLines, js, utf16OfCodePoint]

set_option maxRecDepth 100000 in
theorem byeHead_ascii : isAscii byeHead := by decide

set_option maxRecDepth 100000 in
theorem byeLines_noCRLF : ∀ l ∈ byeLines, hasCRLF l = false := by decide

theorem foldl_parseLine_skip (extras : List Str) (o : Obj)
    (h : ∀ l ∈ extras, ∀ c ∈ l, c ≠ 58) : extras.foldl parseLine o = o := by
  induction extras generalizing o with
  | nil => rfl
  | cons l ls ih =>
    rw [List.foldl_cons, parseLine_skip o l (h l (List.mem_cons_self _ _))]
    exact ih o (fun x hx => h x (List.mem_cons_of_mem _ hx))

/-- The payload of a byebye datagram, decoded: the head, then a text without CR LF, then
at most the four code units CR LF CR LF. -/
theorem byebye_payload_text (usn : Str) (h : hasCRLF usn = false) :
    ∃ (y : Str) (j : Nat), hasCRLF y = false ∧ j ≤ 4 ∧
      Buffer.toString (Buffer.alloc (notify_bye usn).length (notify_bye usn))
        = byeHead ++ (y ++ List.take j [13, 10, 13, 10]) := by
  have hT : isAscii [13, 10, 13, 10] := by decide
  have henc : utf8Encode (notify_bye usn) = byeHead ++ (utf8Encode usn ++ [13, 10, 13, 10]) := by
    rw [notify_bye_eq_head, utf8Encode, utf8EncodeFrom_ascii _ _ byeHead_ascii,
      utf8EncodeFrom_append_ascii _ _ _ hT]
    rfl
  have hlen : (notify_bye usn).length = byeHead.length + (usn.length + 4) := by
    rw [notify_bye_eq_head]; simp
  have hle := utf8Encode_length (notify_bye usn)
  have hE := utf8Encode_length usn
  have hEcrlf : hasCRLF (utf8Encode usn) = false := (hasCRLF_utf8EncodeFrom none usn h).1
  rw [Buffer.alloc_eq_take _ _ hle, henc, hlen, List.take_append, Buffer.toString,
    utf8DecodeFrom_ascii _ _ byeHead_ascii]
  by_cases hk : usn.length + 4 ≤ (utf8Encode usn).length
  · refine ⟨utf8DecodeFrom .start (List.take (usn.length + 4) (utf8Encode usn)), 0, ?_, by omega,
      ?_⟩
    · apply (hasCRLF_utf8DecodeFrom .start _ trivial _).1
      exact hasCRLF_of_infix _ _ (List.take_prefix _ _).isInfix hEcrlf
    · rw [List.take_append_of_le_length hk]
      simp
  · refine ⟨utf8DecodeFrom .start (utf8Encode usn), usn.length + 4 - (utf8Encode usn).length,
      (hasCRLF_utf8DecodeFrom .start _ trivial hEcrlf).1, by omega, ?_⟩
    have hk2 : (utf8Encode usn).length ≤ usn.length + 4 := by omega
    rw [List.take_append_eq_append_take, List.take_of_length_le hk2,
      utf8DecodeFrom_append_ascii]
    intro c hc
    exact hT c (List.mem_of_mem_take hc)

set_option maxRecDepth 100000 in
/-- The lines of a decoded byebye datagram: the four fixed lines, the USN line, and then
only lines without a colon. -/
theorem byebye_payload_lines (usn : Str) (h : hasCRLF usn = false) :
    ∃ (y : Str) (extras : List Str),
      split (Buffer.toString (Buffer.alloc (notify_bye usn).length (notify_bye usn)))
          (js "\r\n")
        = byeLines ++ (js "USN" ++ 58 :: 32 :: y) :: extras
      ∧ ∀ l ∈ extras, ∀ c ∈ l, c ≠ 58 := by
  obtain ⟨y, j, hy, hj, htext⟩ := byebye_payload_text usn h
  rw [htext]
  have husn : ∀ z : Str, hasCRLF z = false → hasCRLF (js "USN" ++ 58 :: 32 :: z) = false := by
    intro z hz
    simp [js, utf16OfCodePoint, hasCRLF_cons_ne, hz]
  have hhead : ∀ z : Str, byeHead ++ z = crlfLines byeLines ++ (js "USN" ++ 58 :: 32 :: z) := by
    intro z
    simp [byeHead, js, utf16OfCodePoint]
  have hfive : ∀ z : Str, hasCRLF z = false →
      ∀ l ∈ byeLines ++ [js "USN" ++ 58 :: 32 :: z], hasCRLF l = false := by
    intro z hz l hl
    rcases List.mem_append.1 hl with h1 | h1
    · exact byeLines_noCRLF l h1
    · rw [List.mem_singleton.1 h1]; exact husn z hz
  have hjoin : ∀ z r : Str, crlfLines byeLines ++ ((js "USN" ++ 58 :: 32 :: z) ++ 13 :: 10 :: r)
      = crlfLines (byeLines ++ [js "USN" ++ 58 :: 32 :: z]) ++ r := by
    intro z r
    simp [byeLines, crlfLines]
  have hj5 : j = 0 ∨ j = 1 ∨ j = 2 ∨ j = 3 ∨ j = 4 := by omega
  rcases hj5 with rfl | rfl | rfl | rfl | rfl
  · refine ⟨y, [], ?_, by simp⟩
    rw [List.take_zero, List.append_nil, hhead, split_crlfLines _ _ byeLines_noCRLF,
      split_single _ (husn y hy)]
  · refine ⟨y ++ [13], [], ?_, by simp⟩
    have hy2 : hasCRLF (y ++ [13]) = false := hasCRLF_append y [13] hy (by decide) (by decide)
    have : y ++ List.take 1 [13, 10, 13, 10] = y ++ [13] := rfl
    rw [this, hhead, split_crlfLines _ _ byeLines_noCRLF, split_single _ (husn _ hy2)]
  · refine ⟨y, [[]], ?_, by simp⟩
    have : byeHead ++ (y ++ List.take 2 [13, 10, 13, 10])
        = crlfLines (byeLines ++ [js "USN" ++ 58 :: 32 :: y]) ++ [] := by
      rw [← hjoin, hhead]; simp
    rw [this, split_crlfLines _ _ (hfive y hy), split_nil]
    simp
  · refine ⟨y, [[13]], ?_, by simp⟩
    have : byeHead ++ (y ++ List.take 3 [13, 10, 13, 10])
        = crlfLines (byeLines ++ [js "USN" ++ 58 :: 32 :: y]) ++ [13] := by
      rw [← hjoin, hhead]; simp
    rw [this, split_crlfLines _ _ (hfive y hy), split_single [13] (by decide)]
    simp
  · refine ⟨y, [[], []], ?_, by simp⟩
    have : byeHead ++ (y ++ List.take 4 [13, 10, 13, 10])
        = crlfLines (byeLines ++ [js "USN" ++ 58 :: 32 :: y]) ++ [13, 10] := by
      rw [← hjoin, hhead]; simp
    rw [this, split_crlfLines _ _ (hfive y hy)]
    have h2 : split [13, 10] (js "\r\n") = [[], []] := by decide
    rw [h2]
    simp

set_option maxRecDepth 100000 in
/-- The NT and NTS of a decoded byebye datagram are the fixed ones. -/
theorem byebye_payload_headers (usn : Str) (h : hasCRLF usn = false) (rinfo : RemoteInfo) :
    (parseSSDP (.buffer (Buffer.alloc (notify_bye usn).length (notify_bye usn))) rinfo).get
        (js "nts") = .str (js "ssdp:byebye")
    ∧ (parseSSDP (.buffer (Buffer.alloc (notify_bye usn).length (notify_bye usn))) rinfo).get
        (js "nt") = .str (js "urn:schemas-upnp-org:service:DiscoveryService:1") := by
  obtain ⟨y, extras, hlines, hex⟩ := byebye_payload_lines usn h
  have hparse : (split (Buffer.toString (Buffer.alloc (notify_bye usn).length (notify_bye usn)))
      (js "\r\n")).foldl parseLine []
      = Obj.set (Obj.set (Obj.set (Obj.set []
          (js "host") (.str (js "239.255.255.250:1900")))
          (js "nt") (.str (js "urn:schemas-upnp-org:service:DiscoveryService:1")))
          (js "nts") (.str (js "ssdp:byebye")))
          (js "usn") (.str (trim y)) := by
    rw [hlines]
    simp only [byeLines, List.foldl_cons, List.cons_append, List.nil_append]
    rw [foldl_parseLine_skip extras _ hex,
      parseLine_skip _ (js "NOTIFY * HTTP/1.1") (by decide),
      parseLine_header _ (js "HOST") _ (js "host") (by decide) (by decide) (by decide),
      parseLine_header _ (js "NT") _ (js "nt") (by decide) (by decide) (by decide),
      parseLine_header _ (js "NTS") _ (js "nts") (by decide) (by decide) (by decide),
      parseLine_header _ (js "USN") _ (js "usn") (by decide) (by decide) (by decide)]
    rw [trim_space,
      show trim (js " 239.255.255.250:1900") = js "239.255.255.250:1900" from by decide,
      show trim (js " urn:schemas-upnp-org:service:DiscoveryService:1")
        = js "urn:schemas-upnp-org:service:DiscoveryService:1" from by decide,
      show trim (js " ssdp:byebye") = js "ssdp:byebye" from by decide]
  constructor
  · rw [parseSSDP_header _ _ _ (by decide) (by decide) (by decide) (by decide)]
    simp only [Message.toString]
    rw [hparse]
    simp [Obj.get_set, js, utf16OfCodePoint]
  · rw [parseSSDP_header _ _ _ (by decide) (by decide) (by decide) (by decide)]
    simp only [Message.toString]
    rw [hparse]
    simp [Obj.get_set, js, utf16OfCodePoint]

/-- C5, as the code has it: for a USN without CR LF, whatever services are registered,
`stop(usn, cb)` sends exactly one datagram, to `239.255.255.250:1900`, whose decoded
message has `nts = "ssdp:byebye"` and `nt = "urn:schemas-upnp-org:service:DiscoveryService:1"`;
when the send fails a log line is written, the socket stays as it was and nothing holds
`cb` any more; when it succeeds the socket is closed and `cb` waits for the close to be
reported, and only that report, after a log line, invokes it. -/
theorem C5_stop_byebye (e : Engine) (usn : Str) (hasCallback : Bool) (rinfo : RemoteInfo)
    (err : Str) (closeErr : Option Str) (h : includes usn (js "\r\n") = false) :
    (e.stop usn hasCallback).trace = e.trace ++
        [Effect.send .socket (Buffer.alloc (notify_bye usn).length (notify_bye usn)) 0
          (notify_bye usn).length (.num 1900) (.str (js "239.255.255.250"))]
    ∧ (parseSSDP (.buffer (Buffer.alloc (notify_bye usn).length (notify_bye usn))) rinfo).get
        (js "nts") = .str (js "ssdp:byebye")
    ∧ (parseSSDP (.buffer (Buffer.alloc (notify_bye usn).length (notify_bye usn))) rinfo).get
        (js "nt") = .str (js "urn:schemas-upnp-org:service:DiscoveryService:1")
    ∧ (e.stop usn hasCallback).pending = e.pending ++ [Pending.stopSent hasCallback]
    ∧ ((e.stop usn hasCallback).settle e.pending.length (some err)).trace
        = (e.stop usn hasCallback).trace ++ [Effect.log (js "Error sending ssdp:byebye")]
    ∧ ((e.stop usn hasCallback).settle e.pending.length (some err)).socketOpen = e.socketOpen
    ∧ ((e.stop usn hasCallback).settle e.pending.length (some err)).pending = e.pending
    ∧ ((e.stop usn hasCallback).settle e.pending.length none).trace
        = (e.stop usn hasCallback).trace ++ [Effect.close .socket]
    ∧ ((e.stop usn hasCallback).settle e.pending.length none).socketOpen = false
    ∧ ((e.stop usn hasCallback).settle e.pending.length none).pending
        = e.pending ++ [Pending.stopClosed hasCallback]
    ∧ (((e.stop usn hasCallback).settle e.pending.length none).settle e.pending.length
          closeErr).trace
        = (e.stop usn hasCallback).trace ++ [Effect.close .socket]
          ++ [Effect.log (js "UDP socket closed")]
          ++ (if hasCallback then [Effect.callback] else [])
    ∧ (((e.stop usn hasCallback).settle e.pending.length none).settle e.pending.length
          closeErr).pending = e.pending := by
  rw [includes_crlf] at h
  have hh := byebye_payload_headers usn h rinfo
  have hstop : e.stop usn hasCallback =
      { e with trace := e.trace ++
                 [Effect.send .socket (Buffer.alloc (notify_bye usn).length (notify_bye usn)) 0
                   (notify_bye usn).length (.num 1900) (.str (js "239.255.255.250"))]
               pending := e.pending ++ [Pending.stopSent hasCallback] } := by
    simp [Engine.stop, Buffer.alloc_length, MULTICAST_PORT, MULTICAST_ADDRESS]
  have hfail := Engine.settle_last e (Pending.stopSent hasCallback)
    (e.trace ++ [Effect.send .socket (Buffer.alloc (notify_bye usn).length (notify_bye usn)) 0
      (notify_bye usn).length (.num 1900) (.str (js "239.255.255.250"))]) (some err)
  have hok := Engine.settle_last e (Pending.stopSent hasCallback)
    (e.trace ++ [Effect.send .socket (Buffer.alloc (notify_bye usn).length (notify_bye usn)) 0
      (notify_bye usn).length (.num 1900) (.str (js "239.255.255.250"))]) none
  have hclosed := Engine.settle_last { e with socketOpen := false }
    (Pending.stopClosed hasCallback)
    (e.trace ++ [Effect.send .socket (Buffer.alloc (notify_bye usn).length (notify_bye usn)) 0
      (notify_bye usn).length (.num 1900) (.str (js "239.255.255.250"))]
      ++ [Effect.close .socket]) closeErr
  rw [hstop, hfail, hok]
  simp only [Engine.runCallback]
  refine ⟨trivial, hh.1, hh.2, trivial, trivial, trivial, trivial, trivial, trivial, trivial,
    ?_, ?_⟩
  · rw [hclosed]
    simp [Engine.runCallback]
  · rw [hclosed]
    simp [Engine.runCallback]

set_option maxRecDepth 100000 in
/-- C5 at the UUID of the device. -/
theorem C5_stop_byebye_witness :
    includes (js "uuid:1234") (js "\r\n") = false
    ∧ (demoEngine.stop (js "uuid:1234") true).trace = demoEngine.trace ++
        [Effect.send .socket
          (Buffer.alloc (notify_bye (js "uuid:1234")).length (notify_bye (js "uuid:1234"))) 0
          (notify_bye (js "uuid:1234")).length (.num 1900) (.str (js "239.255.255.250"))]
    ∧ (parseSSDP (.buffer
          (Buffer.alloc (notify_bye (js "uuid:1234")).length (notify_bye (js "uuid:1234"))))
        demoSender).get (js "nts") = .str (js "ssdp:byebye") :=
  ⟨by decide,
   (C5_stop_byebye demoEngine (js "uuid:1234") true demoSender (js "EPERM") none (by decide)).1,
   (C5_stop_byebye demoEngine (js "uuid:1234") true demoSender (js "EPERM") none
      (by decide)).2.1⟩

set_option maxRecDepth 100000 in
/-- C5 fails as stated: a USN that carries CR LF and a header line of its own replaces the
NTS of the decoded byebye datagram. -/
theorem C5_usn_injects_header :
    (demoEngine.stop (js "uuid:1234\r\nNTS: ssdp:alive") true).trace = demoEngine.trace ++
        [Effect.send .socket
          (Buffer.alloc (notify_bye (js "uuid:1234\r\nNTS: ssdp:alive")).length
            (notify_bye (js "uuid:1234\r\nNTS: ssdp:alive"))) 0
          (notify_bye (js "uuid:1234\r\nNTS: ssdp:alive")).length (.num 1900)
          (.str (js "239.255.255.250"))]
    ∧ (parseSSDP (.buffer
          (Buffer.alloc (notify_bye (js "uuid:1234\r\nNTS: ssdp:alive")).length
            (notify_bye (js "uuid:1234\r\nNTS: ssdp:alive"))))
        demoSender).get (js "nts") = .str (js "ssdp:alive") := by
  decide

set_option maxRecDepth 100000 in
/-- C2 at an M-SEARCH for "ssdp:all" and the messages of a service of the demo device. -/
theorem C2_round_trip_witness :
    includes (js "ssdp:all") (js "\r\n") = false
    ∧ includes (js "uuid:1234::urn:schemas-upnp-org:service:SwitchPower:1") (js "\r\n") = false
    ∧ (parseSSDP (.text (msearch (js "ssdp:all") (js "239.255.255.250") (.num 1900)))
        demoSender).get (js "st") = .str (trim (js "ssdp:all"))
    ∧ (parseSSDP (.text (notify_bye (js "uuid:1234::urn:schemas-upnp-org:service:SwitchPower:1")))
        demoSender).get (js "usn")
        = .str (trim (js "uuid:1234::urn:schemas-upnp-org:service:SwitchPower:1")) :=
  ⟨by decide, by decide,
   (C2_round_trip (js "ssdp:all") (js "239.255.255.250") (.num 1900)
      (js "192.168.1.5:8080/desc.xml")
      (js "uuid:1234::urn:schemas-upnp-org:service:SwitchPower:1") (js "lamp") (js "1.0")
      (js "Fri Nov 06 2026 01:49:00 GMT+0000") demoSender (by decide) (by decide) (by decide)
      (by decide) (by decide) (by decide) (by decide) (by decide)).1.2.2.2,
   (C2_round_trip (js "ssdp:all") (js "239.255.255.250") (.num 1900)
      (js "192.168.1.5:8080/desc.xml")
      (js "uuid:1234::urn:schemas-upnp-org:service:SwitchPower:1") (js "lamp") (js "1.0")
      (js "Fri Nov 06 2026 01:49:00 GMT+0000") demoSender (by decide) (by decide) (by decide)
      (by decide) (by decide) (by decide) (by decide) (by decide)).2.2.2.2.2.2⟩

/-! ## Lines that carry no header -/

/-- A line whose first colon is at index 0 or 1, or that has none, sets nothing. -/
theorem parseLine_of_le_one (o : Obj) (line : Str) (h : indexOf line (js ":") ≤ 1) :
    parseLine o line = o := by
  have hn : ¬ indexOf line (js ":") > 1 := by omega
  simp only [parseLine, hn, if_false]

theorem foldl_parseLine_of_le_one (lines : List Str) (o : Obj)
    (h : ∀ line ∈ lines, indexOf line (js ":") ≤ 1) : lines.foldl parseLine o = o := by
  induction lines generalizing o with
  | nil => rfl
  | cons l ls ih =>
    rw [List.foldl_cons, parseLine_of_le_one o l (h l (List.mem_cons_self _ _))]
    exact ih o (fun x hx => h x (List.mem_cons_of_mem _ hx))

/-- With no header the decoded message is the remote info. -/
theorem entries_on_empty (rinfo : RemoteInfo) :
    rinfo.entries.foldl (fun o kv => Obj.set o kv.1 kv.2) [] = rinfo.entries := by
  have h1 : js "address" ≠ js "__proto__" := by decide
  have h2 : js "family" ≠ js "__proto__" := by decide
  have h3 : js "port" ≠ js "__proto__" := by decide
  have h4 : js "size" ≠ js "__proto__" := by decide
  have h5 : js "address" ≠ js "family" := by decide
  have h6 : js "address" ≠ js "port" := by decide
  have h7 : js "address" ≠ js "size" := by decide
  have h8 : js "family" ≠ js "port" := by decide
  have h9 : js "family" ≠ js "size" := by decide
  have h10 : js "port" ≠ js "size" := by decide
  simp [RemoteInfo.entries, Obj.set, Obj.has, h1, h2, h3, h4, h5, h6, h7, h8, h9, h10]

/-- C11: a line without a colon, or whose first colon is at index 0 or 1, adds no entry; a
message made of such lines only decodes to exactly the remote-info fields, as the three
request and status lines "NOTIFY * HTTP/1.1", "M-SEARCH * HTTP/1.1" and "HTTP/1.1 200 OK"
do, and these fields hold no entry with an empty key.  `parseSSDP` is a total function:
it gives a result for every input. -/
theorem C11_skipped_lines (rinfo : RemoteInfo) :
    (∀ (o : Obj) (line : Str), indexOf line (js ":") ≤ 1 → parseLine o line = o)
    ∧ (∀ message : Message,
        (∀ line ∈ split message.toString (js "\r\n"), indexOf line (js ":") ≤ 1) →
        parseSSDP message rinfo = rinfo.entries)
    ∧ parseSSDP (.text (js "NOTIFY * HTTP/1.1")) rinfo = rinfo.entries
    ∧ parseSSDP (.text (js "M-SEARCH * HTTP/1.1")) rinfo = rinfo.entries
    ∧ parseSSDP (.text (js "HTTP/1.1 200 OK")) rinfo = rinfo.entries
    ∧ Obj.has rinfo.entries (js "") = false := by
  have key : ∀ message : Message,
      (∀ line ∈ split message.toString (js "\r\n"), indexOf line (js ":") ≤ 1) →
      parseSSDP message rinfo = rinfo.entries := by
    intro message h
    simp only [parseSSDP]
    rw [foldl_parseLine_of_le_one _ _ h]
    exact entries_on_empty rinfo
  refine ⟨parseLine_of_le_one, key, key _ (by decide), key _ (by decide), key _ (by decide), ?_⟩
  have h1 : js "" ≠ js "address" := by decide
  have h2 : js "" ≠ js "family" := by decide
  have h3 : js "" ≠ js "port" := by decide
  have h4 : js "" ≠ js "size" := by decide
  simp [RemoteInfo.entries, Obj.has, Ne.symm h1, Ne.symm h2, Ne.symm h3, Ne.symm h4]

/-- C11 at the line "NOTIFY * HTTP/1.1" and at a line whose first colon is at index 1. -/
theorem C11_skipped_lines_witness :
    indexOf (js "NOTIFY * HTTP/1.1") (js ":") ≤ 1
    ∧ parseLine [] (js "NOTIFY * HTTP/1.1") = []
    ∧ indexOf (js "a: b") (js ":") ≤ 1
    ∧ parseLine [] (js "a: b") = []
    ∧ (∀ line ∈ split (Message.text (js "NOTIFY * HTTP/1.1\r\n\r\n")).toString (js "\r\n"),
        indexOf line (js ":") ≤ 1)
    ∧ parseSSDP (.text (js "NOTIFY * HTTP/1.1\r\n\r\n")) demoSender = demoSender.entries :=
  ⟨by decide, (C11_skipped_lines demoSender).1 [] (js "NOTIFY * HTTP/1.1") (by decide),
   by decide, (C11_skipped_lines demoSender).1 [] (js "a: b") (by decide),
   by decide,
   (C11_skipped_lines demoSender).2.1 (.text (js "NOTIFY * HTTP/1.1\r\n\r\n")) (by decide)⟩

/-! ## Dispatch of the receive handler -/

theorem responseSends_all_isSend (e : Engine) (host port : JsVal) (clock : Nat → Str)
    (usns : List Str) (i : Nat) :
    (responseSends e host port clock usns i).all Effect.isSend = true := by
  induction usns generalizing i with
  | nil => rfl
  | cons u us ih => simp [responseSends, responseSend, Effect.isSend, ih]

theorem responseSends_filter_error (e : Engine) (host port : JsVal) (clock : Nat → Str)
    (usns : List Str) (i : Nat) :
    (responseSends e host port clock usns i).filter Effect.isErrorEvent = [] := by
  induction usns generalizing i with
  | nil => rfl
  | cons u us ih => simp [responseSends, responseSend, Effect.isErrorEvent, ih]

/-- What the handler does with a datagram whose text contains neither "M-SEARCH" nor
"NOTIFY": one discover event carrying the decoded message. -/
theorem Engine.onMessage_other (e : Engine) (message : Buffer) (rinfo : RemoteInfo)
    (clock : Nat → Str) (h1 : includes (Buffer.toString message) (js "M-SEARCH") = false)
    (h2 : includes (Buffer.toString message) (js "NOTIFY") = false) :
    (e.onMessage message rinfo clock).trace = e.trace ++
      [Effect.emit (js "discover") (.record (parseSSDP (.buffer message) rinfo))] := by
  simp [Engine.onMessage, h1, h2]

/-- C12: for every datagram and engine state the handler does one of three things, chosen
by the raw text alone: with "M-SEARCH" in the text it sends responses and publishes no
event, also when the text contains "NOTIFY"; otherwise with "NOTIFY" in the text it
publishes one notify event with the decoded message and sends nothing; otherwise it
publishes one discover event with the decoded message and sends nothing.  No error event
is ever published. -/
theorem C12_dispatch (e : Engine) (message : Buffer) (rinfo : RemoteInfo)
    (clock : Nat → Str) :
    (e.onMessage message rinfo clock).trace = e.trace ++
      (if includes (Buffer.toString message) (js "M-SEARCH") = true then
        responseSends e (.str rinfo.address) (.num rinfo.port) clock
          (if (parseSSDP (.buffer message) rinfo).get (js "st") = .str (js "ssdp:all") then
            js "upnp:rootdevice" :: e.deviceUUID ::
              (js "urn:schemas-upnp-org:device:" ++ e.deviceName ++ js ":1") :: e.services
           else e.services) 0
       else if includes (Buffer.toString message) (js "NOTIFY") = true then
        [Effect.emit (js "notify") (.record (parseSSDP (.buffer message) rinfo))]
       else [Effect.emit (js "discover") (.record (parseSSDP (.buffer message) rinfo))])
    ∧ (responseSends e (.str rinfo.address) (.num rinfo.port) clock
          (if (parseSSDP (.buffer message) rinfo).get (js "st") = .str (js "ssdp:all") then
            js "upnp:rootdevice" :: e.deviceUUID ::
              (js "urn:schemas-upnp-org:device:" ++ e.deviceName ++ js ":1") :: e.services
           else e.services) 0).all Effect.isSend = true
    ∧ (e.onMessage message rinfo clock).trace.filter Effect.isErrorEvent
        = e.trace.filter Effect.isErrorEvent := by
  have hsend := responseSends_all_isSend e (.str rinfo.address) (.num rinfo.port) clock
    (if (parseSSDP (.buffer message) rinfo).get (js "st") = .str (js "ssdp:all") then
      js "upnp:rootdevice" :: e.deviceUUID ::
        (js "urn:schemas-upnp-org:device:" ++ e.deviceName ++ js ":1") :: e.services
     else e.services) 0
  by_cases h1 : includes (Buffer.toString message) (js "M-SEARCH") = true
  · have key := Engine.onMessage_msearch e message rinfo clock h1
    rw [if_pos h1]
    refine ⟨key, hsend, ?_⟩
    rw [key, List.filter_append, responseSends_filter_error, List.append_nil]
  · have h1f : includes (Buffer.toString message) (js "M-SEARCH") = false := by
      simpa using h1
    rw [if_neg h1]
    by_cases h2 : includes (Buffer.toString message) (js "NOTIFY") = true
    · have key := Engine.onMessage_notify e message rinfo clock h1f h2
      rw [if_pos h2]
      refine ⟨key, hsend, ?_⟩
      rw [key, List.filter_append]
      have : js "notify" ≠ js "error" := by decide
      simp [Effect.isErrorEvent, this]
    · have h2f : includes (Buffer.toString message) (js "NOTIFY") = false := by
        simpa using h2
      have key := Engine.onMessage_other e message rinfo clock h1f h2f
      rw [if_neg h2]
      refine ⟨key, hsend, ?_⟩
      rw [key, List.filter_append]
      have : js "discover" ≠ js "error" := by decide
      simp [Effect.isErrorEvent, this]

/-! ## The sockets after a send -/

/-- C14: on the open/closed status of the two sockets: a send failure in
`response(usn, host, port)` closes the unicast socket and leaves the multicast socket as it
was; a send failure in `advertise(usn)` or `discover(st, host, port)` closes the multicast
socket and leaves the unicast socket as it was; a successful send changes neither. -/
theorem C14_socket_frame (e : Engine) (err : Str) :
    (∀ (usn : Str) (host port : JsVal) (date : Str),
      ((e.response usn host port date).settle e.pending.length (some err)).uniSocketOpen = false
      ∧ ((e.response usn host port date).settle e.pending.length (some err)).socketOpen
          = e.socketOpen
      ∧ ((e.response usn host port date).settle e.pending.length none).uniSocketOpen
          = e.uniSocketOpen
      ∧ ((e.response usn host port date).settle e.pending.length none).socketOpen
          = e.socketOpen)
    ∧ (∀ usn : Str,
      ((e.advertise usn).settle e.pending.length (some err)).socketOpen = false
      ∧ ((e.advertise usn).settle e.pending.length (some err)).uniSocketOpen
          = e.uniSocketOpen
      ∧ ((e.advertise usn).settle e.pending.length none).socketOpen = e.socketOpen
      ∧ ((e.advertise usn).settle e.pending.length none).uniSocketOpen = e.uniSocketOpen)
    ∧ (∀ (st host : Str) (port : JsVal),
      ((e.discover st host port).settle e.pending.length (some err)).socketOpen = false
      ∧ ((e.discover st host port).settle e.pending.length (some err)).uniSocketOpen
          = e.uniSocketOpen
      ∧ ((e.discover st host port).settle e.pending.length none).socketOpen = e.socketOpen
      ∧ ((e.discover st host port).settle e.pending.length none).uniSocketOpen
          = e.uniSocketOpen) := by
  refine ⟨fun usn host port date => ?_, fun usn => ?_, fun st host port => ?_⟩
  · simp only [Engine.response]
    rw [Engine.settle_last, Engine.settle_last]
    simp [Engine.runCallback]
  · simp only [Engine.advertise]
    rw [Engine.settle_last, Engine.settle_last]
    simp [Engine.runCallback]
  · simp only [Engine.discover]
    rw [Engine.settle_last, Engine.settle_last]
    simp [Engine.runCallback]

/-! ## The sender cannot be forged by the datagram -/

/-- The four remote-info fields of the decoded message are those of the remote info. -/
theorem parseSSDP_remote (message : Message) (rinfo : RemoteInfo) :
    (parseSSDP message rinfo).get (js "address") = .str rinfo.address
    ∧ (parseSSDP message rinfo).get (js "family") = .str rinfo.family
    ∧ (parseSSDP message rinfo).get (js "port") = .num rinfo.port
    ∧ (parseSSDP message rinfo).get (js "size") = .num rinfo.size := by
  simp only [parseSSDP, RemoteInfo.entries, List.foldl_cons, List.foldl_nil]
  refine ⟨?_, ?_, ?_, ?_⟩
  · rw [Obj.get_set_other _ _ _ _ (by decide), Obj.get_set_other _ _ _ _ (by decide),
      Obj.get_set_other _ _ _ _ (by decide), Obj.get_set_self _ _ _ (by decide)]
  · rw [Obj.get_set_other _ _ _ _ (by decide), Obj.get_set_other _ _ _ _ (by decide),
      Obj.get_set_self _ _ _ (by decide)]
  · rw [Obj.get_set_other _ _ _ _ (by decide), Obj.get_set_self _ _ _ (by decide)]
  · rw [Obj.get_set_self _ _ _ (by decide)]

theorem responseSends_destination (e : Engine) (host port : JsVal) (clock : Nat → Str)
    (usns : List Str) (i : Nat) :
    (responseSends e host port clock usns i).map Effect.destination
      = usns.map (fun _ => some (host, port)) := by
  induction usns generalizing i with
  | nil => rfl
  | cons u us ih => simp [responseSends, responseSend, Effect.destination, ih]

/-- C15: the `address`, `family`, `port` and `size` of a decoded message are those of the
remote info whatever header lines the message has; hence two datagrams that contain
"M-SEARCH", come from the same address and port and decode to the same ST are answered
with the same number of responses, every one addressed to that address and port. -/
theorem C15_sender_from_remote_info (e : Engine) (message : Message) (rinfo : RemoteInfo)
    (m1 m2 : Buffer) (r1 r2 : RemoteInfo) (clock1 clock2 : Nat → Str)
    (h1 : includes (Buffer.toString m1) (js "M-SEARCH") = true)
    (h2 : includes (Buffer.toString m2) (js "M-SEARCH") = true)
    (ha : r1.address = r2.address) (hp : r1.port = r2.port)
    (hst : (parseSSDP (.buffer m1) r1).get (js "st") = (parseSSDP (.buffer m2) r2).get (js "st")) :
    ((parseSSDP message rinfo).get (js "address") = .str rinfo.address
      ∧ (parseSSDP message rinfo).get (js "family") = .str rinfo.family
      ∧ (parseSSDP message rinfo).get (js "port") = .num rinfo.port
      ∧ (parseSSDP message rinfo).get (js "size") = .num rinfo.size)
    ∧ ∃ sent1 sent2 : List Effect,
        (e.onMessage m1 r1 clock1).trace = e.trace ++ sent1
        ∧ (e.onMessage m2 r2 clock2).trace = e.trace ++ sent2
        ∧ sent1.map Effect.destination = sent2.map Effect.destination
        ∧ (∀ ef ∈ sent1 ++ sent2,
            ef.destination = some (JsVal.str r1.address, JsVal.num r1.port)) := by
  refine ⟨parseSSDP_remote message rinfo, _, _, Engine.onMessage_msearch e m1 r1 clock1 h1,
    Engine.onMessage_msearch e m2 r2 clock2 h2, ?_, ?_⟩
  · rw [responseSends_destination, responseSends_destination, hst, ha, hp]
  · intro ef hef
    have hmap : ∀ (l : List Effect) (d : Option (JsVal × JsVal)) (us : List Str),
        l.map Effect.destination = us.map (fun _ => d) → ∀ x ∈ l, x.destination = d := by
      intro l d us hl x hx
      have hx2 : x.destination ∈ l.map Effect.destination := List.mem_map_of_mem _ hx
      rw [hl] at hx2
      obtain ⟨_, _, hh⟩ := List.mem_map.1 hx2
      exact hh.symm
    rcases List.mem_append.1 hef with h | h
    · exact hmap _ _ _ (responseSends_destination _ _ _ _ _ _) ef h
    · rw [ha, hp]
      exact hmap _ _ _ (responseSends_destination _ _ _ _ _ _) ef h

set_option maxRecDepth 100000 in
/-- C15 at two searches for "ssdp:all" from one sender, the second carrying header lines
named `address` and `port`. -/
theorem C15_sender_from_remote_info_witness :
    includes (Buffer.toString (utf8Encode (msearch (js "ssdp:all")))) (js "M-SEARCH") = true
    ∧ includes (Buffer.toString
        (utf8Encode (js "M-SEARCH * HTTP/1.1\r\nST: ssdp:all\r\naddress: 10.0.0.1\r\nport: 7\r\n\r\n")))
        (js "M-SEARCH") = true
    ∧ (parseSSDP (.buffer
        (utf8Encode (js "M-SEARCH * HTTP/1.1\r\nST: ssdp:all\r\naddress: 10.0.0.1\r\nport: 7\r\n\r\n")))
        demoSender).get (js "address") = .str (js "192.168.1.9")
    ∧ ∃ sent1 sent2 : List Effect,
        (demoEngine.onMessage (utf8Encode (msearch (js "ssdp:all"))) demoSender demoClock).trace
          = demoEngine.trace ++ sent1
        ∧ (demoEngine.onMessage
            (utf8Encode (js "M-SEARCH * HTTP/1.1\r\nST: ssdp:all\r\naddress: 10.0.0.1\r\nport: 7\r\n\r\n"))
            demoSender demoClock).trace = demoEngine.trace ++ sent2
        ∧ sent1.map Effect.destination = sent2.map Effect.destination
        ∧ (∀ ef ∈ sent1 ++ sent2,
            ef.destination = some (JsVal.str demoSender.address, JsVal.num demoSender.port)) :=
  ⟨by decide, by decide,
   (C15_sender_from_remote_info demoEngine
      (.buffer (utf8Encode (js "M-SEARCH * HTTP/1.1\r\nST: ssdp:all\r\naddress: 10.0.0.1\r\nport: 7\r\n\r\n")))
      demoSender (utf8Encode (msearch (js "ssdp:all")))
      (utf8Encode (js "M-SEARCH * HTTP/1.1\r\nST: ssdp:all\r\naddress: 10.0.0.1\r\nport: 7\r\n\r\n"))
      demoSender demoSender demoClock demoClock (by decide) (by decide) rfl rfl (by decide)).1.1,
   (C15_sender_from_remote_info demoEngine
      (.buffer (utf8Encode (js "M-SEARCH * HTTP/1.1\r\nST: ssdp:all\r\naddress: 10.0.0.1\r\nport: 7\r\n\r\n")))
      demoSender (utf8Encode (msearch (js "ssdp:all")))
      (utf8Encode (js "M-SEARCH * HTTP/1.1\r\nST: ssdp:all\r\naddress: 10.0.0.1\r\nport: 7\r\n\r\n"))
      demoSender demoSender demoClock demoClock (by decide) (by decide) rfl rfl (by decide)).2⟩

/-! ## Header lines, as the specification words them -/

theorem beforeColon_no_colon (line : Str) : ∀ c ∈ beforeColon line, c ≠ 58 := by
  intro c hc
  have := List.mem_takeWhile_imp hc
  simpa using this

theorem line_decompose (line : Str) (hc : 58 ∈ line) :
    line = beforeColon line ++ 58 :: line.drop ((beforeColon line).length + 1) := by
  induction line with
  | nil => simp at hc
  | cons c cs ih =>
    by_cases h : c = 58
    · subst h
      simp [beforeColon]
    · have hcs : 58 ∈ cs := by
        rcases List.mem_cons.1 hc with h1 | h1
        · exact absurd h1.symm h
        · exact h1
      have ih2 := ih hcs
      have hb : beforeColon (c :: cs) = c :: beforeColon cs := by
        simp [beforeColon, h]
      rw [hb]
      simp only [List.length_cons, List.cons_append, List.drop_succ_cons]
      exact congrArg (List.cons c) ih2

/-- The body of the parser's loop does what the specification says of a line: a line that
carries a header sets its name to its value, any other line sets nothing. -/
theorem parseLine_eq (o : Obj) (line : Str) :
    parseLine o line = match lineKey line with
      | some k => o.set k (.str (lineValue line))
      | none => o := by
  have hs : js ":" = [58] := by decide
  by_cases hc : 58 ∈ line
  · have hd := line_decompose line hc
    have hno := beforeColon_no_colon line
    by_cases hl : 1 < (beforeColon line).length
    · have hk : lineKey line = some (toLowerCase (trim (beforeColon line))) := by
        simp [lineKey, hc, hl]
      rw [hk]
      simp only [lineValue]
      conv => lhs; rw [hd]
      exact parseLine_header o (beforeColon line) _ _ hno hl rfl
    · have hk : lineKey line = none := by
        simp [lineKey, hl]
      rw [hk]
      apply parseLine_of_le_one
      rw [hs]
      conv => lhs; rw [hd]
      simp only [indexOf, indexOfFrom_colon _ _ 0 hno]
      omega
  · have hk : lineKey line = none := by
      simp [lineKey, hc]
    rw [hk]
    exact parseLine_skip o line (fun c h1 h2 => hc (h2 ▸ h1))

/-! ## Own properties after assignments -/

theorem Obj.has_map (o : Obj) (k k2 : Str) (v : JsVal) :
    Obj.has (o.map (fun p => if p.1 = k then (k, v) else p)) k2 = Obj.has o k2 := by
  induction o with
  | nil => rfl
  | cons p ps ih =>
    have ih2 : (List.map (fun p => if p.1 = k then (k, v) else p) ps).any (fun p => p.1 = k2)
        = ps.any (fun p => p.1 = k2) := ih
    by_cases hp : p.1 = k
    · simp only [Obj.has, List.map_cons, hp, if_true, List.any_cons, ih2]
    · simp only [Obj.has, List.map_cons, hp, if_false, List.any_cons, ih2]

theorem Obj.has_append (o : Obj) (k k2 : Str) (v : JsVal) :
    Obj.has (o ++ [(k, v)]) k2 = (Obj.has o k2 || decide (k = k2)) := by
  simp [Obj.has, List.any_append]

/-- After an assignment the object has the properties it had, and the assigned one unless
it is `__proto__`. -/
theorem Obj.has_set (o : Obj) (k k2 : Str) (v : JsVal) :
    (o.set k v).has k2 = true ↔ o.has k2 = true ∨ (k2 = k ∧ k ≠ js "__proto__") := by
  unfold Obj.set
  by_cases hk : k = js "__proto__"
  · rw [if_pos hk]
    constructor
    · exact Or.inl
    · rintro (h | ⟨_, h⟩)
      · exact h
      · exact absurd hk h
  · rw [if_neg hk]
    by_cases hh : o.has k = true
    · rw [if_pos hh, Obj.has_map]
      constructor
      · exact Or.inl
      · rintro (h | ⟨h, _⟩)
        · exact h
        · rw [h]; exact hh
    · rw [if_neg hh, Obj.has_append]
      simp only [Bool.or_eq_true, decide_eq_true_eq]
      constructor
      · rintro (h | h)
        · exact Or.inl h
        · exact Or.inr ⟨h.symm, hk⟩
      · rintro (h | ⟨h, _⟩)
        · exact Or.inl h
        · exact Or.inr h.symm

/-- An entry of the object after an assignment was there before or is the assigned one. -/
theorem Obj.mem_set (o : Obj) (k : Str) (v : JsVal) (p : Str × JsVal)
    (h : p ∈ Obj.set o k v) : p ∈ o ∨ p = (k, v) := by
  unfold Obj.set at h
  split at h
  · exact Or.inl h
  · split at h
    · obtain ⟨q, hq, hf⟩ := List.mem_map.1 h
      by_cases hqk : q.1 = k
      · rw [if_pos hqk] at hf
        exact Or.inr hf.symm
      · rw [if_neg hqk] at hf
        exact Or.inl (hf ▸ hq)
    · rcases List.mem_append.1 h with h1 | h1
      · exact Or.inl h1
      · exact Or.inr (List.mem_singleton.1 h1)

theorem has_foldl_parseLine (lines : List Str) (o : Obj) (k : Str) (hp : k ≠ js "__proto__") :
    Obj.has (lines.foldl parseLine o) k = true ↔
      Obj.has o k = true ∨ ∃ line ∈ lines, lineKey line = some k := by
  induction lines generalizing o with
  | nil => simp
  | cons l ls ih =>
    rw [List.foldl_cons, ih, parseLine_eq]
    cases hk : lineKey l with
    | none =>
      simp only [List.mem_cons, exists_eq_or_imp, hk]
      simp
    | some k2 =>
      simp only [List.mem_cons, exists_eq_or_imp, hk, Option.some.injEq]
      rw [Obj.has_set]
      constructor
      · rintro ((h | ⟨h, _⟩) | h)
        · exact Or.inl h
        · exact Or.inr (Or.inl h.symm)
        · exact Or.inr (Or.inr h)
      · rintro (h | h | h)
        · exact Or.inl (Or.inl h)
        · exact Or.inl (Or.inr ⟨h.symm, h ▸ hp⟩)
        · exact Or.inr h

theorem get_foldl_parseLine_other (lines : List Str) (o : Obj) (k : Str)
    (h : ∀ l ∈ lines, lineKey l ≠ some k) : Obj.get (lines.foldl parseLine o) k = Obj.get o k := by
  induction lines generalizing o with
  | nil => rfl
  | cons l ls ih =>
    rw [List.foldl_cons, ih _ (fun x hx => h x (List.mem_cons_of_mem _ hx)), parseLine_eq]
    have hl := h l (List.mem_cons_self _ _)
    cases hk : lineKey l with
    | none => rfl
    | some k2 =>
      have : k ≠ k2 := fun hh => hl (by rw [hk, hh])
      exact Obj.get_set_other o k2 k _ this

theorem mem_foldl_parseLine (lines : List Str) (o : Obj) (p : Str × JsVal)
    (h : p ∈ lines.foldl parseLine o) :
    p ∈ o ∨ ∃ line ∈ lines, lineKey line = some p.1 ∧ p.2 = .str (lineValue line) := by
  induction lines generalizing o with
  | nil => exact Or.inl h
  | cons l ls ih =>
    rw [List.foldl_cons] at h
    rcases ih _ h with h1 | ⟨line, hl, hk⟩
    · rw [parseLine_eq] at h1
      cases hk : lineKey l with
      | none =>
        rw [hk] at h1
        exact Or.inl h1
      | some k2 =>
        rw [hk] at h1
        rcases Obj.mem_set _ _ _ _ h1 with h2 | h2
        · exact Or.inl h2
        · refine Or.inr ⟨l, List.mem_cons_self _ _, ?_⟩
          rw [h2]
          exact ⟨hk, rfl⟩
    · exact Or.inr ⟨line, List.mem_cons_of_mem _ hl, hk⟩

theorem parseSSDP_has (message : Message) (rinfo : RemoteInfo) (k : Str)
    (h1 : k ≠ js "address") (h2 : k ≠ js "family") (h3 : k ≠ js "port") (h4 : k ≠ js "size") :
    (parseSSDP message rinfo).has k = true ↔
      Obj.has ((split message.toString (js "\r\n")).foldl parseLine []) k = true := by
  simp only [parseSSDP, RemoteInfo.entries, List.foldl_cons, List.foldl_nil]
  rw [Obj.has_set, Obj.has_set, Obj.has_set, Obj.has_set]
  constructor
  · rintro ((((h | ⟨h, _⟩) | ⟨h, _⟩) | ⟨h, _⟩) | ⟨h, _⟩)
    · exact h
    · exact absurd h h1
    · exact absurd h h2
    · exact absurd h h3
    · exact absurd h h4
  · intro h
    exact Or.inl (Or.inl (Or.inl (Or.inl h)))

theorem parseSSDP_mem (message : Message) (rinfo : RemoteInfo) (p : Str × JsVal)
    (h : p ∈ parseSSDP message rinfo)
    (h1 : p.1 ≠ js "address") (h2 : p.1 ≠ js "family") (h3 : p.1 ≠ js "port")
    (h4 : p.1 ≠ js "size") :
    p ∈ (split message.toString (js "\r\n")).foldl parseLine [] := by
  simp only [parseSSDP, RemoteInfo.entries, List.foldl_cons, List.foldl_nil] at h
  rcases Obj.mem_set _ _ _ _ h with h | h
  · rcases Obj.mem_set _ _ _ _ h with h | h
    · rcases Obj.mem_set _ _ _ _ h with h | h
      · rcases Obj.mem_set _ _ _ _ h with h | h
        · exact h
        · rw [h] at h1; exact absurd rfl h1
      · rw [h] at h2; exact absurd rfl h2
    · rw [h] at h3; exact absurd rfl h3
  · rw [h] at h4; exact absurd rfl h4

/-! ## Which keys a decoded message holds -/

/-- C13, as the code has it: for a key `k` that is neither a remote-info field name nor
`__proto__`, the decoded message has `k` exactly when some CR LF separated line has its
first colon at an index greater than 1 and the text before it, trimmed and lower-cased, is
`k`; the value of `k` is then everything after the first colon, later colons included,
trimmed, of the last such line. -/
theorem C13_header_entries (message : Message) (rinfo : RemoteInfo) (k : Str)
    (h1 : k ≠ js "address") (h2 : k ≠ js "family") (h3 : k ≠ js "port") (h4 : k ≠ js "size")
    (hp : k ≠ js "__proto__") :
    ((parseSSDP message rinfo).has k = true ↔
        ∃ line ∈ split message.toString (js "\r\n"), lineKey line = some k)
    ∧ ∀ (pre post : List Str) (line : Str),
        split message.toString (js "\r\n") = pre ++ line :: post →
        lineKey line = some k → (∀ l ∈ post, lineKey l ≠ some k) →
        (parseSSDP message rinfo).get k = .str (lineValue line) := by
  constructor
  · rw [parseSSDP_has message rinfo k h1 h2 h3 h4, has_foldl_parseLine _ _ _ hp]
    simp [Obj.has]
  · intro pre post line hsplit hk hpost
    rw [parseSSDP_header message rinfo k h1 h2 h3 h4, hsplit, List.foldl_append,
      List.foldl_cons, get_foldl_parseLine_other post _ k hpost, parseLine_eq, hk]
    exact Obj.get_set_self _ k _ hp

set_option maxRecDepth 100000 in
/-- C13 at a message with two ST lines and a value that holds colons. -/
theorem C13_header_entries_witness :
    (parseSSDP (.text (js "ST: a\r\nLOCATION: http://h:80/x\r\nst : b:c\r\n\r\n")) demoSender).has
        (js "st") = true
    ∧ (parseSSDP (.text (js "ST: a\r\nLOCATION: http://h:80/x\r\nst : b:c\r\n\r\n")) demoSender).get
        (js "st") = .str (lineValue (js "st : b:c"))
    ∧ lineValue (js "st : b:c") = js "b:c"
    ∧ (parseSSDP (.text (js "ST: a\r\nLOCATION: http://h:80/x\r\nst : b:c\r\n\r\n")) demoSender).get
        (js "location") = .str (lineValue (js "LOCATION: http://h:80/x"))
    ∧ lineValue (js "LOCATION: http://h:80/x") = js "http://h:80/x" :=
  ⟨(C13_header_entries (.text (js "ST: a\r\nLOCATION: http://h:80/x\r\nst : b:c\r\n\r\n"))
      demoSender (js "st") (by decide) (by decide) (by decide) (by decide) (by decide)).1.2
      ⟨js "ST: a", by decide, by decide⟩,
   (C13_header_entries (.text (js "ST: a\r\nLOCATION: http://h:80/x\r\nst : b:c\r\n\r\n"))
      demoSender (js "st") (by decide) (by decide) (by decide) (by decide) (by decide)).2
      [js "ST: a", js "LOCATION: http://h:80/x"] [js "", js ""] (js "st : b:c")
      (by decide) (by decide) (by decide),
   by decide,
   (C13_header_entries (.text (js "ST: a\r\nLOCATION: http://h:80/x\r\nst : b:c\r\n\r\n"))
      demoSender (js "location") (by decide) (by decide) (by decide) (by decide)
      (by decide)).2
      [js "ST: a"] [js "st : b:c", js "", js ""] (js "LOCATION: http://h:80/x")
      (by decide) (by decide) (by decide),
   by decide⟩

set_option maxRecDepth 100000 in
/-- C13 fails as stated: `__proto__` is not a remote-info field name and the line
"__proto__: x" has its first colon at index 9 with the name `__proto__` before it, yet the
decoded message has no property `__proto__`. -/
theorem C13_proto_line_sets_nothing :
    js "__proto__" ≠ js "address" ∧ js "__proto__" ≠ js "family"
    ∧ js "__proto__" ≠ js "port" ∧ js "__proto__" ≠ js "size"
    ∧ indexOf (js "__proto__: x") (js ":") = 9
    ∧ (∃ line ∈ split (Message.text (js "__proto__: x\r\n\r\n")).toString (js "\r\n"),
        lineKey line = some (js "__proto__"))
    ∧ (parseSSDP (.text (js "__proto__: x\r\n\r\n")) demoSender).has (js "__proto__") = false
    ∧ parseSSDP (.text (js "__proto__: x\r\n\r\n")) demoSender = demoSender.entries := by
  decide

/-! ## Shape of the keys and values -/

theorem head?_of_isPrefix (a l : Str) (h : a <+: l) (hne : a ≠ []) : a.head? = l.head? := by
  obtain ⟨t, ht⟩ := h
  cases a with
  | nil => exact absurd rfl hne
  | cons x xs => rw [← ht]; rfl

/-- A trimmed text has no leading or trailing white space. -/
theorem noOuterWhiteSpace_trim (s : Str) : noOuterWhiteSpace (trim s) = true := by
  have hlast := List.head?_dropWhile_not isWhiteSpace (s.dropWhile isWhiteSpace).reverse
  have hfirst := List.head?_dropWhile_not isWhiteSpace s
  have hpre : trim s <+: s.dropWhile isWhiteSpace := by
    unfold trim
    rw [← List.reverse_suffix, List.reverse_reverse]
    exact List.dropWhile_suffix _
  simp only [noOuterWhiteSpace, Bool.and_eq_true]
  constructor
  · by_cases hne : trim s = []
    · rw [hne]; rfl
    · rw [head?_of_isPrefix _ _ hpre hne]
      cases hh : (s.dropWhile isWhiteSpace).head? with
      | none => rfl
      | some x =>
        rw [hh] at hfirst
        simp [Option.all, hfirst]
  · unfold trim
    rw [List.getLast?_reverse]
    cases hh : ((s.dropWhile isWhiteSpace).reverse.dropWhile isWhiteSpace).head? with
    | none => rfl
    | some x =>
      rw [hh] at hlast
      simp [Option.all, hlast]

/-! ## Lower-casing -/

set_option maxRecDepth 100000 in
/-- Lower-casing, evaluated: letters outside ASCII, the two lower cases of the capital
sigma, U+0130, a letter outside the basic plane, and a surrogate that stands alone. -/
theorem toLowerCase_examples :
    toLowerCase (js "ÉCOLE") = js "école"
    ∧ toLowerCase (js "ΟΔΟΣ ΣΟΦΟΣ") = js "οδος σοφος"
    ∧ toLowerCase [0x130] = [0x69, 0x307]
    ∧ toLowerCase (js "𐐀") = js "𐐨"
    ∧ toLowerCase [0xD801, 0x41] = [0xD801, 0x61]
    ∧ toLowerCase (js "Cache-Control") = js "cache-control" := by
  decide

set_option maxRecDepth 1000000 in
theorem lowerRuns_apart :
    lowerRuns.all (fun r => lowerRuns.all (fun f => r.apart f)) = true := by
  decide

set_option maxRecDepth 1000000 in
theorem lowerRuns_imageClean : lowerRuns.all (fun r => r.imageClean) = true := by
  decide

theorem CaseRun.imageAvoids_sound (r : CaseRun) (a b c d : Nat)
    (h : r.imageAvoids a b = true) (hc : r.covers c = true) (ha : a ≤ d) (hb : d ≤ b) :
    c - r.lo + r.target ≠ d := by
  simp only [CaseRun.imageAvoids, CaseRun.covers, Bool.or_eq_true, Bool.and_eq_true,
    decide_eq_true_eq] at h hc
  omega

theorem CaseRun.apart_sound (r f : CaseRun) (h : r.apart f = true) (c : Nat)
    (hc : r.covers c = true) : f.covers (c - r.lo + r.target) = false := by
  obtain ⟨lo, hi, alt, tg⟩ := r
  obtain ⟨flo, fhi, falt, ftg⟩ := f
  cases alt <;> cases falt <;>
    simp only [CaseRun.apart, CaseRun.imageAvoids, CaseRun.covers, Bool.or_eq_true,
      Bool.and_eq_true, decide_eq_true_eq, Bool.not_true, Bool.not_false, Bool.false_or,
      Bool.true_or, Bool.false_and, Bool.true_and, Bool.and_true, Bool.and_false, Bool.or_false,
      Bool.and_eq_false_iff, Bool.or_eq_false_iff, decide_eq_false_iff_not, ne_eq,
      Bool.false_eq_true, or_false, false_or, and_true, true_and] at h hc ⊢ <;>
    omega

theorem lowerRuns_covers (c : Nat) (r : CaseRun)
    (h : lowerRuns.find? (fun r => r.covers c) = some r) :
    r ∈ lowerRuns ∧ r.covers c = true := by
  have h2 := List.find?_some h
  exact ⟨List.mem_of_find?_eq_some h, h2⟩

/-- What a run maps to is neither U+0130, nor white space, nor a surrogate, and no run
maps it further. -/
theorem lowerRuns_image (c : Nat) (r : CaseRun) (hr : r ∈ lowerRuns)
    (hc : r.covers c = true) :
    isLowered (c - r.lo + r.target) ∧ isWhiteSpace (c - r.lo + r.target) = false
    ∧ isHighSurrogate (c - r.lo + r.target) = false
    ∧ isLowSurrogate (c - r.lo + r.target) = false := by
  have hclean := List.all_eq_true.mp lowerRuns_imageClean r hr
  simp only [CaseRun.imageClean, Bool.and_eq_true] at hclean
  obtain ⟨⟨⟨⟨⟨⟨⟨⟨⟨⟨⟨a1, a2⟩, a3⟩, a4⟩, a5⟩, a6⟩, a7⟩, a8⟩, a9⟩, a10⟩, a11⟩, a12⟩ := hclean
  have av := fun a b d h => CaseRun.imageAvoids_sound r a b c d h hc
  refine ⟨⟨av _ _ _ a1 (Nat.le_refl _) (Nat.le_refl _), ?_⟩, ?_, ?_, ?_⟩
  · rw [List.find?_eq_none]
    intro f hf
    have hap := List.all_eq_true.mp (List.all_eq_true.mp lowerRuns_apart r hr) f hf
    simp [CaseRun.apart_sound r f hap c hc]
  · have b2 := av _ _ (c - r.lo + r.target) a2
    have b3 := av _ _ (c - r.lo + r.target) a3
    have b4 := av _ _ (c - r.lo + r.target) a4
    have b5 := av _ _ (c - r.lo + r.target) a5
    have b6 := av _ _ (c - r.lo + r.target) a6
    have b7 := av _ _ (c - r.lo + r.target) a7
    have b8 := av _ _ (c - r.lo + r.target) a8
    have b9 := av _ _ (c - r.lo + r.target) a9
    have b10 := av _ _ (c - r.lo + r.target) a10
    have b11 := av _ _ (c - r.lo + r.target) a11
    simp only [isWhiteSpace, Bool.or_eq_false_iff, Bool.and_eq_false_iff,
      decide_eq_false_iff_not]
    omega
  · have b12 := av _ _ (c - r.lo + r.target) a12
    simp only [isHighSurrogate, Bool.and_eq_false_iff, decide_eq_false_iff_not]
    omega
  · have b12 := av _ _ (c - r.lo + r.target) a12
    simp only [isLowSurrogate, Bool.and_eq_false_iff, decide_eq_false_iff_not]
    omega

theorem lowerAt_special (d : Nat) (h : d = 0x69 ∨ d = 0x307 ∨ d = 0x3C2 ∨ d = 0x3C3) :
    isLowered d ∧ isWhiteSpace d = false ∧ isHighSurrogate d = false
    ∧ isLowSurrogate d = false := by
  rcases h with h | h | h | h <;> subst h <;> unfold isLowered <;> decide

/-- The code points that lower-casing puts in the place of one code point: each is left
as it is by lower-casing, is white space only if the code point was, and is a surrogate
only if it is the code point itself. -/
theorem lowerAt_spec (before after : List Nat) (c d : Nat) (h : d ∈ lowerAt before c after) :
    isLowered d ∧ (isWhiteSpace c = false → isWhiteSpace d = false)
    ∧ (isHighSurrogate d = true ∨ isLowSurrogate d = true → d = c) := by
  have special := fun hd => lowerAt_special d hd
  unfold lowerAt at h
  split at h
  · simp only [List.mem_cons, List.mem_singleton, List.not_mem_nil, or_false] at h
    have s := special (by omega)
    exact ⟨s.1, fun _ => s.2.1, fun h => by simp [s.2.2.1, s.2.2.2] at h⟩
  · split at h
    · have hd : d = 0x3C2 ∨ d = 0x3C3 := by
        split at h <;> simp only [List.mem_singleton] at h <;> omega
      have s := special (by omega)
      exact ⟨s.1, fun _ => s.2.1, fun h => by simp [s.2.2.1, s.2.2.2] at h⟩
    · rename_i h1 h2
      simp only [List.mem_singleton] at h
      subst h
      unfold lowerCodePoint
      cases hf : lowerRuns.find? (fun r => r.covers c) with
      | none => exact ⟨⟨h1, hf⟩, fun h => h, fun _ => rfl⟩
      | some r =>
        obtain ⟨hr, hc⟩ := lowerRuns_covers c r hf
        obtain ⟨i1, i2, i3, i4⟩ := lowerRuns_image c r hr hc
        refine ⟨i1, fun _ => i2, ?_⟩
        intro h
        rcases h with h | h
        · simp [i3] at h
        · simp [i4] at h

theorem lowerAt_ne_nil (before after : List Nat) (c : Nat) : lowerAt before c after ≠ [] := by
  unfold lowerAt
  split
  · simp
  · split <;> simp

theorem lowerAt_of_isLowered (before after : List Nat) (d : Nat) (h : isLowered d) :
    lowerAt before d after = [d] := by
  have hs : lowerRuns.find? (fun r => r.covers 0x3A3) ≠ none := by decide
  unfold lowerAt
  have h3 : d ≠ 0x3A3 := fun e => hs (by rw [← e]; exact h.2)
  rw [if_neg h.1, if_neg h3]
  unfold lowerCodePoint
  rw [h.2]

theorem lowerCodePoints_of_isLowered (l before : List Nat) (h : ∀ d ∈ l, isLowered d) :
    lowerCodePoints before l = l := by
  induction l generalizing before with
  | nil => rfl
  | cons c rest ih =>
    rw [lowerCodePoints, lowerAt_of_isLowered _ _ _ (h c (List.mem_cons_self _ _)),
      ih _ (fun d hd => h d (List.mem_cons_of_mem _ hd))]
    rfl

theorem lowerCodePoints_isLowered (l before : List Nat) :
    ∀ d ∈ lowerCodePoints before l, isLowered d := by
  induction l generalizing before with
  | nil => intro d hd; simp [lowerCodePoints] at hd
  | cons c rest ih =>
    intro d hd
    rw [lowerCodePoints, List.mem_append] at hd
    rcases hd with hd | hd
    · exact (lowerAt_spec _ _ _ _ hd).1
    · exact ih _ d hd

/-! ## Code points and code units -/

theorem codePointsFrom_some (h : Nat) (t : Str)
    (ht : ∀ u ∈ t.head?, isLowSurrogate u = false) :
    codePointsFrom (some h) t = h :: codePointsFrom none t := by
  cases t with
  | nil => rfl
  | cons u t =>
    have hu : isLowSurrogate u = false := ht u rfl
    simp only [codePointsFrom, hu, Bool.false_eq_true, if_false]
    split <;> rfl

theorem unitsOfCodePoint_ne_nil (c : Nat) : unitsOfCodePoint c ≠ [] := by
  unfold unitsOfCodePoint utf16OfCodePoint
  split
  · split <;> simp
  · simp

/-- The first code unit of a code point is no trailing surrogate unless the code point is
one. -/
theorem head?_unitsOfCodePoint (c u : Nat) (h : u ∈ (unitsOfCodePoint c).head?)
    (hc : isLowSurrogate c = false) : isLowSurrogate u = false := by
  unfold unitsOfCodePoint utf16OfCodePoint at h
  split at h
  · split at h
    · simp only [List.head?_cons, Option.mem_def, Option.some.injEq] at h
      subst h; exact hc
    · simp only [List.head?_cons, Option.mem_def, Option.some.injEq] at h
      subst h
      simp only [isLowSurrogate, Bool.and_eq_false_iff, decide_eq_false_iff_not]
      omega
  · simp only [List.head?_cons, Option.mem_def, Option.some.injEq] at h
    subst h; exact hc

theorem head?_flatMap_unitsOfCodePoint (l : List Nat) (u : Nat)
    (h : u ∈ (l.flatMap unitsOfCodePoint).head?) :
    ∃ c ∈ l.head?, u ∈ (unitsOfCodePoint c).head? := by
  cases l with
  | nil => simp at h
  | cons c rest =>
    refine ⟨c, rfl, ?_⟩
    rw [List.flatMap_cons] at h
    cases hu : unitsOfCodePoint c with
    | nil => exact absurd hu (unitsOfCodePoint_ne_nil c)
    | cons a t => rw [hu] at h; exact h

/-- Reading the code units of code points gives the code points back, when no leading
surrogate is followed by a trailing one. -/
theorem codePointsFrom_unitsOfCodePoint (l : List Nat) (hl : List.Chain' unpaired l) :
    codePointsFrom none (l.flatMap unitsOfCodePoint) = l := by
  induction l with
  | nil => rfl
  | cons x rest ih =>
    have ihr := ih hl.tail
    rw [List.flatMap_cons]
    by_cases hx : 0x10000 ≤ x ∧ x < 0x110000
    · have hu : unitsOfCodePoint x
          = [0xD800 + (x - 0x10000) / 1024, 0xDC00 + (x - 0x10000) % 1024] := by
        unfold unitsOfCodePoint utf16OfCodePoint
        rw [if_pos hx.2, if_neg (by omega)]
      have h1 : isHighSurrogate (0xD800 + (x - 0x10000) / 1024) = true := by
        simp only [isHighSurrogate, Bool.and_eq_true, decide_eq_true_eq]
        omega
      have h2 : isLowSurrogate (0xDC00 + (x - 0x10000) % 1024) = true := by
        simp only [isLowSurrogate, Bool.and_eq_true, decide_eq_true_eq]
        omega
      have e : 0x10000 + (0xD800 + (x - 0x10000) / 1024 - 0xD800) * 1024
          + (0xDC00 + (x - 0x10000) % 1024 - 0xDC00) = x := by omega
      rw [hu]
      show codePointsFrom none ((0xD800 + (x - 0x10000) / 1024)
        :: (0xDC00 + (x - 0x10000) % 1024) :: rest.flatMap unitsOfCodePoint) = x :: rest
      simp only [codePointsFrom, h1, h2, if_true, ihr]
      rw [e]
    · have hu : unitsOfCodePoint x = [x] := by
        unfold unitsOfCodePoint utf16OfCodePoint
        split
        · rw [if_pos (by omega)]
        · rfl
      rw [hu]
      show codePointsFrom none (x :: rest.flatMap unitsOfCodePoint) = x :: rest
      simp only [codePointsFrom]
      split
      · rename_i hhigh
        rw [codePointsFrom_some, ihr]
        intro u hu2
        obtain ⟨c, hc, hcu⟩ := head?_flatMap_unitsOfCodePoint rest u hu2
        apply head?_unitsOfCodePoint c u hcu
        have hxc : unpaired x c := (List.chain'_cons'.mp hl).1 c hc
        cases hlow : isLowSurrogate c with
        | false => rfl
        | true => exact absurd ⟨hhigh, hlow⟩ hxc
      · rw [ihr]

theorem head?_codePointsFrom_some (h : Nat) (s : Str) (hh : isLowSurrogate h = false) :
    ∀ y ∈ (codePointsFrom (some h) s).head?, isLowSurrogate y = false := by
  intro y hy
  cases s with
  | nil =>
    simp only [codePointsFrom, List.head?_cons, Option.mem_def, Option.some.injEq] at hy
    subst hy; exact hh
  | cons c cs =>
    simp only [codePointsFrom] at hy
    split at hy
    · simp only [List.head?_cons, Option.mem_def, Option.some.injEq] at hy
      subst hy
      simp only [isLowSurrogate, Bool.and_eq_false_iff, decide_eq_false_iff_not]
      omega
    · split at hy <;>
        simp only [List.head?_cons, Option.mem_def, Option.some.injEq] at hy <;>
        subst hy <;> exact hh

theorem isLowSurrogate_of_isHighSurrogate (c : Nat) (h : isHighSurrogate c = true) :
    isLowSurrogate c = false := by
  simp only [isHighSurrogate, Bool.and_eq_true, decide_eq_true_eq] at h
  simp only [isLowSurrogate, Bool.and_eq_false_iff, decide_eq_false_iff_not]
  omega

/-- The code points read from code units never have a leading surrogate followed by a
trailing one. -/
theorem chain_codePointsFrom (s : Str) (st : Option Nat) :
    List.Chain' unpaired (codePointsFrom st s) := by
  induction s generalizing st with
  | nil => cases st <;> simp [codePointsFrom]
  | cons c cs ih =>
    cases st with
    | none =>
      simp only [codePointsFrom]
      split
      · exact ih _
      · rename_i hc
        rw [List.chain'_cons']
        exact ⟨fun y _ hp => hc hp.1, ih _⟩
    | some h =>
      simp only [codePointsFrom]
      split
      · rw [List.chain'_cons']
        refine ⟨fun y _ hp => ?_, ih _⟩
        have := hp.1
        simp only [isHighSurrogate, Bool.and_eq_true, decide_eq_true_eq] at this
        omega
      · rename_i hlow
        split
        · rename_i hhigh
          rw [List.chain'_cons']
          refine ⟨fun y hy hp => ?_, ih _⟩
          have := head?_codePointsFrom_some c cs
            (isLowSurrogate_of_isHighSurrogate c hhigh) y hy
          rw [this] at hp
          exact absurd hp.2 (by simp)
        · rename_i hhigh
          rw [List.chain'_cons', List.chain'_cons']
          refine ⟨fun y hy hp => ?_, fun y _ hp => hhigh hp.1, ih _⟩
          simp only [List.head?_cons, Option.mem_def, Option.some.injEq] at hy
          subst hy
          exact hlow hp.2

theorem head?_lowerCodePoints (l before : List Nat) (y : Nat)
    (h : y ∈ (lowerCodePoints before l).head?) :
    ∃ c ∈ l.head?, ∃ after, y ∈ lowerAt before c after := by
  cases l with
  | nil => simp [lowerCodePoints] at h
  | cons c rest =>
    refine ⟨c, rfl, rest, ?_⟩
    rw [lowerCodePoints] at h
    cases hu : lowerAt before c rest with
    | nil => exact absurd hu (lowerAt_ne_nil _ _ _)
    | cons a t =>
      rw [hu] at h
      simp only [List.cons_append, List.head?_cons, Option.mem_def, Option.some.injEq] at h
      subst h
      exact List.mem_cons_self _ _

theorem chain_lowerAt (before after : List Nat) (c : Nat) :
    List.Chain' unpaired (lowerAt before c after) := by
  unfold lowerAt
  split
  · rw [List.chain'_cons]
    exact ⟨by unfold unpaired; decide, List.chain'_singleton _⟩
  · split <;> exact List.chain'_singleton _

/-- Lower-casing makes no surrogate pair where none was. -/
theorem chain_lowerCodePoints (l before : List Nat) (hl : List.Chain' unpaired l) :
    List.Chain' unpaired (lowerCodePoints before l) := by
  induction l generalizing before with
  | nil => simp [lowerCodePoints]
  | cons c rest ih =>
    rw [lowerCodePoints, List.chain'_append]
    refine ⟨chain_lowerAt _ _ _, ih _ hl.tail, ?_⟩
    intro x hx y hy hp
    have hxc : x = c :=
      (lowerAt_spec _ _ _ _ (List.mem_of_mem_getLast? hx)).2.2 (Or.inl hp.1)
    obtain ⟨c2, hc2, after, hy2⟩ := head?_lowerCodePoints rest _ y hy
    have hyc : y = c2 := (lowerAt_spec _ _ _ _ hy2).2.2 (Or.inr hp.2)
    subst hxc; subst hyc
    exact (List.chain'_cons'.mp hl).1 y hc2 hp

/-- Lower-casing a lower-cased text changes nothing. -/
theorem toLowerCase_toLowerCase (s : Str) : toLowerCase (toLowerCase s) = toLowerCase s := by
  unfold toLowerCase
  rw [codePointsFrom_unitsOfCodePoint _ (chain_lowerCodePoints _ _ (chain_codePointsFrom _ _)),
    lowerCodePoints_of_isLowered _ _ (lowerCodePoints_isLowered _ _)]

/-! ## Lower-casing and white space -/

theorem isWhiteSpace_of_le (c : Nat) (h : 0x10000 ≤ c) : isWhiteSpace c = false := by
  simp only [isWhiteSpace, Bool.or_eq_false_iff, Bool.and_eq_false_iff,
    decide_eq_false_iff_not]
  omega

theorem isWhiteSpace_of_isHighSurrogate (c : Nat) (h : isHighSurrogate c = true) :
    isWhiteSpace c = false := by
  simp only [isHighSurrogate, Bool.and_eq_true, decide_eq_true_eq] at h
  simp only [isWhiteSpace, Bool.or_eq_false_iff, Bool.and_eq_false_iff,
    decide_eq_false_iff_not]
  omega

/-- The code units of a code point that is no white space are no white space. -/
theorem unitsOfCodePoint_isWhiteSpace (c u : Nat) (hu : u ∈ unitsOfCodePoint c)
    (hc : isWhiteSpace c = false) : isWhiteSpace u = false := by
  unfold unitsOfCodePoint utf16OfCodePoint at hu
  split at hu
  · split at hu
    · simp only [List.mem_singleton] at hu
      subst hu; exact hc
    · simp only [List.mem_cons, List.mem_singleton, List.not_mem_nil, or_false] at hu
      simp only [isWhiteSpace, Bool.or_eq_false_iff, Bool.and_eq_false_iff,
        decide_eq_false_iff_not]
      omega
  · simp only [List.mem_singleton] at hu
    subst hu; exact hc

theorem codePointsFrom_some_ne_nil (h : Nat) (s : Str) : codePointsFrom (some h) s ≠ [] := by
  cases s with
  | nil => simp [codePointsFrom]
  | cons c cs =>
    simp only [codePointsFrom]
    split
    · simp
    · split <;> simp

theorem codePointsFrom_eq_nil (st : Option Nat) (s : Str) (h : codePointsFrom st s = []) :
    s = [] := by
  cases st with
  | some a => exact absurd h (codePointsFrom_some_ne_nil a s)
  | none =>
    cases s with
    | nil => rfl
    | cons c cs =>
      simp only [codePointsFrom] at h
      split at h
      · exact absurd h (codePointsFrom_some_ne_nil c cs)
      · simp at h

theorem getLast?_cons_of_mem (a u : Nat) (l : List Nat) (h : u ∈ l.getLast?) :
    u ∈ (a :: l).getLast? := by
  cases l with
  | nil => simp at h
  | cons b t => rw [List.getLast?_cons_cons]; exact h

theorem mem_getLast?_cons (a y : Nat) (l : List Nat) (h : y ∈ (a :: l).getLast?) :
    (l = [] ∧ y = a) ∨ y ∈ l.getLast? := by
  cases l with
  | nil =>
    simp only [List.getLast?_singleton, Option.mem_def, Option.some.injEq] at h
    exact Or.inl ⟨rfl, h.symm⟩
  | cons b t => rw [List.getLast?_cons_cons] at h; exact Or.inr h

/-- The first code point read is no white space when the first code unit is none. -/
theorem head?_codePointsFrom (s : Str) (st : Option Nat)
    (hst : ∀ h ∈ st, isWhiteSpace h = false) (hs : ∀ u ∈ s.head?, isWhiteSpace u = false) :
    ∀ y ∈ (codePointsFrom st s).head?, isWhiteSpace y = false := by
  have hsome : ∀ (h : Nat) (t : Str), isWhiteSpace h = false →
      ∀ y ∈ (codePointsFrom (some h) t).head?, isWhiteSpace y = false := by
    intro h t hh y hy
    cases t with
    | nil =>
      simp only [codePointsFrom, List.head?_cons, Option.mem_def, Option.some.injEq] at hy
      subst hy; exact hh
    | cons c cs =>
      simp only [codePointsFrom] at hy
      split at hy
      · simp only [List.head?_cons, Option.mem_def, Option.some.injEq] at hy
        subst hy
        exact isWhiteSpace_of_le _ (by omega)
      · split at hy <;>
          simp only [List.head?_cons, Option.mem_def, Option.some.injEq] at hy <;>
          subst hy <;> exact hh
  cases st with
  | some h => exact hsome h s (hst h rfl)
  | none =>
    cases s with
    | nil => intro y hy; simp [codePointsFrom] at hy
    | cons c cs =>
      intro y hy
      simp only [codePointsFrom] at hy
      split at hy
      · rename_i hc
        exact hsome c cs (isWhiteSpace_of_isHighSurrogate c hc) y hy
      · simp only [List.head?_cons, Option.mem_def, Option.some.injEq] at hy
        subst hy
        exact hs _ rfl

/-- The last code point read is no white space when the last code unit is none. -/
theorem getLast?_codePointsFrom (s : Str) (st : Option Nat)
    (hst : ∀ h ∈ st, isWhiteSpace h = false)
    (hs : ∀ u ∈ s.getLast?, isWhiteSpace u = false) :
    ∀ y ∈ (codePointsFrom st s).getLast?, isWhiteSpace y = false := by
  induction s generalizing st with
  | nil =>
    intro y hy
    cases st with
    | none => simp [codePointsFrom] at hy
    | some h =>
      simp only [codePointsFrom, List.getLast?_singleton, Option.mem_def,
        Option.some.injEq] at hy
      subst hy; exact hst _ rfl
  | cons c cs ih =>
    have hcs : ∀ u ∈ cs.getLast?, isWhiteSpace u = false :=
      fun u hu => hs u (getLast?_cons_of_mem c u cs hu)
    have hc : cs = [] → isWhiteSpace c = false := fun e => hs c (by rw [e]; rfl)
    have step : ∀ a : Nat, (cs = [] → isWhiteSpace a = false) →
        ∀ y ∈ (a :: codePointsFrom none cs).getLast?, isWhiteSpace y = false := by
      intro a ha y hy
      rcases mem_getLast?_cons a y _ hy with ⟨e, rfl⟩ | h2
      · exact ha (codePointsFrom_eq_nil _ _ e)
      · exact ih none (fun h hh => by simp at hh) hcs y h2
    have viaSome : ∀ y ∈ (codePointsFrom (some c) cs).getLast?, isHighSurrogate c = true →
        isWhiteSpace y = false := by
      intro y hy hhigh
      refine ih (some c) (fun h hh => ?_) hcs y hy
      simp only [Option.mem_def, Option.some.injEq] at hh
      subst hh
      exact isWhiteSpace_of_isHighSurrogate _ hhigh
    intro y hy
    cases st with
    | none =>
      simp only [codePointsFrom] at hy
      split at hy
      · rename_i hhigh
        exact viaSome y hy hhigh
      · exact step c hc y hy
    | some h =>
      simp only [codePointsFrom] at hy
      split at hy
      · exact step _ (fun _ => isWhiteSpace_of_le _ (by omega)) y hy
      · split at hy
        · rename_i hhigh
          rcases mem_getLast?_cons h y _ hy with ⟨e, _⟩ | h2
          · exact absurd e (codePointsFrom_some_ne_nil c cs)
          · exact viaSome y h2 hhigh
        · rcases mem_getLast?_cons h y _ hy with ⟨e, _⟩ | h2
          · simp at e
          · exact step c hc y h2

theorem lowerCodePoints_ne_nil (l before : List Nat) (h : l ≠ []) :
    lowerCodePoints before l ≠ [] := by
  cases l with
  | nil => exact absurd rfl h
  | cons c rest =>
    rw [lowerCodePoints]
    intro e
    exact lowerAt_ne_nil _ _ _ (List.append_eq_nil.mp e).1

theorem getLast?_lowerCodePoints (l before : List Nat) (y : Nat)
    (h : y ∈ (lowerCodePoints before l).getLast?) :
    ∃ c ∈ l.getLast?, ∃ b a, y ∈ lowerAt b c a := by
  induction l generalizing before with
  | nil => simp [lowerCodePoints] at h
  | cons c rest ih =>
    rw [lowerCodePoints] at h
    cases rest with
    | nil =>
      simp only [lowerCodePoints, List.append_nil] at h
      exact ⟨c, rfl, before, [], List.mem_of_mem_getLast? h⟩
    | cons d r =>
      rw [List.getLast?_append] at h
      cases hY : (lowerCodePoints (c :: before) (d :: r)).getLast? with
      | none =>
        rw [List.getLast?_eq_none_iff] at hY
        exact absurd hY (lowerCodePoints_ne_nil _ _ (by simp))
      | some z =>
        rw [hY] at h
        have e : z = y := Option.some.inj h
        subst e
        obtain ⟨c2, hc2, b, a, hz⟩ := ih (c :: before) hY
        exact ⟨c2, getLast?_cons_of_mem c c2 _ hc2, b, a, hz⟩

theorem getLast?_flatMap_unitsOfCodePoint (l : List Nat) (u : Nat)
    (h : u ∈ (l.flatMap unitsOfCodePoint).getLast?) :
    ∃ c ∈ l.getLast?, u ∈ unitsOfCodePoint c := by
  induction l with
  | nil => simp at h
  | cons c rest ih =>
    rw [List.flatMap_cons] at h
    cases rest with
    | nil =>
      simp only [List.flatMap_nil, List.append_nil] at h
      exact ⟨c, rfl, List.mem_of_mem_getLast? h⟩
    | cons d r =>
      rw [List.getLast?_append] at h
      cases hY : ((d :: r).flatMap unitsOfCodePoint).getLast? with
      | none =>
        rw [List.getLast?_eq_none_iff, List.flatMap_cons] at hY
        exact absurd (List.append_eq_nil.mp hY).1 (unitsOfCodePoint_ne_nil d)
      | some z =>
        rw [hY] at h
        have e : z = u := Option.some.inj h
        subst e
        obtain ⟨c2, hc2, hz⟩ := ih hY
        exact ⟨c2, getLast?_cons_of_mem c c2 _ hc2, hz⟩

theorem all_not_isWhiteSpace (o : Option Nat) :
    o.all (fun c => !isWhiteSpace c) = true ↔ ∀ u ∈ o, isWhiteSpace u = false := by
  cases o <;> simp [Option.all]

/-- Lower-casing keeps a text free of leading and trailing white space. -/
theorem noOuterWhiteSpace_toLowerCase (s : Str) (h : noOuterWhiteSpace s = true) :
    noOuterWhiteSpace (toLowerCase s) = true := by
  simp only [noOuterWhiteSpace, Bool.and_eq_true, all_not_isWhiteSpace] at h ⊢
  constructor
  · intro u hu
    obtain ⟨y, hy, hyu⟩ := head?_flatMap_unitsOfCodePoint _ u hu
    obtain ⟨c, hc, after, hcy⟩ := head?_lowerCodePoints _ _ y hy
    have h1 := head?_codePointsFrom s none (fun h hh => by simp at hh) h.1 c hc
    have h2 := (lowerAt_spec _ _ _ _ hcy).2.1 h1
    exact unitsOfCodePoint_isWhiteSpace y u (List.mem_of_mem_head? hyu) h2
  · intro u hu
    obtain ⟨y, hy, hyu⟩ := getLast?_flatMap_unitsOfCodePoint _ u hu
    obtain ⟨c, hc, b, a, hcy⟩ := getLast?_lowerCodePoints _ _ y hy
    have h1 := getLast?_codePointsFrom s none (fun h hh => by simp at hh) h.2 c hc
    have h2 := (lowerAt_spec _ _ _ _ hcy).2.1 h1
    exact unitsOfCodePoint_isWhiteSpace y u hyu h2

/-- The name and value a line carries are trimmed, and the name is in lower case. -/
theorem lineKey_shape (line k : Str) (h : lineKey line = some k) :
    noOuterWhiteSpace k = true ∧ toLowerCase k = k
    ∧ noOuterWhiteSpace (lineValue line) = true := by
  unfold lineKey at h
  split at h
  · simp only [Option.some.injEq] at h
    subst h
    exact ⟨noOuterWhiteSpace_toLowerCase _ (noOuterWhiteSpace_trim _),
      toLowerCase_toLowerCase _, noOuterWhiteSpace_trim _⟩
  · simp at h

/-- C17, as the code has it: every key that `parseSSDP` adds from a header line has no
leading or trailing white space and is unchanged by lower-casing, and every value it adds
from a header line is a text without leading or trailing white space; the key is empty
when only white space stands before the colon. -/
theorem C17_entry_shape (message : Message) (rinfo : RemoteInfo) (k : Str) (v : JsVal)
    (hmem : (k, v) ∈ parseSSDP message rinfo)
    (h1 : k ≠ js "address") (h2 : k ≠ js "family") (h3 : k ≠ js "port") (h4 : k ≠ js "size") :
    (∃ line ∈ split message.toString (js "\r\n"),
        lineKey line = some k ∧ v = .str (lineValue line))
    ∧ noOuterWhiteSpace k = true ∧ toLowerCase k = k
    ∧ ∃ s : Str, v = .str s ∧ noOuterWhiteSpace s = true := by
  have hm := parseSSDP_mem message rinfo (k, v) hmem h1 h2 h3 h4
  rcases mem_foldl_parseLine _ _ _ hm with h | ⟨line, hl, hk, hv⟩
  · simp at h
  · have hs := lineKey_shape line k hk
    exact ⟨⟨line, hl, hk, hv⟩, hs.1, hs.2.1, lineValue line, hv, hs.2.2⟩

set_option maxRecDepth 100000 in
/-- C17 at the header "  ÉCOLE :  ssdp:all  ", whose name is not ASCII. -/
theorem C17_entry_shape_witness :
    (js "école", JsVal.str (js "ssdp:all"))
        ∈ parseSSDP (.text (js "  ÉCOLE :  ssdp:all  \r\n\r\n")) demoSender
    ∧ noOuterWhiteSpace (js "école") = true ∧ toLowerCase (js "école") = js "école"
    ∧ ∃ s : Str, JsVal.str (js "ssdp:all") = .str s ∧ noOuterWhiteSpace s = true :=
  ⟨by decide,
   (C17_entry_shape (.text (js "  ÉCOLE :  ssdp:all  \r\n\r\n")) demoSender (js "école")
      (.str (js "ssdp:all")) (by decide) (by decide) (by decide) (by decide) (by decide)).2⟩

set_option maxRecDepth 100000 in
/-- C17 fails as stated: the line "  : x" has its first colon at index 2 and only white
space before it, and the decoded message gets the empty key with the value "x". -/
theorem C17_empty_key :
    indexOf (js "  : x") (js ":") = 2
    ∧ (js "", JsVal.str (js "x")) ∈ parseSSDP (.text (js "  : x\r\n\r\n")) demoSender
    ∧ (parseSSDP (.text (js "  : x\r\n\r\n")) demoSender).has (js "") = true := by
  decide

/-! ## The payload of a datagram -/

/-- For an ASCII text the buffer of `t.length` bytes filled from `t` is the whole UTF-8
encoding of `t`, and decodes to `t`. -/
theorem payload_of_ascii (t : Str) (h : isAscii t) :
    Buffer.alloc t.length t = utf8Encode t ∧ Buffer.toString (Buffer.alloc t.length t) = t := by
  have henc : utf8Encode t = t := by
    have := utf8EncodeFrom_ascii t [] h
    simpa [utf8Encode, utf8EncodeFrom] using this
  have hdec : Buffer.toString t = t := by
    have := utf8DecodeFrom_ascii t [] h
    simpa [Buffer.toString, utf8DecodeFrom] using this
  have halloc : Buffer.alloc t.length t = t := by
    rw [Buffer.alloc_eq_take _ _ (utf8Encode_length t), henc, List.take_length]
  rw [halloc, henc]
  exact ⟨rfl, hdec⟩

set_option maxRecDepth 100000 in
/-- C16, evaluated: for the USN "uuid:1234::urn:café", whose last code unit is not
ASCII, the payload `stop` hands to the socket is one byte shorter than the UTF-8 encoding
of the byebye text, and decoding it gives the text without its last code unit, the LF of
the terminating blank line. -/
theorem C16_payload_cut_short :
    (demoEngine.stop (js "uuid:1234::urn:café") true).trace = demoEngine.trace ++
        [Effect.send .socket
          (Buffer.alloc (notify_bye (js "uuid:1234::urn:café")).length
            (notify_bye (js "uuid:1234::urn:café"))) 0
          (notify_bye (js "uuid:1234::urn:café")).length (.num 1900)
          (.str (js "239.255.255.250"))]
    ∧ (utf8Encode (notify_bye (js "uuid:1234::urn:café"))).length
        = (notify_bye (js "uuid:1234::urn:café")).length + 1
    ∧ Buffer.alloc (notify_bye (js "uuid:1234::urn:café")).length
          (notify_bye (js "uuid:1234::urn:café"))
        = (utf8Encode (notify_bye (js "uuid:1234::urn:café"))).dropLast
    ∧ Buffer.toString (Buffer.alloc (notify_bye (js "uuid:1234::urn:café")).length
          (notify_bye (js "uuid:1234::urn:café")))
        = (notify_bye (js "uuid:1234::urn:café")).dropLast
    ∧ Buffer.toString (Buffer.alloc (notify_bye (js "uuid:1234::urn:café")).length
          (notify_bye (js "uuid:1234::urn:café")))
        ≠ notify_bye (js "uuid:1234::urn:café") := by
  decide

end SimpleSSDP
